import Mathlib

/-!
Verification development for the fhir-populate record-graph assembly and
dependency-ordered publishing pipeline (src/main.py, src/common.py,
src/lib/crud.py and the per-resource generators under src/lib/resources/).

The Python program is shallowly embedded: records are modelled by their
identifier and reference structure (the scalar narrative/attribute fields do
not participate in any property considered here), randomness is an explicit
stream of natural-number draws consumed in the order the source consumes
them, values obtained from the operating system rather than the seeded
generator (uuid4 identifiers, the wall clock) are separate explicit inputs,
and fallible operations (random.randint with an empty range, random.choice
on an empty sequence, raised exceptions during publishing) return Except
values.
-/

namespace FhirPopulate

/-! ## Issues and server responses (src/common.py) -/

/-- Severity of an Issue in a FHIR OperationOutcome, as read from
issue.get('severity') in common.py: 'error', 'warning', 'information',
or anything else ('unknown'). -/
inductive Severity where
  | error
  | warning
  | information
  | unknown
deriving DecidableEq, Repr

/-- One element of a response's 'issue' list: severity plus diagnostics
string (common.py lines 64-67). -/
structure Issue where
  severity : Severity
  diagnostics : String
deriving DecidableEq, Repr

/-- A FHIR server response to a create call, as consumed by main.py:
an optional 'id' field (the store-assigned identifier) and a possibly
empty 'issue' list. -/
structure FHIRResponse where
  id : Option String
  issue : List Issue
deriving DecidableEq, Repr

/-- check_fhir_response (common.py lines 43-98): returns True when the
response has no issues at all, otherwise False exactly when some issue has
severity 'error' (warnings and information are printed or ignored but do
not fail the check). -/
def check_fhir_response (response : FHIRResponse) : Bool :=
  if response.issue.isEmpty then
    true
  else
    !(response.issue.any fun i => i.severity == Severity.error)

/-- The diagnostics of the error-severity issues of a response, in order:
exactly the diagnostics that check_fhir_response prints in its
ERROR-severity branch (common.py lines 70-77). -/
def errorDiagnostics (response : FHIRResponse) : List String :=
  (response.issue.filter fun i => i.severity == Severity.error).map Issue.diagnostics

/-- The diagnostics main.py embeds in the raised Exception message:
response.get('issue', [{}])[0].get('diagnostics', 'Unknown error'),
i.e. the first issue's diagnostics (which need not be the error's). -/
def firstIssueDiagnostics (response : FHIRResponse) : String :=
  match response.issue with
  | [] => "Unknown error"
  | i :: _ => i.diagnostics

theorem check_fhir_response_eq_true_iff (response : FHIRResponse) :
    check_fhir_response response = true ↔
      ∀ i ∈ response.issue, i.severity ≠ Severity.error := by
  unfold check_fhir_response
  cases h : response.issue with
  | nil => simp [h]
  | cons a l => simp [h, List.any_eq_true]

theorem check_fhir_response_eq_false_iff (response : FHIRResponse) :
    check_fhir_response response = false ↔
      ∃ i ∈ response.issue, i.severity = Severity.error := by
  rw [← Bool.not_eq_true, ← not_iff_not]
  push_neg
  simpa using check_fhir_response_eq_true_iff response

/-! ## Entity kinds and the publish order (src/main.py lines 531-1166)

When a FHIR server is configured, main.py creates the assembled records
against the server in a fixed sequence of per-kind loops.  The loops appear
in the source in this order, each one iterating its assembled list from the
front, and every failed check raises an Exception that aborts the rest of
the function. -/

/-- The entity kinds main.py publishes, one per creation loop. -/
inductive Kind where
  | organization
  | location
  | patient
  | condition
  | practitioner
  | appointment
  | procedure
  | encounter
  | observation
  | medicationRequest
  | diagnosticReport
  | serviceRequest
  | clinicalImpression
  | familyMemberHistory
  | immunization
  | medicationAdministration
  | allergyIntolerance
  | carePlan
  | coverage
  | binary
  | documentReference
deriving DecidableEq, Repr

/-- The order of the creation loops in main.py (lines 533, 549, 559, 574,
583, 609, 707, 752, 762, 772, 807, 836, 867, 889, 924, 964, 986, 1022,
1074, 1083, 1150). -/
def publishOrder : List Kind :=
  [Kind.organization, Kind.location, Kind.patient, Kind.condition,
   Kind.practitioner, Kind.appointment, Kind.procedure, Kind.encounter,
   Kind.observation, Kind.medicationRequest, Kind.diagnosticReport,
   Kind.serviceRequest, Kind.clinicalImpression, Kind.familyMemberHistory,
   Kind.immunization, Kind.medicationAdministration,
   Kind.allergyIntolerance, Kind.carePlan, Kind.coverage, Kind.binary,
   Kind.documentReference]

theorem publishOrder_nodup : publishOrder.Nodup := by decide

/-- An observable step of a publish run: the i-th assembled record of a
kind is submitted for creation (the create_with_validation call is made),
or it reaches Created (the response passed the error check; sid is the
store-assigned identifier the response carried, if any). -/
inductive Event where
  | submit (k : Kind) (i : Nat)
  | created (k : Kind) (i : Nat) (sid : Option String)
deriving DecidableEq, Repr

/-- The kind an event belongs to. -/
def Event.kind : Event → Kind
  | .submit k _ => k
  | .created k _ _ => k

/-- Whether an event is a submission. -/
def Event.isSubmit : Event → Bool
  | .submit _ _ => true
  | .created _ _ _ => false

/-- The failure information carried out of an aborted publish run: the
kind whose loop raised, the error-severity diagnostics printed by
check_fhir_response on the failing response, and the first-issue
diagnostics embedded in the raised Exception message. -/
structure Failure where
  kind : Kind
  errorDiags : List String
  exceptionDiag : String
deriving DecidableEq, Repr

/-- One creation loop of main.py for kind k, starting at record index i
with c records left: each record is submitted, then the response is
checked; on success the record reaches Created and the loop continues, on
failure the loop raises (no further event of any kind).  The store is the
function giving the server's response for each record index of this kind. -/
def runKindFrom (k : Kind) (store : Nat → FHIRResponse) :
    Nat → Nat → List Event × Option Failure
  | 0, _ => ([], none)
  | c + 1, i =>
    let resp := store i
    if check_fhir_response resp then
      let rest := runKindFrom k store c (i + 1)
      (Event.submit k i :: Event.created k i resp.id :: rest.1, rest.2)
    else
      ([Event.submit k i], some ⟨k, errorDiagnostics resp, firstIssueDiagnostics resp⟩)

/-- The whole creation loop for kind k over n assembled records. -/
def runKind (k : Kind) (n : Nat) (store : Nat → FHIRResponse) :
    List Event × Option Failure :=
  runKindFrom k store n 0

/-- The server section of main.py as a sequence of per-kind creation
loops: counts gives the length of each kind's assembled list, store the
server's responses.  A raised Exception in one loop aborts all later
loops. -/
def runPhases (store : Kind → Nat → FHIRResponse) (counts : Kind → Nat) :
    List Kind → List Event × Option Failure
  | [] => ([], none)
  | k :: ks =>
    let phase := runKind k (counts k) (store k)
    match phase.2 with
    | some f => (phase.1, some f)
    | none =>
      let rest := runPhases store counts ks
      (phase.1 ++ rest.1, rest.2)

/-- The full event trace of a publish run. -/
def publishTrace (store : Kind → Nat → FHIRResponse) (counts : Kind → Nat) :
    List Event :=
  (runPhases store counts publishOrder).1

/-- The prefix of a creation loop's event trace over m consecutive
successful records starting at index idx. -/
def okPrefix (k : Kind) (store : Nat → FHIRResponse) : Nat → Nat → List Event
  | _, 0 => []
  | idx, m + 1 =>
    Event.submit k idx :: Event.created k idx (store idx).id ::
      okPrefix k store (idx + 1) m

theorem okPrefix_kind (k : Kind) (store : Nat → FHIRResponse) :
    ∀ m idx e, e ∈ okPrefix k store idx m → e.kind = k := by
  intro m
  induction m with
  | zero => intro idx e h; simp [okPrefix] at h
  | succ m ih =>
    intro idx e h
    simp only [okPrefix, List.mem_cons] at h
    rcases h with rfl | rfl | h
    · rfl
    · rfl
    · exact ih (idx + 1) e h

theorem okPrefix_submit_mem (k : Kind) (store : Nat → FHIRResponse) :
    ∀ m idx j, idx ≤ j → j < idx + m →
      Event.submit k j ∈ okPrefix k store idx m := by
  intro m
  induction m with
  | zero => intro idx j h1 h2; omega
  | succ m ih =>
    intro idx j h1 h2
    simp only [okPrefix, List.mem_cons]
    rcases Nat.eq_or_lt_of_le h1 with rfl | hlt
    · exact Or.inl rfl
    · exact Or.inr (Or.inr (ih (idx + 1) j hlt (by omega)))

theorem okPrefix_submit_lt (k : Kind) (store : Nat → FHIRResponse) :
    ∀ m idx j, Event.submit k j ∈ okPrefix k store idx m → j < idx + m := by
  intro m
  induction m with
  | zero => intro idx j h; simp [okPrefix] at h
  | succ m ih =>
    intro idx j h
    simp only [okPrefix, List.mem_cons] at h
    rcases h with h | h | h
    · cases h; omega
    · cases h
    · have := ih (idx + 1) j h; omega

theorem runKindFrom_kind (k : Kind) (store : Nat → FHIRResponse) :
    ∀ c idx e, e ∈ (runKindFrom k store c idx).1 → e.kind = k := by
  intro c
  induction c with
  | zero => intro idx e h; simp [runKindFrom] at h
  | succ c ih =>
    intro idx e h
    simp only [runKindFrom] at h
    by_cases hc : check_fhir_response (store idx)
    · simp only [if_pos hc, List.mem_cons] at h
      rcases h with rfl | rfl | h
      · rfl
      · rfl
      · exact ih (idx + 1) e h
    · simp only [if_neg hc, List.mem_singleton] at h
      subst h; rfl

theorem runKindFrom_submit_bound (k : Kind) (store : Nat → FHIRResponse) :
    ∀ c idx j, Event.submit k j ∈ (runKindFrom k store c idx).1 →
      idx ≤ j ∧ j < idx + c := by
  intro c
  induction c with
  | zero => intro idx j h; simp [runKindFrom] at h
  | succ c ih =>
    intro idx j h
    simp only [runKindFrom] at h
    by_cases hc : check_fhir_response (store idx)
    · simp only [if_pos hc, List.mem_cons] at h
      rcases h with h | h | h
      · cases h; omega
      · cases h
      · have := ih (idx + 1) j h; omega
    · simp only [if_neg hc, List.mem_singleton] at h
      cases h; omega

/-- If a record at index j was submitted, every earlier record of the loop
passed its check (otherwise the loop would have raised first). -/
theorem runKindFrom_submit_prior_ok (k : Kind) (store : Nat → FHIRResponse) :
    ∀ c idx j, Event.submit k j ∈ (runKindFrom k store c idx).1 →
      ∀ i, idx ≤ i → i < j → check_fhir_response (store i) = true := by
  intro c
  induction c with
  | zero => intro idx j h; simp [runKindFrom] at h
  | succ c ih =>
    intro idx j h i h1 h2
    simp only [runKindFrom] at h
    by_cases hc : check_fhir_response (store idx)
    · simp only [if_pos hc, List.mem_cons] at h
      rcases h with h | h | h
      · cases h; omega
      · cases h
      · rcases Nat.eq_or_lt_of_le h1 with rfl | hlt
        · exact hc
        · exact ih (idx + 1) j h i hlt h2
    · simp only [if_neg hc, List.mem_singleton] at h
      cases h; omega

/-- Splitting a creation loop's trace at the submission of record j: the
events before it are exactly the interleaved submit/created pairs of the
earlier records. -/
theorem runKindFrom_ok_split (k : Kind) (store : Nat → FHIRResponse) :
    ∀ m c idx, (∀ i, idx ≤ i → i < idx + m → check_fhir_response (store i) = true) →
      m ≤ c →
      runKindFrom k store c idx =
        (okPrefix k store idx m ++ (runKindFrom k store (c - m) (idx + m)).1,
         (runKindFrom k store (c - m) (idx + m)).2) := by
  intro m
  induction m with
  | zero => intro c idx _ _; simp [okPrefix]
  | succ m ih =>
    intro c idx hok hm
    match c, hm with
    | c + 1, hm =>
      have hc : check_fhir_response (store idx) = true :=
        hok idx (Nat.le_refl idx) (by omega)
      have hrec := ih c (idx + 1) (fun i h1 h2 => hok i (by omega) (by omega)) (by omega)
      have e1 : c + 1 - (m + 1) = c - m := by omega
      have e2 : idx + (m + 1) = idx + 1 + m := by omega
      simp only [runKindFrom, if_pos hc, hrec, okPrefix, e1, e2, List.cons_append]

/-- A loop whose check never fails creates every one of its records. -/
theorem runKindFrom_none_created (k : Kind) (store : Nat → FHIRResponse) :
    ∀ c idx, (runKindFrom k store c idx).2 = none →
      ∀ j, idx ≤ j → j < idx + c →
        Event.created k j (store j).id ∈ (runKindFrom k store c idx).1 := by
  intro c
  induction c with
  | zero => intro idx _ j h1 h2; omega
  | succ c ih =>
    intro idx hnone j h1 h2
    simp only [runKindFrom] at hnone ⊢
    by_cases hc : check_fhir_response (store idx)
    · simp only [if_pos hc] at hnone ⊢
      simp only [List.mem_cons]
      rcases Nat.eq_or_lt_of_le h1 with rfl | hlt
      · exact Or.inr (Or.inl rfl)
      · exact Or.inr (Or.inr (ih (idx + 1) hnone j hlt (by omega)))
    · simp only [if_neg hc] at hnone
      cases hnone

theorem runPhases_append (store : Kind → Nat → FHIRResponse)
    (counts : Kind → Nat) (xs ys : List Kind) :
    runPhases store counts (xs ++ ys) =
      match (runPhases store counts xs).2 with
      | some f => ((runPhases store counts xs).1, some f)
      | none =>
          ((runPhases store counts xs).1 ++ (runPhases store counts ys).1,
           (runPhases store counts ys).2) := by
  induction xs with
  | nil => simp [runPhases]
  | cons k ks ih =>
    simp only [List.cons_append, runPhases, List.append_eq]
    cases h : (runKind k (counts k) (store k)).2 with
    | some f => simp
    | none =>
      rw [ih]
      cases h2 : (runPhases store counts ks).2 with
      | some f => simp
      | none => simp [List.append_assoc]

theorem runPhases_kind (store : Kind → Nat → FHIRResponse)
    (counts : Kind → Nat) :
    ∀ order e, e ∈ (runPhases store counts order).1 → e.kind ∈ order := by
  intro order
  induction order with
  | nil => intro e h; simp [runPhases] at h
  | cons k ks ih =>
    intro e h
    simp only [runPhases] at h
    cases h2 : (runKind k (counts k) (store k)).2 with
    | some f =>
      simp only [h2] at h
      simp [runKindFrom_kind k (store k) (counts k) 0 e h]
    | none =>
      simp only [h2, List.mem_append] at h
      rcases h with h | h
      · simp [runKindFrom_kind k (store k) (counts k) 0 e h]
      · simp [ih e h]

/-- In a run whose phases over the kinds xs all succeed, every record of
every kind in xs reaches Created. -/
theorem runPhases_none_created (store : Kind → Nat → FHIRResponse)
    (counts : Kind → Nat) :
    ∀ xs, (runPhases store counts xs).2 = none →
      ∀ k1 ∈ xs, ∀ j < counts k1,
        Event.created k1 j ((store k1) j).id ∈ (runPhases store counts xs).1 := by
  intro xs
  induction xs with
  | nil => intro _ k1 h; simp at h
  | cons k ks ih =>
    intro hnone k1 hk1 j hj
    simp only [runPhases] at hnone ⊢
    cases h2 : (runKind k (counts k) (store k)).2 with
    | some f => simp [h2] at hnone
    | none =>
      simp only [h2] at hnone ⊢
      simp only [List.mem_append]
      rcases List.mem_cons.mp hk1 with rfl | hk1
      · exact Or.inl (runKindFrom_none_created k1 (store k1) (counts k1) 0 h2 j (by omega) (by omega))
      · exact Or.inr (ih hnone k1 hk1 j hj)

/-- If the publish order splits as xs ++ k2 :: ys with k2 not among xs, and
an event of kind k2 occurs in the trace, then every phase over xs completed
and the trace splits into a prefix that contains a Created event for every
record of every kind in xs and no event of kind k2, followed by a suffix
containing the k2 event. -/
theorem trace_split_of_later_kind (store : Kind → Nat → FHIRResponse)
    (counts : Kind → Nat) (xs : List Kind) (k2 : Kind) (ys : List Kind)
    (horder : publishOrder = xs ++ k2 :: ys) (hnotin : k2 ∉ xs)
    (e2 : Event) (he2 : e2 ∈ publishTrace store counts) (hk : e2.kind = k2) :
    ∃ p q, publishTrace store counts = p ++ q ∧ e2 ∈ q ∧
      (∀ e ∈ p, e.kind ≠ k2) ∧
      ∀ k1 ∈ xs, ∀ j < counts k1,
        Event.created k1 j ((store k1) j).id ∈ p := by
  have happ := runPhases_append store counts xs (k2 :: ys)
  rw [show publishTrace store counts = (runPhases store counts publishOrder).1 from rfl,
      horder, happ] at he2 ⊢
  cases hxs : (runPhases store counts xs).2 with
  | some f =>
    simp only [hxs] at he2
    exact absurd (hk ▸ runPhases_kind store counts xs e2 he2) hnotin
  | none =>
    simp only [hxs] at he2 ⊢
    refine ⟨(runPhases store counts xs).1, (runPhases store counts (k2 :: ys)).1,
      rfl, ?_, ?_, ?_⟩
    · rcases List.mem_append.mp he2 with h | h
      · exact absurd (hk ▸ runPhases_kind store counts xs e2 h) hnotin
      · exact h
    · intro e he hek
      exact hnotin (hek ▸ runPhases_kind store counts xs e he)
    · intro k1 hk1 j hj
      exact runPhases_none_created store counts xs hxs k1 hk1 j hj

/-- Events of a single kind's creation loop are events of the whole run,
provided the phases before that kind all completed. -/
theorem runKind_sub_trace (store : Kind → Nat → FHIRResponse)
    (counts : Kind → Nat) (xs : List Kind) (k : Kind) (ys : List Kind)
    (horder : publishOrder = xs ++ k :: ys)
    (hxs : (runPhases store counts xs).2 = none) :
    ∀ e ∈ (runKind k (counts k) (store k)).1, e ∈ publishTrace store counts := by
  intro e he
  have happ := runPhases_append store counts xs (k :: ys)
  rw [show publishTrace store counts = (runPhases store counts publishOrder).1 from rfl,
      horder, happ]
  simp only [hxs, List.mem_append]
  refine Or.inr ?_
  simp only [runPhases]
  cases h2 : (runKind k (counts k) (store k)).2 with
  | some f => simpa using he
  | none => simp only [List.mem_append]; exact Or.inl he

/-- Property: every record of kind k1 reaches Created before any record of
kind k2 is submitted, in every run (src/main.py publish section). -/
def kindCreatedBeforeKindSubmitted (store : Kind → Nat → FHIRResponse)
    (counts : Kind → Nat) (k1 k2 : Kind) : Prop :=
  ∀ i, Event.submit k2 i ∈ publishTrace store counts →
    ∃ p q, publishTrace store counts = p ++ q ∧
      Event.submit k2 i ∈ q ∧ (∀ e ∈ p, e.kind ≠ k2) ∧
      ∀ j < counts k1, Event.created k1 j ((store k1) j).id ∈ p

/-- Property: within one kind, records are submitted in assembly order:
whenever record i' of kind k is submitted, every earlier record i < i' of
that kind was submitted strictly before it. -/
def submitsInAssemblyOrder (store : Kind → Nat → FHIRResponse)
    (counts : Kind → Nat) : Prop :=
  ∀ k i i', i < i' → Event.submit k i' ∈ publishTrace store counts →
    ∃ p q, publishTrace store counts = p ++ q ∧ Event.submit k i ∈ p ∧
      Event.submit k i' ∉ p ∧ Event.submit k i' ∈ q

theorem submit_order_within_kind (store : Kind → Nat → FHIRResponse)
    (counts : Kind → Nat) : submitsInAssemblyOrder store counts := by
  intro k i i' hii he
  have hkmem : k ∈ publishOrder := by
    have := runPhases_kind store counts publishOrder _ he
    simpa using this
  obtain ⟨xs, ys, horder⟩ := List.append_of_mem hkmem
  have hnodup : (xs ++ k :: ys).Nodup := horder ▸ publishOrder_nodup
  have hnotin : k ∉ xs := fun hmem =>
    (List.disjoint_of_nodup_append hnodup) hmem (List.mem_cons_self k ys)
  have happ := runPhases_append store counts xs (k :: ys)
  rw [show publishTrace store counts = (runPhases store counts publishOrder).1 from rfl,
      horder, happ] at he ⊢
  cases hxs : (runPhases store counts xs).2 with
  | some f =>
    simp only [hxs] at he
    exact absurd (runPhases_kind store counts xs _ he) (by simpa using hnotin)
  | none =>
    simp only [hxs] at he ⊢
    set A := (runPhases store counts xs).1 with hA
    have hsubA : ∀ e ∈ A, e.kind ∈ xs := runPhases_kind store counts xs
    have heB : Event.submit k i' ∈ (runPhases store counts (k :: ys)).1 := by
      rcases List.mem_append.mp he with h | h
      · exact absurd (hsubA _ h) (by simpa using hnotin)
      · exact h
    -- the submit lies inside kind k's own loop
    have heK : Event.submit k i' ∈ (runKind k (counts k) (store k)).1 := by
      simp only [runPhases] at heB
      cases h2 : (runKind k (counts k) (store k)).2 with
      | some f => simpa [h2] using heB
      | none =>
        simp only [h2, List.mem_append] at heB
        rcases heB with h | h
        · exact h
        · have hky : k ∈ ys := by
            have := runPhases_kind store counts ys _ h
            simpa using this
          have : k ∉ ys := fun hmem =>
            (List.nodup_cons.mp ((List.nodup_append.mp hnodup).2.1)).1 hmem
          exact absurd hky this
    -- split kind k's loop at the successful records before i'
    have hok : ∀ j, 0 ≤ j → j < 0 + i' → check_fhir_response ((store k) j) = true :=
      fun j _ hj => runKindFrom_submit_prior_ok k (store k) (counts k) 0 i' heK j
        (Nat.zero_le j) (by omega)
    have hbound := runKindFrom_submit_bound k (store k) (counts k) 0 i' heK
    have hsplit := runKindFrom_ok_split k (store k) i' (counts k) 0 hok (by omega)
    have heRest : Event.submit k i' ∈ (runKindFrom k (store k) (counts k - i') (0 + i')).1 := by
      rw [show runKind k (counts k) (store k) = runKindFrom k (store k) (counts k) 0 from rfl,
          hsplit] at heK
      rcases List.mem_append.mp heK with h | h
      · exact absurd (okPrefix_submit_lt k (store k) i' 0 i' h) (by omega)
      · exact h
    -- assemble the global split
    cases h2 : (runKind k (counts k) (store k)).2 with
    | some f =>
      refine ⟨A ++ okPrefix k (store k) 0 i',
        (runKindFrom k (store k) (counts k - i') (0 + i')).1, ?_, ?_, ?_, heRest⟩
      · simp only [runPhases, h2]
        rw [show runKind k (counts k) (store k) = runKindFrom k (store k) (counts k) 0 from rfl] at h2 ⊢
        rw [hsplit]
        simp [List.append_assoc]
      · exact List.mem_append.mpr (Or.inr
          (okPrefix_submit_mem k (store k) i' 0 i (by omega) (by omega)))
      · intro hmem
        rcases List.mem_append.mp hmem with h | h
        · exact absurd (hsubA _ h) (by simpa using hnotin)
        · exact absurd (okPrefix_submit_lt k (store k) i' 0 i' h) (by omega)
    | none =>
      refine ⟨A ++ okPrefix k (store k) 0 i',
        (runKindFrom k (store k) (counts k - i') (0 + i')).1 ++
          (runPhases store counts ys).1, ?_, ?_, ?_, ?_⟩
      · simp only [runPhases, h2]
        rw [show runKind k (counts k) (store k) = runKindFrom k (store k) (counts k) 0 from rfl]
        rw [hsplit]
        simp [List.append_assoc]
      · exact List.mem_append.mpr (Or.inr
          (okPrefix_submit_mem k (store k) i' 0 i (by omega) (by omega)))
      · intro hmem
        rcases List.mem_append.mp hmem with h | h
        · exact absurd (hsubA _ h) (by simpa using hnotin)
        · exact absurd (okPrefix_submit_lt k (store k) i' 0 i' h) (by omega)
      · exact List.mem_append.mpr (Or.inl heRest)

theorem kindCreatedBefore_of_split (store : Kind → Nat → FHIRResponse)
    (counts : Kind → Nat) (xs : List Kind) (k2 : Kind) (ys : List Kind)
    (horder : publishOrder = xs ++ k2 :: ys) (hnotin : k2 ∉ xs)
    (k1 : Kind) (hk1 : k1 ∈ xs) :
    kindCreatedBeforeKindSubmitted store counts k1 k2 := by
  intro i hi
  obtain ⟨p, q, heq, hq, hnk, hcr⟩ :=
    trace_split_of_later_kind store counts xs k2 ys horder hnotin _ hi rfl
  exact ⟨p, q, heq, hq, hnk, hcr k1 hk1⟩

/-- Claim C1: during publishing, for every run (every store behaviour and
every assembled graph, hence regardless of random seed), all Patients reach
Created before any Condition, Appointment or Encounter is submitted, all
Encounters and all Observations reach Created before any DiagnosticReport
is submitted, and records within a kind are submitted in assembly order
(src/main.py lines 531-1166: the creation loops run in a fixed order and
any failure raises, aborting the rest). -/
theorem claim_C1_publish_order (store : Kind → Nat → FHIRResponse)
    (counts : Kind → Nat) :
    kindCreatedBeforeKindSubmitted store counts Kind.patient Kind.condition ∧
    kindCreatedBeforeKindSubmitted store counts Kind.patient Kind.appointment ∧
    kindCreatedBeforeKindSubmitted store counts Kind.patient Kind.encounter ∧
    kindCreatedBeforeKindSubmitted store counts Kind.encounter Kind.diagnosticReport ∧
    kindCreatedBeforeKindSubmitted store counts Kind.observation Kind.diagnosticReport ∧
    submitsInAssemblyOrder store counts := by
  refine ⟨?_, ?_, ?_, ?_, ?_, submit_order_within_kind store counts⟩
  · exact kindCreatedBefore_of_split store counts
      [Kind.organization, Kind.location, Kind.patient] Kind.condition
      [Kind.practitioner, Kind.appointment, Kind.procedure, Kind.encounter,
       Kind.observation, Kind.medicationRequest, Kind.diagnosticReport,
       Kind.serviceRequest, Kind.clinicalImpression, Kind.familyMemberHistory,
       Kind.immunization, Kind.medicationAdministration,
       Kind.allergyIntolerance, Kind.carePlan, Kind.coverage, Kind.binary,
       Kind.documentReference] rfl (by decide) Kind.patient (by decide)
  · exact kindCreatedBefore_of_split store counts
      [Kind.organization, Kind.location, Kind.patient, Kind.condition,
       Kind.practitioner] Kind.appointment
      [Kind.procedure, Kind.encounter, Kind.observation, Kind.medicationRequest,
       Kind.diagnosticReport, Kind.serviceRequest, Kind.clinicalImpression,
       Kind.familyMemberHistory, Kind.immunization,
       Kind.medicationAdministration, Kind.allergyIntolerance, Kind.carePlan,
       Kind.coverage, Kind.binary, Kind.documentReference]
      rfl (by decide) Kind.patient (by decide)
  · exact kindCreatedBefore_of_split store counts
      [Kind.organization, Kind.location, Kind.patient, Kind.condition,
       Kind.practitioner, Kind.appointment, Kind.procedure] Kind.encounter
      [Kind.observation, Kind.medicationRequest, Kind.diagnosticReport,
       Kind.serviceRequest, Kind.clinicalImpression, Kind.familyMemberHistory,
       Kind.immunization, Kind.medicationAdministration,
       Kind.allergyIntolerance, Kind.carePlan, Kind.coverage, Kind.binary,
       Kind.documentReference] rfl (by decide) Kind.patient (by decide)
  · exact kindCreatedBefore_of_split store counts
      [Kind.organization, Kind.location, Kind.patient, Kind.condition,
       Kind.practitioner, Kind.appointment, Kind.procedure, Kind.encounter,
       Kind.observation, Kind.medicationRequest] Kind.diagnosticReport
      [Kind.serviceRequest, Kind.clinicalImpression, Kind.familyMemberHistory,
       Kind.immunization, Kind.medicationAdministration,
       Kind.allergyIntolerance, Kind.carePlan, Kind.coverage, Kind.binary,
       Kind.documentReference] rfl (by decide) Kind.encounter (by decide)
  · exact kindCreatedBefore_of_split store counts
      [Kind.organization, Kind.location, Kind.patient, Kind.condition,
       Kind.practitioner, Kind.appointment, Kind.procedure, Kind.encounter,
       Kind.observation, Kind.medicationRequest] Kind.diagnosticReport
      [Kind.serviceRequest, Kind.clinicalImpression, Kind.familyMemberHistory,
       Kind.immunization, Kind.medicationAdministration,
       Kind.allergyIntolerance, Kind.carePlan, Kind.coverage, Kind.binary,
       Kind.documentReference] rfl (by decide) Kind.observation (by decide)

/-- A concrete run for witnesses: one patient and one condition, all-success
store responses. -/
def wCounts : Kind → Nat
  | Kind.patient => 1
  | Kind.condition => 1
  | _ => 0

/-- A store that answers every create with a success response carrying an
assigned identifier and no issues. -/
def wStore : Kind → Nat → FHIRResponse := fun _ _ => ⟨some "srv-1", []⟩

/-- Witness for C1 at a concrete run: the sole condition is submitted, and
the theorem yields the split placing the patient's Created event before it. -/
theorem claim_C1_publish_order_witness :
    Event.submit Kind.condition 0 ∈ publishTrace wStore wCounts ∧
    ∃ p q, publishTrace wStore wCounts = p ++ q ∧
      Event.submit Kind.condition 0 ∈ q ∧
      (∀ e ∈ p, e.kind ≠ Kind.condition) ∧
      ∀ j < wCounts Kind.patient,
        Event.created Kind.patient j ((wStore Kind.patient) j).id ∈ p :=
  ⟨by decide, (claim_C1_publish_order wStore wCounts).1 0 (by decide)⟩

/-! ## Identifier maps (src/main.py lines 531-565 and the analogous loops)

Each creation loop for a kind that later kinds depend on keeps a map from
the record's local identifier to the store-assigned identifier, e.g.
patient_id_map (lines 558-565): the loop submits the record, checks the
response with check_fhir_response, raises on failure (so the map entry is
never written), and otherwise writes patient_id_map[patient['id']] =
response.get('id').  idMapAfter store rids n is that map's state after the
loop has executed n iterations over the records with local identifiers
rids, responses drawn from store. -/
def idMapAfter (store : Nat → FHIRResponse) :
    List String → Nat → List (String × Option String)
  | [], _ => []
  | _ :: _, 0 => []
  | rid :: rids, n + 1 =>
    if check_fhir_response (store 0) then
      (rid, (store 0).id) :: idMapAfter (fun j => store (j + 1)) rids n
    else []

/-- Claim C3: at every point n during a kind's creation loop, the
identifier map contains an entry for the i-th record's local identifier if
and only if that record's create call has happened (i < n and no earlier
record aborted the loop) and returned a success response (no error-severity
Issue, i.e. check_fhir_response true); the entry then holds the response's
store identifier, and a record whose creation fails never gains an entry. -/
theorem claim_C3_id_map_iff_success (store : Nat → FHIRResponse)
    (rids : List String) (hnodup : rids.Nodup) :
    ∀ n i rid, rids.get? i = some rid →
      (idMapAfter store rids n).lookup rid =
        if i < n ∧ ((List.range (i + 1)).all fun j => check_fhir_response (store j)) = true
        then some (store i).id else none := by
  induction rids generalizing store with
  | nil => intro n i rid h; simp at h
  | cons r rs ih =>
    intro n i rid hget
    cases n with
    | zero => simp [idMapAfter]
    | succ n =>
      cases i with
      | zero =>
        simp only [List.get?_cons_zero, Option.some.injEq] at hget
        subst hget
        by_cases hc : check_fhir_response (store 0)
        · simp [idMapAfter, hc, List.range_succ, List.lookup]
        · simp only [idMapAfter, if_neg hc, List.lookup_nil]
          rw [if_neg]
          rintro ⟨-, hall⟩
          have := (List.all_eq_true.mp hall) 0 (by simp)
          exact hc this
      | succ i =>
        simp only [List.get?_cons_succ] at hget
        have hne : r ≠ rid := by
          rintro rfl
          exact (List.nodup_cons.mp hnodup).1 (List.get?_mem hget)
        by_cases hc : check_fhir_response (store 0)
        · have hrec := ih (fun j => store (j + 1)) (List.nodup_cons.mp hnodup).2 n i rid hget
          have hbeq : (rid == r) = false := beq_eq_false_iff_ne.mpr (Ne.symm hne)
          simp only [idMapAfter, if_pos hc, List.lookup, hbeq]
          rw [hrec]
          have hall : ((List.range (i + 1 + 1)).all fun j => check_fhir_response (store j)) =
              (check_fhir_response (store 0) &&
                ((List.range (i + 1)).all fun j => check_fhir_response (store (j + 1)))) := by
            conv_lhs => rw [List.range_succ_eq_map]
            simp only [List.all_cons, List.all_map, Function.comp_def, Nat.succ_eq_add_one]
          have hiff : (i < n ∧
                ((List.range (i + 1)).all fun j => check_fhir_response (store (j + 1))) = true) ↔
              (i + 1 < n + 1 ∧
                ((List.range (i + 1 + 1)).all fun j => check_fhir_response (store j)) = true) := by
            rw [hall, hc, Bool.true_and]
            exact ⟨fun ⟨h1, h2⟩ => ⟨by omega, h2⟩, fun ⟨h1, h2⟩ => ⟨by omega, h2⟩⟩
          exact if_congr hiff rfl rfl
        · simp only [idMapAfter, if_neg hc, List.lookup_nil]
          rw [if_neg]
          rintro ⟨-, hall⟩
          have := (List.all_eq_true.mp hall) 0 (by simp)
          exact hc this

/-- A store for the C3 witness: the first create succeeds, the second is
rejected with an error-severity issue. -/
def wStoreC3 : Nat → FHIRResponse := fun i =>
  if i == 0 then ⟨some "srv-a", []⟩
  else ⟨none, [⟨Severity.error, "HAPI-0822 failed validation"⟩]⟩

/-- Witness for C3 at a concrete loop state: two records, map state after
both iterations, looked up at the first record's local identifier. -/
theorem claim_C3_id_map_iff_success_witness :
    (["loc-a", "loc-b"] : List String).Nodup ∧
    (idMapAfter wStoreC3 ["loc-a", "loc-b"] 2).lookup "loc-a" =
      (if 0 < 2 ∧ ((List.range (0 + 1)).all fun j => check_fhir_response (wStoreC3 j)) = true
       then some (wStoreC3 0).id else none) :=
  ⟨by decide,
   claim_C3_id_map_iff_success wStoreC3 ["loc-a", "loc-b"] (by decide) 2 0 "loc-a" rfl⟩

theorem okPrefix_created_mem (k : Kind) (store : Nat → FHIRResponse) :
    ∀ m idx j, idx ≤ j → j < idx + m →
      Event.created k j (store j).id ∈ okPrefix k store idx m := by
  intro m
  induction m with
  | zero => intro idx j h1 h2; omega
  | succ m ih =>
    intro idx j h1 h2
    simp only [okPrefix, List.mem_cons]
    rcases Nat.eq_or_lt_of_le h1 with rfl | hlt
    · exact Or.inr (Or.inl rfl)
    · exact Or.inr (Or.inr (ih (idx + 1) j hlt (by omega)))

theorem runKindFrom_head_submit (k : Kind) (store : Nat → FHIRResponse)
    (c idx : Nat) (hc : 0 < c) :
    Event.submit k idx ∈ (runKindFrom k store c idx).1 := by
  match c, hc with
  | c + 1, _ =>
    simp only [runKindFrom]
    by_cases h : check_fhir_response (store idx) <;> simp [h]

theorem errorDiagnostics_ne_nil (resp : FHIRResponse)
    (h : ∃ is ∈ resp.issue, is.severity = Severity.error) :
    errorDiagnostics resp ≠ [] := by
  obtain ⟨is, hmem, hsev⟩ := h
  have : is.diagnostics ∈ errorDiagnostics resp := by
    unfold errorDiagnostics
    exact List.mem_map_of_mem _ (List.mem_filter.mpr ⟨hmem, by simp [hsev]⟩)
  intro hnil
  rw [hnil] at this
  exact List.not_mem_nil _ this

/-- Claim C4: for the record at index i of kind k (all earlier phases and
records having succeeded): a response whose issues are all non-error still
leads to Created and the loop continues to the next record, while a
response with an error-severity issue aborts the whole run with a failure
carrying the record's kind and the error issue's diagnostics (printed by
check_fhir_response and propagated in the raised Exception, never
swallowed), after which no record of kind k beyond i and no record of any
later kind is submitted (src/common.py lines 43-98, src/main.py lines
557-565 and the analogous loops). -/
theorem claim_C4_warning_vs_error (store : Kind → Nat → FHIRResponse)
    (counts : Kind → Nat) (xs : List Kind) (k : Kind) (ys : List Kind)
    (horder : publishOrder = xs ++ k :: ys)
    (hxs : (runPhases store counts xs).2 = none)
    (i : Nat) (hi : i < counts k)
    (hprior : ∀ j < i, check_fhir_response ((store k) j) = true) :
    ((∀ is ∈ ((store k) i).issue, is.severity ≠ Severity.error) →
       Event.created k i ((store k) i).id ∈ publishTrace store counts ∧
       (i + 1 < counts k →
         Event.submit k (i + 1) ∈ publishTrace store counts)) ∧
    ((∃ is ∈ ((store k) i).issue, is.severity = Severity.error) →
       ∃ fail, (runPhases store counts publishOrder).2 = some fail ∧
         fail.kind = k ∧
         fail.errorDiags = errorDiagnostics ((store k) i) ∧
         fail.errorDiags ≠ [] ∧
         fail.exceptionDiag = firstIssueDiagnostics ((store k) i) ∧
         (∀ i', Event.submit k i' ∈ publishTrace store counts → i' ≤ i) ∧
         (∀ e ∈ publishTrace store counts, e.kind ∉ ys)) := by
  have hnodup : (xs ++ k :: ys).Nodup := horder ▸ publishOrder_nodup
  have hknotxs : k ∉ xs := fun hmem =>
    (List.disjoint_of_nodup_append hnodup) hmem (List.mem_cons_self k ys)
  constructor
  · intro hwarn
    have hci : check_fhir_response ((store k) i) = true :=
      (check_fhir_response_eq_true_iff _).mpr hwarn
    have hok : ∀ j, 0 ≤ j → j < 0 + (i + 1) →
        check_fhir_response ((store k) j) = true := by
      intro j _ hj
      rcases Nat.lt_or_ge j i with h | h
      · exact hprior j h
      · have : j = i := by omega
        exact this ▸ hci
    have hsplit := runKindFrom_ok_split k (store k) (i + 1) (counts k) 0 hok (by omega)
    constructor
    · refine runKind_sub_trace store counts xs k ys horder hxs _ ?_
      rw [show runKind k (counts k) (store k) = runKindFrom k (store k) (counts k) 0 from rfl,
          hsplit]
      exact List.mem_append.mpr (Or.inl
        (okPrefix_created_mem k (store k) (i + 1) 0 i (by omega) (by omega)))
    · intro hnext
      refine runKind_sub_trace store counts xs k ys horder hxs _ ?_
      rw [show runKind k (counts k) (store k) = runKindFrom k (store k) (counts k) 0 from rfl,
          hsplit]
      refine List.mem_append.mpr (Or.inr ?_)
      have := runKindFrom_head_submit k (store k) (counts k - (i + 1)) (0 + (i + 1))
        (by omega)
      simpa using this
  · intro herr
    have hci : check_fhir_response ((store k) i) = false :=
      (check_fhir_response_eq_false_iff _).mpr herr
    have hok : ∀ j, 0 ≤ j → j < 0 + i →
        check_fhir_response ((store k) j) = true := fun j _ hj => hprior j (by omega)
    have hsplit := runKindFrom_ok_split k (store k) i (counts k) 0 hok (by omega)
    have hfailstep : runKindFrom k (store k) (counts k - i) (0 + i) =
        ([Event.submit k (0 + i)],
         some ⟨k, errorDiagnostics ((store k) (0 + i)),
               firstIssueDiagnostics ((store k) (0 + i))⟩) := by
      match hc2 : counts k - i, (by omega : 0 < counts k - i) with
      | d + 1, _ =>
        simp only [runKindFrom, Nat.zero_add, hci]
        simp
    have hphase : runKind k (counts k) (store k) =
        (okPrefix k (store k) 0 i ++ [Event.submit k (0 + i)],
         some ⟨k, errorDiagnostics ((store k) (0 + i)),
               firstIssueDiagnostics ((store k) (0 + i))⟩) := by
      rw [show runKind k (counts k) (store k) = runKindFrom k (store k) (counts k) 0 from rfl,
          hsplit, hfailstep]
    have happ := runPhases_append store counts xs (k :: ys)
    have hrun : runPhases store counts publishOrder =
        ((runPhases store counts xs).1 ++ (okPrefix k (store k) 0 i ++ [Event.submit k (0 + i)]),
         some ⟨k, errorDiagnostics ((store k) (0 + i)),
               firstIssueDiagnostics ((store k) (0 + i))⟩) := by
      rw [horder, happ]
      simp only [hxs]
      simp only [runPhases, hphase]
    refine ⟨_, by rw [hrun], rfl, by simp, ?_, by simp, ?_, ?_⟩
    · exact errorDiagnostics_ne_nil _ (by simpa using herr)
    · intro i' hmem
      rw [show publishTrace store counts = (runPhases store counts publishOrder).1 from rfl,
          hrun] at hmem
      simp only [List.mem_append] at hmem
      rcases hmem with h | h | h
      · exact absurd (runPhases_kind store counts xs _ h) (by simpa using hknotxs)
      · have := okPrefix_submit_lt k (store k) i 0 i' h
        omega
      · simp only [List.mem_singleton] at h
        cases h
        omega
    · intro e hmem hey
      rw [show publishTrace store counts = (runPhases store counts publishOrder).1 from rfl,
          hrun] at hmem
      have hdis := List.disjoint_of_nodup_append hnodup
      have hkys : k ∉ ys := (List.nodup_cons.mp (List.nodup_append.mp hnodup).2.1).1
      simp only [List.mem_append] at hmem
      rcases hmem with h | h | h
      · exact hdis (runPhases_kind store counts xs _ h) (List.mem_cons_of_mem k hey)
      · have := okPrefix_kind k (store k) i 0 e h
        exact hkys (this ▸ hey)
      · simp only [List.mem_singleton] at h
        subst h
        exact hkys hey

/-- A store for the C4 witness: the sole Patient is rejected with an
error-severity issue, every other create succeeds. -/
def wStoreC4 : Kind → Nat → FHIRResponse
  | Kind.patient, _ => ⟨none, [⟨Severity.error, "Patient failed validation"⟩]⟩
  | _, _ => ⟨some "srv-1", []⟩

/-- The kinds published after Patient in main.py. -/
def kindsAfterPatient : List Kind :=
  [Kind.condition, Kind.practitioner, Kind.appointment, Kind.procedure,
   Kind.encounter, Kind.observation, Kind.medicationRequest,
   Kind.diagnosticReport, Kind.serviceRequest, Kind.clinicalImpression,
   Kind.familyMemberHistory, Kind.immunization,
   Kind.medicationAdministration, Kind.allergyIntolerance, Kind.carePlan,
   Kind.coverage, Kind.binary, Kind.documentReference]

/-- Witness for C4, the spec's failure scenario: the store rejects the sole
Patient, and the run aborts with a Patient failure report and no Condition
is ever submitted. -/
theorem claim_C4_warning_vs_error_witness :
    (∃ is ∈ ((wStoreC4 Kind.patient) 0).issue, is.severity = Severity.error) ∧
    (∃ fail, (runPhases wStoreC4 wCounts publishOrder).2 = some fail ∧
      fail.kind = Kind.patient ∧
      fail.errorDiags = errorDiagnostics ((wStoreC4 Kind.patient) 0) ∧
      fail.errorDiags ≠ [] ∧
      fail.exceptionDiag = firstIssueDiagnostics ((wStoreC4 Kind.patient) 0) ∧
      (∀ i', Event.submit Kind.patient i' ∈ publishTrace wStoreC4 wCounts → i' ≤ 0) ∧
      (∀ e ∈ publishTrace wStoreC4 wCounts, e.kind ∉ kindsAfterPatient)) :=
  ⟨⟨⟨Severity.error, "Patient failed validation"⟩, by decide, rfl⟩,
   (claim_C4_warning_vs_error wStoreC4 wCounts
      [Kind.organization, Kind.location] Kind.patient kindsAfterPatient
      rfl (by decide) 0 (by decide)
      (fun j h => absurd h (Nat.not_lt_zero j))).2
     ⟨⟨Severity.error, "Patient failed validation"⟩, by decide, rfl⟩⟩

/-! ## Request headers (src/lib/crud.py lines 8-33)

Request declares headers as a class-level dictionary.  __init__ executes
self.headers.update(header_overrides): since no instance ever assigns an
instance-level headers attribute (every method only builds a local copy
with self.headers.copy()), the attribute lookup resolves to the class
dictionary and update mutates it in place, for all instances at once.  The
class dictionary is modelled as an explicit shared association list passed
alongside each construction. -/

/-- Python dict assignment base[k] = v on an association list: replace the
binding of k in place if present, else append it. -/
def setKey : List (String × String) → String → String → List (String × String)
  | [], k, v => [(k, v)]
  | (k', v') :: rest, k, v =>
    if k' = k then (k', v) :: rest else (k', v') :: setKey rest k v

/-- Python dict.update: apply every binding of upd, in order, to base. -/
def dictUpdate (base upd : List (String × String)) : List (String × String) :=
  upd.foldl (fun acc kv => setKey acc kv.1 kv.2) base

/-- The class-level headers dictionary of Request (crud.py lines 12-16). -/
def requestClassHeaders : List (String × String) :=
  [("Accept", "application/fhir+\x7b_format\x7d;q=1.0, application/\x7b_format\x7d+fhir;q=0.9"),
   ("User-Agent", "HAPI-FHIR/7.6.0 (FHIR Client; FHIR 4.0.1/R4; apache)"),
   ("Accept-Encoding", "gzip")]

/-- The per-instance attributes Request.__init__ assigns (crud.py lines
27-30); headers is deliberately absent, it lives on the class. -/
structure RequestData where
  host : String
  port : Option Nat
  path : String
  protocol : String
deriving DecidableEq, Repr

/-- Request.__init__ (crud.py lines 18-33): assigns the instance fields and,
when header_overrides is truthy, executes self.headers.update(...), which
mutates the class dictionary cls shared by every instance.  Returns the new
class dictionary together with the constructed instance. -/
def requestInit (cls : List (String × String)) (host : String)
    (port : Option Nat) (path : String)
    (header_overrides : Option (List (String × String))) :
    List (String × String) × RequestData :=
  (match header_overrides with
   | some d => dictUpdate cls d
   | none => cls,
   ⟨host, port, path, "http"⟩)

/-- Attribute lookup self.headers on any Request instance: resolves to the
class dictionary (no instance attribute shadows it). -/
def requestHeadersOf (cls : List (String × String)) (_self : RequestData) :
    List (String × String) :=
  cls

theorem lookup_setKey (m : List (String × String)) (k v : String) :
    ∀ j, (setKey m k v).lookup j = if j = k then some v else m.lookup j := by
  induction m with
  | nil =>
    intro j
    by_cases h : j = k
    · subst h; simp [setKey, List.lookup]
    · have hb : (j == k) = false := by simpa using h
      simp [setKey, List.lookup, hb, h]
  | cons p rest ih =>
    intro j
    obtain ⟨k', v'⟩ := p
    by_cases hk : k' = k
    · subst hk
      by_cases hj : j = k'
      · subst hj; simp [setKey, List.lookup]
      · have hb : (j == k') = false := by simpa using hj
        simp [setKey, List.lookup, hb, hj]
    · by_cases hj : j = k'
      · have hjk : (j == k) = false := by
          simp only [beq_eq_false_iff_ne, ne_eq]
          intro h
          exact hk ((hj.symm.trans h) ▸ rfl)
        have hb : (j == k') = true := by simpa using hj
        simp [setKey, if_neg hk, List.lookup, hb, hj, hjk]
      · have hb : (j == k') = false := by simpa using hj
        simp [setKey, if_neg hk, List.lookup, hb, ih j]

theorem lookup_dictUpdate_not_mem (d : List (String × String)) :
    ∀ base k, (∀ p ∈ d, p.1 ≠ k) →
      (dictUpdate base d).lookup k = base.lookup k := by
  induction d with
  | nil => intro base k _; rfl
  | cons p rest ih =>
    intro base k hk
    obtain ⟨k1, v1⟩ := p
    have h1 : k1 ≠ k := hk (k1, v1) (List.mem_cons_self _ _)
    have := ih (setKey base k1 v1) k (fun q hq => hk q (List.mem_cons_of_mem _ hq))
    calc (dictUpdate base ((k1, v1) :: rest)).lookup k
        = (dictUpdate (setKey base k1 v1) rest).lookup k := rfl
      _ = (setKey base k1 v1).lookup k := this
      _ = base.lookup k := by
          rw [lookup_setKey]
          exact if_neg (fun h => h1 h.symm)

theorem lookup_dictUpdate_of_lookup (d : List (String × String)) :
    ∀ base k v, (d.map Prod.fst).Nodup → d.lookup k = some v →
      (dictUpdate base d).lookup k = some v := by
  induction d with
  | nil => intro base k v _ h; simp [List.lookup] at h
  | cons p rest ih =>
    intro base k v hnodup hlook
    obtain ⟨k1, v1⟩ := p
    by_cases hk : k = k1
    · subst hk
      simp only [List.lookup, beq_self_eq_true, Option.some.injEq] at hlook
      have hnot : ∀ q ∈ rest, q.1 ≠ k := by
        intro q hq heq
        have : k ∈ rest.map Prod.fst := List.mem_map.mpr ⟨q, hq, heq⟩
        exact (List.nodup_cons.mp (by simpa using hnodup)).1 this
      calc (dictUpdate base ((k, v1) :: rest)).lookup k
          = (dictUpdate (setKey base k v1) rest).lookup k := rfl
        _ = (setKey base k v1).lookup k := lookup_dictUpdate_not_mem rest _ k hnot
        _ = some v1 := by rw [lookup_setKey]; exact if_pos rfl
        _ = some v := by rw [hlook]
    · have : (k == k1) = false := by simpa using hk
      simp only [List.lookup, this] at hlook
      exact ih (setKey base k1 v1) k v (by simpa using (List.nodup_cons.mp (by simpa using hnodup)).2) hlook

/-- Claim C10: constructing a Request with header_overrides mutates the
class-level headers dictionary shared by all Request instances: afterwards
every instance (existing or future, including instances constructed later
without overrides) observes the same updated dictionary through
self.headers, with each overridden key showing its new value; no instance
keeps its own independent headers (src/lib/crud.py lines 12-33). -/
theorem claim_C10_shared_class_headers (cls : List (String × String))
    (host : String) (port : Option Nat) (path : String)
    (d : List (String × String)) (hd : (d.map Prod.fst).Nodup) :
    (∀ r1 r2 : RequestData,
      requestHeadersOf (requestInit cls host port path (some d)).1 r1 =
        requestHeadersOf (requestInit cls host port path (some d)).1 r2) ∧
    (∀ r : RequestData,
      requestHeadersOf (requestInit cls host port path (some d)).1 r =
        dictUpdate cls d) ∧
    (∀ host2 port2 path2,
      (requestInit (requestInit cls host port path (some d)).1
          host2 port2 path2 none).1 =
        (requestInit cls host port path (some d)).1) ∧
    (∀ r : RequestData, ∀ k v, d.lookup k = some v →
      (requestHeadersOf (requestInit cls host port path (some d)).1 r).lookup k =
        some v) := by
  refine ⟨fun r1 r2 => rfl, fun r => rfl, fun _ _ _ => rfl, ?_⟩
  intro r k v hkv
  exact lookup_dictUpdate_of_lookup d cls k v hd hkv

/-- Witness for C10: override the Accept header while constructing one
Request; a different instance then reads the overridden value. -/
theorem claim_C10_shared_class_headers_witness :
    (([("Accept", "application/xml")] : List (String × String)).map Prod.fst).Nodup ∧
    (requestHeadersOf
        (requestInit requestClassHeaders "localhost" (some 8080) "/fhir"
          (some [("Accept", "application/xml")])).1
        ⟨"otherhost", none, "/fhir", "http"⟩).lookup "Accept" =
      some "application/xml" :=
  ⟨by decide,
   (claim_C10_shared_class_headers requestClassHeaders "localhost" (some 8080)
      "/fhir" [("Accept", "application/xml")] (by decide)).2.2.2
     ⟨"otherhost", none, "/fhir", "http"⟩ "Accept" "application/xml" rfl⟩

/-! ## generate_appointment (src/lib/resources/appointment.py)

The generator is modelled field for field (the generated narrative "text"
div is elided).  Randomness is split into the values drawn from the seeded
random/Faker generators (functions of the random seed) and the values read
from the environment: uuid.uuid4() draws from OS entropy and
datetime.now / fake.date_time_this_month read the wall clock, neither of
which is derived from the random seed. -/

/-- FHIR version selected by get_fhir_version (src/common.py lines
101-111). -/
inductive FhirVersion where
  | R4
  | R5
deriving DecidableEq, Repr

structure Coding where
  system : String
  code : String
  display : String
deriving DecidableEq, Repr

instance : Inhabited Coding := ⟨⟨"", "", ""⟩⟩

/-- A FHIR R4 CodeableConcept: codings plus text. -/
structure CodeableConcept where
  coding : List Coding
  text : String
deriving DecidableEq, Repr

/-- A FHIR R5 CodeableReference wrapping a concept. -/
structure CodeableReference where
  concept : CodeableConcept
deriving DecidableEq, Repr

structure AppointmentParticipant where
  actorReference : String
  status : String
deriving DecidableEq, Repr

/-- An Appointment resource as built by generate_appointment; finish is the
source's "end" field (a Lean keyword); times are second timestamps. -/
structure Appointment where
  id : String
  status : String
  description : String
  start : Nat
  finish : Nat
  created : Nat
  participant : List AppointmentParticipant
  reasonCode : Option (List CodeableConcept)
  reason : Option (List CodeableReference)
deriving DecidableEq, Repr

/-- random.choice on a nonempty list, drawing the index from the seeded
generator; the modulus keeps the index in range (the source lists are
nonempty). -/
def pyChoice {α : Type} [Inhabited α] (xs : List α) (draw : Nat) : α :=
  xs.getD (draw % xs.length) default

/-- Excerpt of ENCOUNTER_REASON_CODES (src/lib/data/encounter_reasons.py);
the source catalog is far longer, but only list membership and the
system/code/display fields of the chosen element enter the properties
below, which hold for any catalog contents. -/
def ENCOUNTER_REASON_CODES : List Coding :=
  [⟨"http://snomed.info/sct", "404684003", "Clinical finding (finding)"⟩,
   ⟨"http://snomed.info/sct", "109006", "Anxiety disorder of childhood OR adolescence"⟩,
   ⟨"http://snomed.info/sct", "122003", "Choroidal hemorrhage"⟩,
   ⟨"http://snomed.info/sct", "127009", "Spontaneous abortion with laceration of cervix"⟩]

/-- fake.word(): a seeded draw from Faker's word vocabulary (abbreviated
here; only the fact that it is a function of the seeded draw matters). -/
def fakeWord (draw : Nat) : String :=
  pyChoice ["checkup", "pain", "fatigue", "cough"] draw

/-- fake.date_time_this_month(before_now=False, after_now=True): a moment
strictly after the wall clock now, within the current month; the offset is
derived from the seeded Faker generator. -/
def fake_date_time_this_month (now draw : Nat) : Nat :=
  now + 1 + draw % 2592000

/-- The values generate_appointment draws from the seeded random/Faker
generators, in source order: the start offset, the duration choice among
[15, 30, 45] minutes, the encounter reason choice, the status choice and
the fake.word draw. -/
structure AppointmentDraws where
  drawStart : Nat
  drawDuration : Nat
  drawReason : Nat
  drawStatus : Nat
  drawWord : Nat
deriving DecidableEq, Repr

/-- The values generate_appointment reads from the environment rather than
the seeded generator: uuid.uuid4() (OS entropy) and the wall clock used by
datetime.now and fake.date_time_this_month. -/
structure AppointmentEnv where
  draws : AppointmentDraws
  uuid : String
  now : Nat
deriving DecidableEq, Repr

/-- generate_appointment (appointment.py lines 28-134): uuid4 id, start
drawn this month after now, end = start plus a choice of [15, 30, 45]
minutes, created = datetime.now, a reason drawn from
ENCOUNTER_REASON_CODES, status drawn from [booked, fulfilled, cancelled],
description built from fake.word, three participants referencing the three
argument identifiers, and the version branch placing the same coding under
reasonCode as a CodeableConcept (R4) or under reason as a
CodeableReference (R5). -/
def generate_appointment (version : FhirVersion)
    (patient_id practitioner_id location_id : String)
    (env : AppointmentEnv) : Appointment :=
  let appointment_id := env.uuid
  let start_time := fake_date_time_this_month env.now env.draws.drawStart
  let end_time := start_time + 60 * pyChoice [15, 30, 45] env.draws.drawDuration
  let created_time := env.now
  let reason_code := pyChoice ENCOUNTER_REASON_CODES env.draws.drawReason
  let status := pyChoice ["booked", "fulfilled", "cancelled"] env.draws.drawStatus
  let description := "Follow-up visit for " ++ fakeWord env.draws.drawWord
  let base : Appointment :=
    { id := appointment_id
      status := status
      description := description
      start := start_time
      finish := end_time
      created := created_time
      participant :=
        [⟨"Patient/" ++ patient_id, "accepted"⟩,
         ⟨"Practitioner/" ++ practitioner_id, "accepted"⟩,
         ⟨"Location/" ++ location_id, "accepted"⟩]
      reasonCode := none
      reason := none }
  if version = FhirVersion.R4 then
    { base with
        reasonCode := some [⟨[reason_code], reason_code.display⟩] }
  else
    { base with
        reason := some [⟨⟨[reason_code], reason_code.display⟩⟩] }

/-- Counterexample to C7: two runs with identical seed-derived draws, the
same configuration and the same version still produce different records,
because the record id comes from uuid.uuid4() (OS entropy, not the seed);
here the two runs differ only in that environment value. -/
theorem claim_C7_counterexample :
    generate_appointment FhirVersion.R4 "pat-1" "doc-1" "loc-1"
        ⟨⟨0, 0, 0, 0, 0⟩, "7d54bcd2-0000-4000-8000-000000000000", 1700000000⟩ ≠
      generate_appointment FhirVersion.R4 "pat-1" "doc-1" "loc-1"
        ⟨⟨0, 0, 0, 0, 0⟩, "2ab90176-1111-4111-8111-111111111111", 1700000000⟩ := by
  decide

/-- Claim C7 (amended): generation is a pure function of the seed-derived
draws, the arguments and the environment (uuid4 value and wall clock), and
all seed-derived content — participants, status, description, duration and
the reason fields — is identical across runs with the same seed; but the
record identifier and the start/end/created timestamps come from OS
entropy and the wall clock, which the seed does not determine, so full
records differ between runs (src/lib/resources/appointment.py lines
37-57). -/
theorem claim_C7_amended_seed_content (version : FhirVersion)
    (p d l : String) (draws : AppointmentDraws) (u1 u2 : String) (n1 n2 : Nat) :
    (generate_appointment version p d l ⟨draws, u1, n1⟩).participant =
      (generate_appointment version p d l ⟨draws, u2, n2⟩).participant ∧
    (generate_appointment version p d l ⟨draws, u1, n1⟩).status =
      (generate_appointment version p d l ⟨draws, u2, n2⟩).status ∧
    (generate_appointment version p d l ⟨draws, u1, n1⟩).description =
      (generate_appointment version p d l ⟨draws, u2, n2⟩).description ∧
    (generate_appointment version p d l ⟨draws, u1, n1⟩).reasonCode =
      (generate_appointment version p d l ⟨draws, u2, n2⟩).reasonCode ∧
    (generate_appointment version p d l ⟨draws, u1, n1⟩).reason =
      (generate_appointment version p d l ⟨draws, u2, n2⟩).reason ∧
    (generate_appointment version p d l ⟨draws, u1, n1⟩).finish -
        (generate_appointment version p d l ⟨draws, u1, n1⟩).start =
      (generate_appointment version p d l ⟨draws, u2, n2⟩).finish -
        (generate_appointment version p d l ⟨draws, u2, n2⟩).start := by
  cases version <;>
    simp [generate_appointment, fake_date_time_this_month]

/-- Claim C8: for fixed draws and environment, building the appointment
under R4 and under R5 yields records referencing exactly the same
dependency identifiers and carrying the same semantic content (same status,
description, times and the same reason coding), differing only in field
shape: R4 puts the coding in reasonCode (CodeableConcept) and leaves reason
absent, R5 puts the same coding in reason (CodeableReference) and leaves
reasonCode absent (src/lib/resources/appointment.py lines 84-114). -/
theorem claim_C8_version_branch_semantics (p d l : String)
    (env : AppointmentEnv) :
    (generate_appointment FhirVersion.R4 p d l env).id =
      (generate_appointment FhirVersion.R5 p d l env).id ∧
    (generate_appointment FhirVersion.R4 p d l env).status =
      (generate_appointment FhirVersion.R5 p d l env).status ∧
    (generate_appointment FhirVersion.R4 p d l env).description =
      (generate_appointment FhirVersion.R5 p d l env).description ∧
    (generate_appointment FhirVersion.R4 p d l env).start =
      (generate_appointment FhirVersion.R5 p d l env).start ∧
    (generate_appointment FhirVersion.R4 p d l env).finish =
      (generate_appointment FhirVersion.R5 p d l env).finish ∧
    (generate_appointment FhirVersion.R4 p d l env).created =
      (generate_appointment FhirVersion.R5 p d l env).created ∧
    (generate_appointment FhirVersion.R4 p d l env).participant =
      (generate_appointment FhirVersion.R5 p d l env).participant ∧
    ∃ c : Coding,
      (generate_appointment FhirVersion.R4 p d l env).reasonCode =
        some [⟨[c], c.display⟩] ∧
      (generate_appointment FhirVersion.R5 p d l env).reason =
        some [⟨⟨[c], c.display⟩⟩] ∧
      (generate_appointment FhirVersion.R4 p d l env).reason = none ∧
      (generate_appointment FhirVersion.R5 p d l env).reasonCode = none :=
  ⟨rfl, rfl, rfl, rfl, rfl, rfl, rfl,
   ⟨pyChoice ENCOUNTER_REASON_CODES env.draws.drawReason, rfl, rfl, rfl, rfl⟩⟩

namespace Assemble

/-! ## The graph assembly of main (src/main.py lines 61-485, standard path)

Records are modelled by their identifier and reference structure: every
scalar attribute (names, dates, codes, narrative) is elided, and with them
the random draws whose outcome influences only such attributes.  Draws are
kept for every random call whose outcome affects the identifier or
reference structure of the graph: counts (random.randint), selections from
runtime lists (random.choice / random.sample), and the probability gates
guarding optional records or reference fields (random.random()).
uuid.uuid4() values come from their own stream (OS entropy). -/

/-- One reference field of a record: the serialized field path, the target
resource type, the target identifier, and whether the identifier was
supplied by the assembler (the id of a record built in this run, passed as
an argument or drawn from a built list) as opposed to fabricated inside
the generator (a fresh uuid4) or taken from a catalog. -/
structure Ref where
  field : String
  kind : String
  rid : String
  arg : Bool
deriving DecidableEq, Repr

/-- A record: its local identifier (uuid4) and its reference fields. -/
structure Rec where
  rid : String
  refs : List Ref
deriving DecidableEq, Repr

/-- The explicit random state: draws are the successive values of the
seeded PRNG, uuids the successive uuid.uuid4() results.  An exhausted
stream yields 0 / "u!" (never reached in the runs considered: the source
streams are infinite). -/
structure Rnd where
  draws : List Nat
  uuids : List String
deriving DecidableEq, Repr

/-- Take the next seeded draw. -/
def Rnd.nat : Rnd → Nat × Rnd
  | ⟨[], us⟩ => (0, ⟨[], us⟩)
  | ⟨d :: ds, us⟩ => (d, ⟨ds, us⟩)

/-- Take the next uuid4 value. -/
def Rnd.uuid : Rnd → String × Rnd
  | ⟨ds, []⟩ => ("u!", ⟨ds, []⟩)
  | ⟨ds, u :: us⟩ => (u, ⟨ds, us⟩)

/-- random.randint(lo, hi) on a constant range with lo ≤ hi (used inside
generators; cannot raise). -/
def rndBetween (lo hi : Nat) (r : Rnd) : Nat × Rnd :=
  let (d, r1) := r.nat
  (lo + d % (hi + 1 - lo), r1)

/-- random.randint(lo, hi) on a configured range: inclusive, raises
ValueError when lo > hi (only then). -/
def randint (lo hi : Nat) (r : Rnd) : Except String (Nat × Rnd) :=
  if hi < lo then Except.error "ValueError: empty range in randrange"
  else Except.ok (rndBetween lo hi r)

/-- random.choice(xs) on a runtime list: raises IndexError on an empty
sequence, otherwise returns the element at a seeded index. -/
def choice {α : Type} (xs : List α) (r : Rnd) : Except String (α × Rnd) :=
  match xs with
  | [] => Except.error "IndexError: cannot choose from an empty sequence"
  | x :: rest =>
    let (d, r1) := r.nat
    Except.ok ((x :: rest).get ⟨d % (rest.length + 1), by
      simp only [List.length_cons]
      exact Nat.mod_lt _ (Nat.succ_pos _)⟩, r1)

theorem choice_mem {α : Type} (xs : List α) (r : Rnd) (a : α) (r' : Rnd)
    (h : choice xs r = Except.ok (a, r')) : a ∈ xs := by
  match xs with
  | [] => simp [choice] at h
  | x :: rest =>
    simp only [choice, Except.ok.injEq, Prod.mk.injEq] at h
    rw [← h.1]
    exact List.get_mem _ _ _

/-- random.random() < p: the uniform draw is modelled in thousandths
(every probability in the source is a multiple of 0.001); p is given in
thousandths and may lie outside [0, 1000]. -/
def coin (pMilli : Int) (r : Rnd) : Bool × Rnd :=
  let (d, r1) := r.nat
  (((d % 1000 : Nat) : Int) < pMilli, r1)

/-- random.sample(xs, k) with k ≤ xs.length: k distinct elements, modelled
as a seeded rotation followed by take k (membership in xs is the only
property of the sample used downstream). -/
def sample {α : Type} (xs : List α) (k : Nat) (r : Rnd) : List α × Rnd :=
  let (d, r1) := r.nat
  let rot := d % (xs.length + 1)
  ((List.drop rot xs ++ List.take rot xs).take k, r1)

theorem sample_subset {α : Type} (xs : List α) (k : Nat) (r : Rnd) :
    ∀ a ∈ (sample xs k r).1, a ∈ xs := by
  intro a ha
  simp only [sample] at ha
  have := List.mem_of_mem_take ha
  rcases List.mem_append.mp this with h | h
  · exact List.mem_of_mem_drop h
  · exact List.mem_of_mem_take h

/-! ### Generator reference skeletons (src/lib/resources/) -/

/-- generate_clinic_and_location (clinic.py lines 15-110): an Organization
with no references and a Location whose managingOrganization references the
clinic built in the same call. -/
def generate_clinic_and_location (r : Rnd) : (Rec × Rec) × Rnd :=
  let (clinic_id, r1) := r.uuid
  let (location_id, r2) := r1.uuid
  ((⟨clinic_id, []⟩,
    ⟨location_id, [⟨"managingOrganization", "Organization", clinic_id, true⟩]⟩), r2)

/-- generate_practitioner (practitioner.py): no reference fields. -/
def generate_practitioner (r : Rnd) : Rec × Rnd :=
  let (pid, r1) := r.uuid
  (⟨pid, []⟩, r1)

/-- generate_patient (patient.py lines 15-75): no reference fields. -/
def generate_patient (r : Rnd) : Rec × Rnd :=
  let (pid, r1) := r.uuid
  (⟨pid, []⟩, r1)

/-- generate_condition (condition.py lines 18-79): subject references the
given patient. -/
def generate_condition (patient_id : String) (r : Rnd) : Rec × Rnd :=
  let (cid, r1) := r.uuid
  (⟨cid, [⟨"subject", "Patient", patient_id, true⟩]⟩, r1)

/-- generate_appointment (appointment.py lines 28-134): three participants
referencing the given patient, practitioner and location. -/
def generate_appointment (patient_id practitioner_id location_id : String)
    (r : Rnd) : Rec × Rnd :=
  let (aid, r1) := r.uuid
  (⟨aid,
    [⟨"participant.0.actor", "Patient", patient_id, true⟩,
     ⟨"participant.1.actor", "Practitioner", practitioner_id, true⟩,
     ⟨"participant.2.actor", "Location", location_id, true⟩]⟩, r1)

/-- generate_medication_request (medication.py lines 18-92): subject and
requester. -/
def generate_medication_request (patient_id practitioner_id : String)
    (r : Rnd) : Rec × Rnd :=
  let (mid, r1) := r.uuid
  (⟨mid,
    [⟨"subject", "Patient", patient_id, true⟩,
     ⟨"requester", "Practitioner", practitioner_id, true⟩]⟩, r1)

/-- generate_encounter (encounter.py lines 20-155): subject,
serviceProvider, one location and one participant (actor key in both
versions). -/
def generate_encounter (patient_id practitioner_id location_id organization_id : String)
    (r : Rnd) : Rec × Rnd :=
  let (eid, r1) := r.uuid
  (⟨eid,
    [⟨"subject", "Patient", patient_id, true⟩,
     ⟨"serviceProvider", "Organization", organization_id, true⟩,
     ⟨"location.0.location", "Location", location_id, true⟩,
     ⟨"participant.0.actor", "Practitioner", practitioner_id, true⟩]⟩, r1)

/-- OBSERVATION_STATUSES (src/lib/data/observations.py line 47). -/
def OBSERVATION_STATUSES : List String :=
  ["registered", "preliminary", "final", "amended", "cancelled",
   "entered-in-error", "unknown"]

/-- random.choice on a constant nonempty catalog list (cannot raise). -/
def catChoice {α : Type} [Inhabited α] (xs : List α) (r : Rnd) : α × Rnd :=
  let (d, r1) := r.nat
  (xs.getD (d % xs.length) default, r1)

/-- generate_observation (observation.py lines 18-116): subject always;
performer only when the drawn status is not entered-in-error (line 91). -/
def generate_observation (patient_id practitioner_id : String) (r : Rnd) :
    Rec × Rnd :=
  let (oid, r1) := r.uuid
  let (status, r2) := catChoice OBSERVATION_STATUSES r1
  (⟨oid,
    ⟨"subject", "Patient", patient_id, true⟩ ::
      (if status ≠ "entered-in-error" then
        [⟨"performer.0", "Practitioner", practitioner_id, true⟩]
      else [])⟩, r2)

/-- generate_procedure (procedure.py lines 18-84): subject and one
performer. -/
def generate_procedure (patient_id practitioner_id : String) (r : Rnd) :
    Rec × Rnd :=
  let (pid, r1) := r.uuid
  (⟨pid,
    [⟨"subject", "Patient", patient_id, true⟩,
     ⟨"performer.0.actor", "Practitioner", practitioner_id, true⟩]⟩, r1)

/-- generate_diagnostic_report (diagnostic_report.py lines 18-130):
subject, encounter, one performer, and one result reference per supplied
observation id. -/
def generate_diagnostic_report (patient_id practitioner_id encounter_id : String)
    (observation_ids : List String) (r : Rnd) : Rec × Rnd :=
  let (did, r1) := r.uuid
  (⟨did,
    ⟨"subject", "Patient", patient_id, true⟩ ::
    ⟨"encounter", "Encounter", encounter_id, true⟩ ::
    ⟨"performer.0", "Practitioner", practitioner_id, true⟩ ::
    (observation_ids.enum.map fun p =>
      ⟨"result." ++ toString p.1, "Observation", p.2, true⟩)⟩, r1)

/-- generate_service_request (service_request.py lines 20-160): subject,
requester, and encounter when supplied. -/
def generate_service_request (patient_id practitioner_id : String)
    (encounter_id : Option String) (r : Rnd) : Rec × Rnd :=
  let (sid, r1) := r.uuid
  (⟨sid,
    [⟨"subject", "Patient", patient_id, true⟩,
     ⟨"requester", "Practitioner", practitioner_id, true⟩] ++
    (match encounter_id with
     | some e => [⟨"encounter", "Encounter", e, true⟩]
     | none => [])⟩, r1)

/-- generate_clinical_impression (clinical_impression.py lines 20-145):
subject, the practitioner under assessor (R4) or performer (R5), and
encounter when supplied. -/
def generate_clinical_impression (version : FhirVersion)
    (patient_id practitioner_id : String) (encounter_id : Option String)
    (r : Rnd) : Rec × Rnd :=
  let (cid, r1) := r.uuid
  (⟨cid,
    ⟨"subject", "Patient", patient_id, true⟩ ::
    (if version = FhirVersion.R4 then
      ⟨"assessor", "Practitioner", practitioner_id, true⟩
    else
      ⟨"performer", "Practitioner", practitioner_id, true⟩) ::
    (match encounter_id with
     | some e => [⟨"encounter", "Encounter", e, true⟩]
     | none => [])⟩, r1)

/-- generate_family_member_history (family_member_history.py lines 20-150):
patient always; the practitioner only under R5, as participant.0.actor
(there is no recorder field). -/
def generate_family_member_history (version : FhirVersion)
    (patient_id : String) (practitioner_id : Option String) (r : Rnd) :
    Rec × Rnd :=
  let (fid, r1) := r.uuid
  (⟨fid,
    ⟨"patient", "Patient", patient_id, true⟩ ::
    (match practitioner_id with
     | some pr =>
       if version ≠ FhirVersion.R4 then
         [⟨"participant.0.actor", "Practitioner", pr, true⟩]
       else []
     | none => [])⟩, r1)

/-- The reference targets of VACCINE_MANUFACTURERS
(src/lib/data/immunizations.py lines 139-170): catalog organizations that
are never created in the graph. -/
def VACCINE_MANUFACTURERS : List String :=
  ["pfizer", "moderna", "johnson-johnson", "merck", "glaxosmithkline",
   "sanofi", "novavax", "astrazeneca"]

/-- generate_immunization (immunization.py lines 20-215): a catalog
manufacturer Organization reference, the patient, the same practitioner as
two performers, a fabricated uuid4 Observation under reason, optional
encounter and location, and with probability 0.3 a reaction whose
manifestation is another fabricated uuid4 Observation. -/
def generate_immunization (patient_id practitioner_id : String)
    (encounter_id location_id : Option String) (r : Rnd) : Rec × Rnd :=
  let (iid, r1) := r.uuid
  let (manufacturer, r2) := catChoice VACCINE_MANUFACTURERS r1
  let (reason_obs, r3) := r2.uuid
  let (hasReaction, r4) := coin 300 r3
  let (reaction_obs, r5) := if hasReaction then r4.uuid else ("", r4)
  (⟨iid,
    ⟨"manufacturer", "Organization", manufacturer, false⟩ ::
    ⟨"patient", "Patient", patient_id, true⟩ ::
    ⟨"performer.0.actor", "Practitioner", practitioner_id, true⟩ ::
    ⟨"performer.1.actor", "Practitioner", practitioner_id, true⟩ ::
    ⟨"reason.0.reference", "Observation", reason_obs, false⟩ ::
    ((match encounter_id with
      | some e => [⟨"encounter", "Encounter", e, true⟩]
      | none => []) ++
     (match location_id with
      | some l => [⟨"location", "Location", l, true⟩]
      | none => []) ++
     (if hasReaction then
        [⟨"reaction.0.manifestation", "Observation", reaction_obs, false⟩]
      else []))⟩, r5)

/-- generate_medication_administration (medication_administration.py lines
22-330): a contained Provenance whose target is the medication request
when supplied and whose agent and signature reference the practitioner
(contained references that main.py never rewrites), subject, one
performer, context (R4) or encounter (R5) when supplied, and request when
supplied. -/
def generate_medication_administration (version : FhirVersion)
    (patient_id practitioner_id : String)
    (medication_request_id encounter_id : Option String) (r : Rnd) :
    Rec × Rnd :=
  let (mid, r1) := r.uuid
  (⟨mid,
    (match medication_request_id with
     | some m => [⟨"contained.1.target.0", "MedicationRequest", m, true⟩]
     | none => []) ++
    (⟨"contained.1.agent.0.who", "Practitioner", practitioner_id, true⟩ ::
     ⟨"contained.1.signature.0.who", "Practitioner", practitioner_id, true⟩ ::
     ⟨"subject", "Patient", patient_id, true⟩ ::
     ⟨"performer.0.actor", "Practitioner", practitioner_id, true⟩ ::
     ((match encounter_id with
       | some e =>
         if version = FhirVersion.R4 then [⟨"context", "Encounter", e, true⟩]
         else [⟨"encounter", "Encounter", e, true⟩]
       | none => []) ++
      (match medication_request_id with
       | some m => [⟨"request", "MedicationRequest", m, true⟩]
       | none => [])))⟩, r1)

/-- generate_allergy_intolerance (allergy_intolerance.py lines 60-200):
patient always; the practitioner only under R5, as participant.0.actor
(there is no recorder field). -/
def generate_allergy_intolerance (version : FhirVersion)
    (patient_id : String) (practitioner_id : Option String) (r : Rnd) :
    Rec × Rnd :=
  let (aid, r1) := r.uuid
  (⟨aid,
    ⟨"patient", "Patient", patient_id, true⟩ ::
    (match practitioner_id with
     | some pr =>
       if version ≠ FhirVersion.R4 then
         [⟨"participant.0.actor", "Practitioner", pr, true⟩]
       else []
     | none => [])⟩, r1)

/-- The kind values of CARE_PLAN_ACTIVITY_DETAILS
(src/lib/data/care_plans.py lines 420-460). -/
def CARE_PLAN_ACTIVITY_KINDS : List String :=
  ["Appointment", "CommunicationRequest", "DeviceRequest",
   "MedicationRequest", "NutritionOrder", "ServiceRequest", "Task",
   "VisionPrescription"]

/-- Fabricated goal references: one Goal/uuid4 per drawn goal
(care_plan.py line 56). -/
def carePlanGoals : Nat → Nat → Rnd → List Ref × Rnd
  | _, 0, r => ([], r)
  | i, n + 1, r =>
    let (g, r1) := r.uuid
    let (rest, r2) := carePlanGoals (i + 1) n r1
    (⟨"goal." ++ toString i, "Goal", g, false⟩ :: rest, r2)

/-- Fabricated planned activity references: a catalog kind with a fresh
uuid4 per drawn activity (care_plan.py lines 63-92). -/
def carePlanActivities : Nat → Nat → Rnd → List Ref × Rnd
  | _, 0, r => ([], r)
  | i, n + 1, r =>
    let (kind, r1) := catChoice CARE_PLAN_ACTIVITY_KINDS r
    let (u, r2) := r1.uuid
    let (rest, r3) := carePlanActivities (i + 1) n r2
    (⟨"activity." ++ toString i ++ ".plannedActivityReference", kind, u, false⟩ :: rest, r3)

/-- generate_care_plan (care_plan.py lines 22-214): a contained Condition
whose subject is the patient, the subject itself, the practitioner as
custodian, a fabricated CareTeam/uuid4, 1-3 fabricated Goal/uuid4
references, 2-5 fabricated planned activity references, and encounter when
supplied.  The condition_id parameter exists in the source signature but is
never used in the body, so it does not appear here. -/
def generate_care_plan (patient_id practitioner_id : String)
    (encounter_id : Option String) (r : Rnd) : Rec × Rnd :=
  let (cpid, r1) := r.uuid
  let (num_goals, r2) := rndBetween 1 3 r1
  let (goals, r3) := carePlanGoals 0 num_goals r2
  let (num_activities, r4) := rndBetween 2 5 r3
  let (activities, r5) := carePlanActivities 0 num_activities r4
  let (care_team, r6) := r5.uuid
  (⟨cpid,
    ⟨"contained.0.subject", "Patient", patient_id, true⟩ ::
    ⟨"subject", "Patient", patient_id, true⟩ ::
    ⟨"custodian", "Practitioner", practitioner_id, true⟩ ::
    ⟨"careTeam.0", "CareTeam", care_team, false⟩ ::
    (goals ++ activities ++
     (match encounter_id with
      | some e => [⟨"encounter", "Encounter", e, true⟩]
      | none => []))⟩, r6)

/-- generate_coverage (coverage.py lines 24-314): policyHolder is the
insurer Organization unless a distinct policy holder patient was supplied
(in which case the final block replaces it), subscriber and beneficiary are
the patient, and the insurer appears under payor.0 (R4) or insurer (R5). -/
def generate_coverage (version : FhirVersion)
    (patient_id organization_id : String) (policy_holder_id : Option String)
    (r : Rnd) : Rec × Rnd :=
  let (cvid, r1) := r.uuid
  let policyHolder : Ref :=
    match policy_holder_id with
    | some ph =>
      if ph ≠ patient_id then ⟨"policyHolder", "Patient", ph, true⟩
      else ⟨"policyHolder", "Organization", organization_id, true⟩
    | none => ⟨"policyHolder", "Organization", organization_id, true⟩
  (⟨cvid,
    [policyHolder,
     ⟨"subscriber", "Patient", patient_id, true⟩,
     ⟨"beneficiary", "Patient", patient_id, true⟩,
     (if version = FhirVersion.R4 then
        ⟨"payor.0", "Organization", organization_id, true⟩
      else
        ⟨"insurer", "Organization", organization_id, true⟩)]⟩, r1)

/-- generate_binary_resource (document_reference.py lines 276-306): no
reference fields. -/
def generate_binary_resource (r : Rnd) : Rec × Rnd :=
  let (bid, r1) := r.uuid
  (⟨bid, []⟩, r1)

/-- generate_document_reference (document_reference.py lines 148-273):
subject, one author, a single context reference to the encounter, the
Binary under content.0.attachment.url, and with probability 0.7 an
attester referencing the practitioner. -/
def generate_document_reference (patient_id practitioner_id encounter_id binary_id : String)
    (r : Rnd) : Rec × Rnd :=
  let (did, r1) := r.uuid
  let (hasAttester, r2) := coin 700 r1
  (⟨did,
    ⟨"subject", "Patient", patient_id, true⟩ ::
    ⟨"author.0", "Practitioner", practitioner_id, true⟩ ::
    ⟨"context", "Encounter", encounter_id, true⟩ ::
    ⟨"content.0.attachment.url", "Binary", binary_id, true⟩ ::
    (if hasAttester then
       [⟨"attester.0.party", "Practitioner", practitioner_id, true⟩]
     else [])⟩, r2)

/-! ### Configuration (main.py lines 38-58 and the per_patient .get defaults) -/

/-- A per-kind count range from the configuration: a min/max object. -/
structure MinMax where
  lo : Nat
  hi : Nat
deriving DecidableEq, Repr

/-- The configuration consumed by the standard generation path: base pool
sizes, one min/max range per dependent kind, and the document reference
probability, in thousandths of the configured float. -/
structure AssembleConfig where
  clinics : Nat
  practitioners : Nat
  patients : Nat
  conditions : MinMax
  appointments : MinMax
  medication_requests : MinMax
  encounters : MinMax
  document_reference_probability : Int
  observations : MinMax
  procedures : MinMax
  diagnostic_reports : MinMax
  service_requests : MinMax
  clinical_impressions : MinMax
  family_member_histories : MinMax
  immunizations : MinMax
  medication_administrations : MinMax
  allergy_intolerances : MinMax
  care_plans : MinMax
  coverages : MinMax
deriving DecidableEq, Repr

/-- load_config (main.py lines 38-58): reads and parses the configuration
file and returns it unchanged; no field is validated (file handling is
elided).  Min/max ranges and probabilities are not inspected here or
anywhere else before generation. -/
def load_config (cfg : AssembleConfig) : Except String AssembleConfig :=
  Except.ok cfg

/-! ### The generation loops (main.py lines 81-460, standard path) -/

/-- The clinic/location pool loop (main.py lines 82-88). -/
def genClinics : Nat → Rnd → (List Rec × List Rec) × Rnd
  | 0, r => (([], []), r)
  | n + 1, r =>
    let (cl, r1) := generate_clinic_and_location r
    let (rest, r2) := genClinics n r1
    ((cl.1 :: rest.1, cl.2 :: rest.2), r2)

/-- The practitioner pool loop (main.py lines 91-92). -/
def genPractitioners : Nat → Rnd → List Rec × Rnd
  | 0, r => ([], r)
  | n + 1, r =>
    let (p, r1) := generate_practitioner r
    let (rest, r2) := genPractitioners n r1
    (p :: rest, r2)

/-- The conditions loop for one patient (main.py lines 230-233). -/
def genConditions (pid : String) : Nat → Rnd → List Rec × Rnd
  | 0, r => ([], r)
  | n + 1, r =>
    let (c, r1) := generate_condition pid r
    let (rest, r2) := genConditions pid n r1
    (c :: rest, r2)

/-- The appointments loop for one patient (main.py lines 236-242). -/
def genAppointments (pid : String) (practitioners locations : List Rec) :
    Nat → Rnd → Except String (List Rec × Rnd)
  | 0, r => Except.ok ([], r)
  | n + 1, r => do
    let (pr, r) ← choice practitioners r
    let (loc, r) ← choice locations r
    let (a, r) := generate_appointment pid pr.rid loc.rid r
    let (rest, r) ← genAppointments pid practitioners locations n r
    Except.ok (a :: rest, r)

/-- The medication request loop for one patient (main.py lines 245-250). -/
def genMedicationRequests (pid : String) (practitioners : List Rec) :
    Nat → Rnd → Except String (List Rec × Rnd)
  | 0, r => Except.ok ([], r)
  | n + 1, r => do
    let (pr, r) ← choice practitioners r
    let (m, r) := generate_medication_request pid pr.rid r
    let (rest, r) ← genMedicationRequests pid practitioners n r
    Except.ok (m :: rest, r)

/-- The encounter loop for one patient (main.py lines 252-297): each
encounter draws a practitioner, location and organization, and with the
configured probability also produces a Binary plus a DocumentReference
referencing the encounter and the binary. -/
def genEncounters (pid : String) (practitioners locations clinics : List Rec)
    (docProb : Int) :
    Nat → Rnd → Except String ((List Rec × List Rec × List Rec) × Rnd)
  | 0, r => Except.ok (([], [], []), r)
  | n + 1, r => do
    let (pr, r) ← choice practitioners r
    let (loc, r) ← choice locations r
    let (org, r) ← choice clinics r
    let (e, r) := generate_encounter pid pr.rid loc.rid org.rid r
    let (doDocRef, r) := coin docProb r
    let (docsBins, r) :=
      if doDocRef then
        let (b, r1) := generate_binary_resource r
        let (d, r2) := generate_document_reference pid pr.rid e.rid b.rid r1
        (([d], [b]), r2)
      else (([], []), r)
    let (rest, r) ← genEncounters pid practitioners locations clinics docProb n r
    Except.ok ((e :: rest.1, docsBins.1 ++ rest.2.1, docsBins.2 ++ rest.2.2), r)

/-- The observation loop for one patient (main.py lines 300-305). -/
def genObservations (pid : String) (practitioners : List Rec) :
    Nat → Rnd → Except String (List Rec × Rnd)
  | 0, r => Except.ok ([], r)
  | n + 1, r => do
    let (pr, r) ← choice practitioners r
    let (o, r) := generate_observation pid pr.rid r
    let (rest, r) ← genObservations pid practitioners n r
    Except.ok (o :: rest, r)

/-- The procedure loop for one patient (main.py lines 308-313). -/
def genProcedures (pid : String) (practitioners : List Rec) :
    Nat → Rnd → Except String (List Rec × Rnd)
  | 0, r => Except.ok ([], r)
  | n + 1, r => do
    let (pr, r) ← choice practitioners r
    let (p, r) := generate_procedure pid pr.rid r
    let (rest, r) ← genProcedures pid practitioners n r
    Except.ok (p :: rest, r)

/-- The per-patient record lists produced by the first generation loop. -/
structure L1 where
  patients : List Rec
  conditions : List Rec
  appointments : List Rec
  medication_requests : List Rec
  encounters : List Rec
  document_references : List Rec
  binaries : List Rec
  observations : List Rec
  procedures : List Rec
deriving DecidableEq, Repr

def L1.append (a b : L1) : L1 :=
  ⟨a.patients ++ b.patients, a.conditions ++ b.conditions,
   a.appointments ++ b.appointments,
   a.medication_requests ++ b.medication_requests,
   a.encounters ++ b.encounters,
   a.document_references ++ b.document_references,
   a.binaries ++ b.binaries, a.observations ++ b.observations,
   a.procedures ++ b.procedures⟩

def L1.empty : L1 := ⟨[], [], [], [], [], [], [], [], []⟩

/-- One iteration of the first per-patient loop (main.py lines 225-313). -/
def loop1Patient (cfg : AssembleConfig)
    (practitioners locations clinics : List Rec) (r : Rnd) :
    Except String (L1 × Rnd) := do
  let (patient, r) := generate_patient r
  let (nCond, r) ← randint cfg.conditions.lo cfg.conditions.hi r
  let (conds, r) := genConditions patient.rid nCond r
  let (nAppt, r) ← randint cfg.appointments.lo cfg.appointments.hi r
  let (appts, r) ← genAppointments patient.rid practitioners locations nAppt r
  let (nMed, r) ← randint cfg.medication_requests.lo cfg.medication_requests.hi r
  let (meds, r) ← genMedicationRequests patient.rid practitioners nMed r
  let (nEnc, r) ← randint cfg.encounters.lo cfg.encounters.hi r
  let (encs, r) ← genEncounters patient.rid practitioners locations clinics
    cfg.document_reference_probability nEnc r
  let (nObs, r) ← randint cfg.observations.lo cfg.observations.hi r
  let (obs, r) ← genObservations patient.rid practitioners nObs r
  let (nProc, r) ← randint cfg.procedures.lo cfg.procedures.hi r
  let (procs, r) ← genProcedures patient.rid practitioners nProc r
  Except.ok
    (⟨[patient], conds, appts, meds, encs.1, encs.2.1, encs.2.2, obs, procs⟩, r)

/-- The first generation loop over all patients (main.py lines 224-313). -/
def loop1 (cfg : AssembleConfig)
    (practitioners locations clinics : List Rec) :
    Nat → Rnd → Except String (L1 × Rnd)
  | 0, r => Except.ok (L1.empty, r)
  | n + 1, r => do
    let (one, r) ← loop1Patient cfg practitioners locations clinics r
    let (rest, r) ← loop1 cfg practitioners locations clinics n r
    Except.ok (one.append rest, r)

/-- main.py line 318: the encounters whose subject reference ends with
/{patient id} (with uuid identifiers, exactly the encounters whose subject
is the patient). -/
def encountersOf (encounters : List Rec) (pid : String) : List Rec :=
  encounters.filter fun e =>
    e.refs.any fun f => f.field == "subject" && f.rid == pid

/-- main.py line 329: the observations whose subject is the patient. -/
def observationsOf (observations : List Rec) (pid : String) : List Rec :=
  observations.filter fun o =>
    o.refs.any fun f => f.field == "subject" && f.rid == pid

/-- The recurring pattern encounter = random.choice(pe) if pe and
random.random() < p else None: the empty list short-circuits before any
draw; otherwise the coin is drawn and the choice made only on success. -/
def optEncounter (pe : List Rec) (pMilli : Int) (r : Rnd) :
    Except String (Option Rec × Rnd) :=
  if pe.isEmpty then Except.ok (none, r)
  else
    if (coin pMilli r).1 then do
      let (e, r2) ← choice pe (coin pMilli r).2
      Except.ok (some e, r2)
    else Except.ok (none, (coin pMilli r).2)

/-- The recurring pattern x = random.choice(xs) if random.random() < p
else None: the coin is always drawn, the choice (which raises on an empty
xs) only when it succeeds. -/
def coinChoice (xs : List Rec) (pMilli : Int) (r : Rnd) :
    Except String (Option Rec × Rnd) :=
  if (coin pMilli r).1 then do
    let (x, r2) ← choice xs (coin pMilli r).2
    Except.ok (some x, r2)
  else Except.ok (none, (coin pMilli r).2)

/-- The diagnostic report loop for one patient (main.py lines 320-337):
only entered when the patient has encounters; each report draws a
practitioner and one of the patient's encounters and samples up to three
of the patient's observations. -/
def genDiagnosticReports (pid : String) (practitioners pe observations : List Rec) :
    Nat → Rnd → Except String (List Rec × Rnd)
  | 0, r => Except.ok ([], r)
  | n + 1, r => do
    let (pr, r) ← choice practitioners r
    let (enc, r) ← choice pe r
    let patObs := observationsOf observations pid
    let (obsIds, r) :=
      if patObs.isEmpty then (([] : List String), r)
      else
        let (sel, r1) := sample patObs (min 3 patObs.length) r
        (sel.map Rec.rid, r1)
    let (d, r) := generate_diagnostic_report pid pr.rid enc.rid obsIds r
    let (rest, r) ← genDiagnosticReports pid practitioners pe observations n r
    Except.ok (d :: rest, r)

/-- The optional encounter of the service request loop (main.py line 343):
gated by random.choice([True, False]) after the short-circuit on an empty
encounter list. -/
def srOptEncounter (pe : List Rec) (r : Rnd) :
    Except String (Option Rec × Rnd) :=
  if pe.isEmpty then Except.ok (none, r)
  else
    if (catChoice [true, false] r).1 then do
      let (e, r2) ← choice pe (catChoice [true, false] r).2
      Except.ok (some e, r2)
    else Except.ok (none, (catChoice [true, false] r).2)

/-- The service request loop for one patient (main.py lines 339-352). -/
def genServiceRequests (pid : String) (practitioners pe : List Rec) :
    Nat → Rnd → Except String (List Rec × Rnd)
  | 0, r => Except.ok ([], r)
  | n + 1, r => do
    let (pr, r) ← choice practitioners r
    let (encOpt, r) ← srOptEncounter pe r
    let (s, r) := generate_service_request pid pr.rid (encOpt.map Rec.rid) r
    let (rest, r) ← genServiceRequests pid practitioners pe n r
    Except.ok (s :: rest, r)

/-- The clinical impression loop for one patient (main.py lines 354-367). -/
def genClinicalImpressions (version : FhirVersion) (pid : String)
    (practitioners pe : List Rec) :
    Nat → Rnd → Except String (List Rec × Rnd)
  | 0, r => Except.ok ([], r)
  | n + 1, r => do
    let (pr, r) ← choice practitioners r
    let (encOpt, r) ← optEncounter pe 700 r
    let (c, r) := generate_clinical_impression version pid pr.rid
      (encOpt.map Rec.rid) r
    let (rest, r) ← genClinicalImpressions version pid practitioners pe n r
    Except.ok (c :: rest, r)

/-- The family member history loop for one patient (main.py lines
369-379). -/
def genFamilyMemberHistories (version : FhirVersion) (pid : String)
    (practitioners : List Rec) :
    Nat → Rnd → Except String (List Rec × Rnd)
  | 0, r => Except.ok ([], r)
  | n + 1, r => do
    let (prOpt, r) ← coinChoice practitioners 700 r
    let (f, r) := generate_family_member_history version pid
      (prOpt.map Rec.rid) r
    let (rest, r) ← genFamilyMemberHistories version pid practitioners n r
    Except.ok (f :: rest, r)

/-- The immunization loop for one patient (main.py lines 381-397). -/
def genImmunizations (pid : String) (practitioners pe locations : List Rec) :
    Nat → Rnd → Except String (List Rec × Rnd)
  | 0, r => Except.ok ([], r)
  | n + 1, r => do
    let (pr, r) ← choice practitioners r
    let (encOpt, r) ← optEncounter pe 600 r
    let (locOpt, r) ← coinChoice locations 800 r
    let (im, r) := generate_immunization pid pr.rid (encOpt.map Rec.rid)
      (locOpt.map Rec.rid) r
    let (rest, r) ← genImmunizations pid practitioners pe locations n r
    Except.ok (im :: rest, r)

/-- The medication administration loop for one patient (main.py lines
399-415): the optional fulfilled request is drawn from the global
medication request list with probability 0.5 — random.choice raises when
that list is empty. -/
def genMedicationAdministrations (version : FhirVersion) (pid : String)
    (practitioners pe medication_requests : List Rec) :
    Nat → Rnd → Except String (List Rec × Rnd)
  | 0, r => Except.ok ([], r)
  | n + 1, r => do
    let (pr, r) ← choice practitioners r
    let (encOpt, r) ← optEncounter pe 700 r
    let (mrOpt, r) ← coinChoice medication_requests 500 r
    let (m, r) := generate_medication_administration version pid pr.rid
      (mrOpt.map Rec.rid) (encOpt.map Rec.rid) r
    let (rest, r) ← genMedicationAdministrations version pid practitioners
      pe medication_requests n r
    Except.ok (m :: rest, r)

/-- The allergy intolerance loop for one patient (main.py lines 417-427). -/
def genAllergyIntolerances (version : FhirVersion) (pid : String)
    (practitioners : List Rec) :
    Nat → Rnd → Except String (List Rec × Rnd)
  | 0, r => Except.ok ([], r)
  | n + 1, r => do
    let (prOpt, r) ← coinChoice practitioners 600 r
    let (a, r) := generate_allergy_intolerance version pid
      (prOpt.map Rec.rid) r
    let (rest, r) ← genAllergyIntolerances version pid practitioners n r
    Except.ok (a :: rest, r)

/-- The care plan loop for one patient (main.py lines 429-445): the
optional condition is drawn from the global condition list with
probability 0.7 (raising when it is empty) but generate_care_plan never
uses it. -/
def genCarePlans (pid : String) (practitioners pe conditions : List Rec) :
    Nat → Rnd → Except String (List Rec × Rnd)
  | 0, r => Except.ok ([], r)
  | n + 1, r => do
    let (pr, r) ← choice practitioners r
    let (encOpt, r) ← optEncounter pe 500 r
    let (_condOpt, r) ← coinChoice conditions 700 r
    let (cp, r) := generate_care_plan pid pr.rid (encOpt.map Rec.rid) r
    let (rest, r) ← genCarePlans pid practitioners pe conditions n r
    Except.ok (cp :: rest, r)

/-- The coverage loop for one patient (main.py lines 447-460). -/
def genCoverages (version : FhirVersion) (pid : String)
    (clinics patients : List Rec) :
    Nat → Rnd → Except String (List Rec × Rnd)
  | 0, r => Except.ok ([], r)
  | n + 1, r => do
    let (org, r) ← choice clinics r
    let (phOpt, r) ← coinChoice patients 200 r
    let (cv, r) := generate_coverage version pid org.rid
      (phOpt.map Rec.rid) r
    let (rest, r) ← genCoverages version pid clinics patients n r
    Except.ok (cv :: rest, r)

/-- The record lists produced by the second per-patient loop. -/
structure L2 where
  diagnostic_reports : List Rec
  service_requests : List Rec
  clinical_impressions : List Rec
  family_member_histories : List Rec
  immunizations : List Rec
  medication_administrations : List Rec
  allergy_intolerances : List Rec
  care_plans : List Rec
  coverages : List Rec
deriving DecidableEq, Repr

def L2.append (a b : L2) : L2 :=
  ⟨a.diagnostic_reports ++ b.diagnostic_reports,
   a.service_requests ++ b.service_requests,
   a.clinical_impressions ++ b.clinical_impressions,
   a.family_member_histories ++ b.family_member_histories,
   a.immunizations ++ b.immunizations,
   a.medication_administrations ++ b.medication_administrations,
   a.allergy_intolerances ++ b.allergy_intolerances,
   a.care_plans ++ b.care_plans, a.coverages ++ b.coverages⟩

def L2.empty : L2 := ⟨[], [], [], [], [], [], [], [], []⟩

/-- The gated diagnostic report count draw (main.py lines 320-323): no
draws at all when the patient has no encounters. -/
def genDiagsGate (cfg : AssembleConfig) (pid : String)
    (practitioners pe observations : List Rec) (r : Rnd) :
    Except String (List Rec × Rnd) :=
  if pe.isEmpty then Except.ok ([], r)
  else do
    let (nDiag, r1) ← randint cfg.diagnostic_reports.lo cfg.diagnostic_reports.hi r
    genDiagnosticReports pid practitioners pe observations nDiag r1

/-- One iteration of the second per-patient loop (main.py lines 317-460),
running over the completed first-loop lists. -/
def loop2Patient (cfg : AssembleConfig) (version : FhirVersion)
    (practitioners locations clinics : List Rec) (l1 : L1) (patient : Rec)
    (r : Rnd) : Except String (L2 × Rnd) := do
  let pe := encountersOf l1.encounters patient.rid
  let (diags, r) ← genDiagsGate cfg patient.rid practitioners pe l1.observations r
  let (nServ, r) ← randint cfg.service_requests.lo cfg.service_requests.hi r
  let (servs, r) ← genServiceRequests patient.rid practitioners pe nServ r
  let (nClin, r) ← randint cfg.clinical_impressions.lo cfg.clinical_impressions.hi r
  let (clins, r) ← genClinicalImpressions version patient.rid practitioners pe nClin r
  let (nFam, r) ← randint cfg.family_member_histories.lo cfg.family_member_histories.hi r
  let (fams, r) ← genFamilyMemberHistories version patient.rid practitioners nFam r
  let (nImm, r) ← randint cfg.immunizations.lo cfg.immunizations.hi r
  let (imms, r) ← genImmunizations patient.rid practitioners pe locations nImm r
  let (nMedA, r) ← randint cfg.medication_administrations.lo cfg.medication_administrations.hi r
  let (medAs, r) ← genMedicationAdministrations version patient.rid practitioners
    pe l1.medication_requests nMedA r
  let (nAll, r) ← randint cfg.allergy_intolerances.lo cfg.allergy_intolerances.hi r
  let (alls, r) ← genAllergyIntolerances version patient.rid practitioners nAll r
  let (nCare, r) ← randint cfg.care_plans.lo cfg.care_plans.hi r
  let (cares, r) ← genCarePlans patient.rid practitioners pe l1.conditions nCare r
  let (nCov, r) ← randint cfg.coverages.lo cfg.coverages.hi r
  let (covs, r) ← genCoverages version patient.rid clinics l1.patients nCov r
  Except.ok (⟨diags, servs, clins, fams, imms, medAs, alls, cares, covs⟩, r)

/-- The second generation loop over all patients (main.py lines 317-460). -/
def loop2 (cfg : AssembleConfig) (version : FhirVersion)
    (practitioners locations clinics : List Rec) (l1 : L1) :
    List Rec → Rnd → Except String (L2 × Rnd)
  | [], r => Except.ok (L2.empty, r)
  | p :: ps, r => do
    let (one, r) ← loop2Patient cfg version practitioners locations clinics l1 p r
    let (rest, r) ← loop2 cfg version practitioners locations clinics l1 ps r
    Except.ok (one.append rest, r)

/-- The assembled graph: the fhir_bundle of main.py lines 463-485, one
ordered list of records per entity kind. -/
structure Graph where
  patients : List Rec
  practitioners : List Rec
  clinics : List Rec
  locations : List Rec
  conditions : List Rec
  appointments : List Rec
  medication_requests : List Rec
  procedures : List Rec
  observations : List Rec
  encounters : List Rec
  diagnostic_reports : List Rec
  service_requests : List Rec
  clinical_impressions : List Rec
  family_member_histories : List Rec
  immunizations : List Rec
  medication_administrations : List Rec
  allergy_intolerances : List Rec
  care_plans : List Rec
  coverages : List Rec
  document_references : List Rec
  binaries : List Rec
deriving DecidableEq, Repr

/-- The standard generation path of main (main.py lines 74-485 with no
patient_configs): clinic/location pools, practitioner pool, the first
per-patient loop, the second per-patient loop, and the bundle. -/
def assembleStd (cfg : AssembleConfig) (version : FhirVersion) (r : Rnd) :
    Except String (Graph × Rnd) := do
  let (pools, r) := genClinics cfg.clinics r
  let (practitioners, r) := genPractitioners cfg.practitioners r
  let (l1, r) ← loop1 cfg practitioners pools.2 pools.1 cfg.patients r
  let (l2, r) ← loop2 cfg version practitioners pools.2 pools.1 l1 l1.patients r
  Except.ok
    (⟨l1.patients, practitioners, pools.1, pools.2, l1.conditions,
      l1.appointments, l1.medication_requests, l1.procedures,
      l1.observations, l1.encounters, l2.diagnostic_reports,
      l2.service_requests, l2.clinical_impressions,
      l2.family_member_histories, l2.immunizations,
      l2.medication_administrations, l2.allergy_intolerances, l2.care_plans,
      l2.coverages, l1.document_references, l1.binaries⟩, r)

/-! ### Graph views -/

/-- The record list of a resource type in the graph (the fhir_bundle keys
of main.py lines 463-485, keyed by resource type). -/
def Graph.kindList (g : Graph) : String → List Rec
  | "Patient" => g.patients
  | "Practitioner" => g.practitioners
  | "Organization" => g.clinics
  | "Location" => g.locations
  | "Condition" => g.conditions
  | "Appointment" => g.appointments
  | "MedicationRequest" => g.medication_requests
  | "Procedure" => g.procedures
  | "Observation" => g.observations
  | "Encounter" => g.encounters
  | "DiagnosticReport" => g.diagnostic_reports
  | "ServiceRequest" => g.service_requests
  | "ClinicalImpression" => g.clinical_impressions
  | "FamilyMemberHistory" => g.family_member_histories
  | "Immunization" => g.immunizations
  | "MedicationAdministration" => g.medication_administrations
  | "AllergyIntolerance" => g.allergy_intolerances
  | "CarePlan" => g.care_plans
  | "Coverage" => g.coverages
  | "DocumentReference" => g.document_references
  | "Binary" => g.binaries
  | _ => []

/-- The identifiers present in the graph for a resource type. -/
def Graph.idEnv (g : Graph) (kn : String) : List String :=
  (g.kindList kn).map Rec.rid

/-- Every record of the graph, tagged with its resource type. -/
def Graph.allTyped (g : Graph) : List (String × Rec) :=
  g.patients.map (fun rec => ("Patient", rec)) ++
  g.practitioners.map (fun rec => ("Practitioner", rec)) ++
  g.clinics.map (fun rec => ("Organization", rec)) ++
  g.locations.map (fun rec => ("Location", rec)) ++
  g.conditions.map (fun rec => ("Condition", rec)) ++
  g.appointments.map (fun rec => ("Appointment", rec)) ++
  g.medication_requests.map (fun rec => ("MedicationRequest", rec)) ++
  g.procedures.map (fun rec => ("Procedure", rec)) ++
  g.observations.map (fun rec => ("Observation", rec)) ++
  g.encounters.map (fun rec => ("Encounter", rec)) ++
  g.diagnostic_reports.map (fun rec => ("DiagnosticReport", rec)) ++
  g.service_requests.map (fun rec => ("ServiceRequest", rec)) ++
  g.clinical_impressions.map (fun rec => ("ClinicalImpression", rec)) ++
  g.family_member_histories.map (fun rec => ("FamilyMemberHistory", rec)) ++
  g.immunizations.map (fun rec => ("Immunization", rec)) ++
  g.medication_administrations.map (fun rec => ("MedicationAdministration", rec)) ++
  g.allergy_intolerances.map (fun rec => ("AllergyIntolerance", rec)) ++
  g.care_plans.map (fun rec => ("CarePlan", rec)) ++
  g.coverages.map (fun rec => ("Coverage", rec)) ++
  g.document_references.map (fun rec => ("DocumentReference", rec)) ++
  g.binaries.map (fun rec => ("Binary", rec))

/-- A reference target exists in the graph: some record of the target type
carries the referenced identifier. -/
def targetExists (g : Graph) (f : Ref) : Bool :=
  (g.idEnv f.kind).contains f.rid

/-- The graph holds at least one reference whose target record does not
exist. -/
def hasDangling (g : Graph) : Bool :=
  g.allTyped.any fun p => p.2.refs.any fun f => !(targetExists g f)

/-! ### The publish-time reference rewrite (src/main.py lines 541-1147)

Before each kind is created against the server, main.py rewrites specific
reference fields of its records from local identifiers to the
server-assigned identifiers collected in the per-kind id maps.  The
rewrite is modelled per (resource type, field path); fields outside this
set — among them everything inside contained resources other than the
care plan's contained condition subject, the R5 participant arrays of
FamilyMemberHistory and AllergyIntolerance, and all fabricated references
— are left untouched by main.py. -/

/-- The per-kind identifier maps main.py builds while publishing. -/
structure StoreMaps where
  organization : List (String × String)
  location : List (String × String)
  patient : List (String × String)
  practitioner : List (String × String)
  encounter : List (String × String)
  observation : List (String × String)
  medicationRequest : List (String × String)
  binary : List (String × String)
deriving Repr

/-- The resource types for which main.py keeps an id map used in reference
rewriting. -/
def mappedKindNames : List String :=
  ["Organization", "Location", "Patient", "Practitioner", "Encounter",
   "Observation", "MedicationRequest", "Binary"]

def mapFor (m : StoreMaps) : String → List (String × String)
  | "Organization" => m.organization
  | "Location" => m.location
  | "Patient" => m.patient
  | "Practitioner" => m.practitioner
  | "Encounter" => m.encounter
  | "Observation" => m.observation
  | "MedicationRequest" => m.medicationRequest
  | "Binary" => m.binary
  | _ => []

/-- Whether main.py's publish pass rewrites the given field of the given
resource type (by the update blocks at lines 541-545, 567-571, 591-606,
682-704, 714-748, 780-804, 814-832, 844-864, 874-886, 896-921, 931-961,
971-983, 993-1019, 1029-1071, 1104-1147). -/
def rewrittenField : String → String → Bool
  | "Location", f => f == "managingOrganization"
  | "Condition", f => f == "subject"
  | "Appointment", f =>
    f == "participant.0.actor" || f == "participant.1.actor" ||
      f == "participant.2.actor"
  | "MedicationRequest", f => f == "subject" || f == "requester"
  | "Procedure", f => f == "subject" || f == "performer.0.actor"
  | "Observation", f => f == "subject" || f == "performer.0"
  | "Encounter", f =>
    f == "subject" || f == "participant.0.actor" ||
      f == "location.0.location" || f == "serviceProvider"
  | "DiagnosticReport", f =>
    f == "subject" || f == "performer.0" || f == "encounter" ||
      f.startsWith "result."
  | "ServiceRequest", f => f == "subject" || f == "requester" || f == "encounter"
  | "ClinicalImpression", f =>
    f == "subject" || f == "assessor" || f == "performer" || f == "encounter"
  | "FamilyMemberHistory", f => f == "patient" || f == "recorder"
  | "Immunization", f =>
    f == "patient" || f == "encounter" || f == "location" ||
      (f.startsWith "performer." && f.endsWith ".actor")
  | "MedicationAdministration", f =>
    f == "subject" || f == "performer.0.actor" || f == "context" ||
      f == "encounter" || f == "request"
  | "AllergyIntolerance", f => f == "patient" || f == "recorder"
  | "CarePlan", f =>
    f == "subject" || f == "custodian" || f == "encounter" ||
      f == "contained.0.subject"
  | "Coverage", f =>
    f == "subscriber" || f == "beneficiary" || f == "policyHolder" ||
      f == "payor.0" || f == "insurer"
  | "DocumentReference", f =>
    f == "subject" || f == "author.0" || f == "context" ||
      f == "content.0.attachment.url" || f == "attester.0.party"
  | _, _ => false

/-- Rewrite one reference: fields the pass covers are resolved through the
map of the target's type (kept unchanged when the map lacks the id, as the
guarded .get lookups do; the direct-indexing lookups of the source never
miss because of the pre-publish referential integrity). -/
def rewriteRef (m : StoreMaps) (rt : String) (f : Ref) : Ref :=
  if rewrittenField rt f.field then
    match (mapFor m f.kind).lookup f.rid with
    | some sid => { f with rid := sid }
    | none => f
  else f

def rewriteRec (m : StoreMaps) (rt : String) (rec : Rec) : Rec :=
  { rec with refs := rec.refs.map (rewriteRef m rt) }

/-- The graph as its records are sent to the store: every kind's records
with the rewrite pass applied. -/
def publishedGraph (m : StoreMaps) (g : Graph) : Graph :=
  ⟨g.patients.map (rewriteRec m "Patient"),
   g.practitioners.map (rewriteRec m "Practitioner"),
   g.clinics.map (rewriteRec m "Organization"),
   g.locations.map (rewriteRec m "Location"),
   g.conditions.map (rewriteRec m "Condition"),
   g.appointments.map (rewriteRec m "Appointment"),
   g.medication_requests.map (rewriteRec m "MedicationRequest"),
   g.procedures.map (rewriteRec m "Procedure"),
   g.observations.map (rewriteRec m "Observation"),
   g.encounters.map (rewriteRec m "Encounter"),
   g.diagnostic_reports.map (rewriteRec m "DiagnosticReport"),
   g.service_requests.map (rewriteRec m "ServiceRequest"),
   g.clinical_impressions.map (rewriteRec m "ClinicalImpression"),
   g.family_member_histories.map (rewriteRec m "FamilyMemberHistory"),
   g.immunizations.map (rewriteRec m "Immunization"),
   g.medication_administrations.map (rewriteRec m "MedicationAdministration"),
   g.allergy_intolerances.map (rewriteRec m "AllergyIntolerance"),
   g.care_plans.map (rewriteRec m "CarePlan"),
   g.coverages.map (rewriteRec m "Coverage"),
   g.document_references.map (rewriteRec m "DocumentReference"),
   g.binaries.map (rewriteRec m "Binary")⟩

/-! ### Concrete runs for the counterexamples -/

/-- One clinic, one practitioner, one patient, one care plan, nothing else
optional. -/
def cfgC2 : AssembleConfig :=
  ⟨1, 1, 1, ⟨0, 0⟩, ⟨0, 0⟩, ⟨0, 0⟩, ⟨0, 0⟩, 0, ⟨0, 0⟩, ⟨0, 0⟩, ⟨1, 2⟩,
   ⟨0, 0⟩, ⟨0, 0⟩, ⟨0, 0⟩, ⟨0, 0⟩, ⟨0, 0⟩, ⟨0, 0⟩, ⟨1, 1⟩, ⟨0, 0⟩⟩

/-- Draws for cfgC2: zeros throughout, except that the care plan's
condition-link coin (15th draw) does not fire. -/
def rndC2 : Rnd :=
  ⟨List.replicate 14 0 ++ 999 :: List.replicate 10 0,
   ["c1", "l1", "pr1", "pa1", "cp1", "g1", "act1", "act2", "ct1",
    "u10", "u11", "u12"]⟩

/-- Counterexample to C2: a graph assembled by main under an ordinary
configuration (one patient with one care plan) contains dangling
references — the care plan's fabricated Goal, CareTeam and planned
activity targets exist nowhere in the graph. -/
theorem claim_C2_counterexample :
    (match assembleStd cfgC2 FhirVersion.R4 rndC2 with
     | Except.ok (g, _) => hasDangling g
     | Except.error _ => false) = true := by
  decide

/-- Store maps for the C5 counterexample run: every created record of the
mapped kinds has a server id. -/
def wMapsC5 : StoreMaps :=
  ⟨[("c1", "srv-org-1")], [("l1", "srv-loc-1")], [("pa1", "srv-pat-1")],
   [("pr1", "srv-doc-1")], [], [], [], []⟩

/-- Counterexample to C5: in the same run, after the publish-time rewrite
pass, a care plan as sent to the store still carries locally-generated
uuid4 identifiers in its reference fields (the fabricated Goal, CareTeam
and planned activity references, which no rewrite block touches). -/
theorem claim_C5_counterexample :
    (match assembleStd cfgC2 FhirVersion.R4 rndC2 with
     | Except.ok (g, _) =>
       (publishedGraph wMapsC5 g).care_plans.any fun rec =>
         rec.refs.any fun f => rndC2.uuids.contains f.rid
     | Except.error _ => false) = true := by
  decide

/-- One clinic, one practitioner, one patient, one medication
administration, zero medication requests (the dependent kind whose chosen
count is zero), nothing else. -/
def cfgC9 : AssembleConfig :=
  ⟨1, 1, 1, ⟨0, 0⟩, ⟨0, 0⟩, ⟨0, 0⟩, ⟨0, 0⟩, 0, ⟨0, 0⟩, ⟨0, 0⟩, ⟨1, 2⟩,
   ⟨0, 0⟩, ⟨0, 0⟩, ⟨0, 0⟩, ⟨0, 0⟩, ⟨1, 1⟩, ⟨0, 0⟩, ⟨0, 0⟩, ⟨0, 0⟩⟩

/-- Draws for cfgC9: all zeros, so the medication administration's request
coin (random.random() < 0.5) fires while the medication request list is
empty. -/
def rndC9 : Rnd :=
  ⟨List.replicate 20 0, ["c1", "l1", "pr1", "pa1", "u5", "u6"]⟩

/-- Counterexample to C9: with the medication request count chosen as
zero, assembly does not complete normally — the medication administration
loop's optional request link calls random.choice on the empty global
medication request list and raises IndexError (main.py line 407). -/
theorem claim_C9_counterexample :
    assembleStd cfgC9 FhirVersion.R4 rndC9 =
      Except.error "IndexError: cannot choose from an empty sequence" := by
  rfl

/-- A configuration whose conditions range has min 2 > max 1. -/
def cfgC6 : AssembleConfig :=
  ⟨1, 1, 1, ⟨2, 1⟩, ⟨0, 0⟩, ⟨0, 0⟩, ⟨0, 0⟩, 0, ⟨0, 0⟩, ⟨0, 0⟩, ⟨1, 2⟩,
   ⟨0, 0⟩, ⟨0, 0⟩, ⟨0, 0⟩, ⟨0, 0⟩, ⟨0, 0⟩, ⟨0, 0⟩, ⟨0, 0⟩, ⟨0, 0⟩⟩

def rndC6 : Rnd := ⟨List.replicate 20 0, ["c1", "l1", "pr1", "pa1", "u5"]⟩

/-- A configuration whose document reference probability is 1.5, with one
encounter so the gate is exercised. -/
def cfgC6prob : AssembleConfig :=
  ⟨1, 1, 1, ⟨0, 0⟩, ⟨0, 0⟩, ⟨0, 0⟩, ⟨1, 1⟩, 1500, ⟨0, 0⟩, ⟨0, 0⟩, ⟨0, 0⟩,
   ⟨0, 0⟩, ⟨0, 0⟩, ⟨0, 0⟩, ⟨0, 0⟩, ⟨0, 0⟩, ⟨0, 0⟩, ⟨0, 0⟩, ⟨0, 0⟩⟩

def rndC6prob : Rnd :=
  ⟨List.replicate 24 0, ["c1", "l1", "pr1", "pa1", "e1", "b1", "d1", "u8"]⟩

/-- Counterexample to C6: a min > max range passes configuration loading
untouched (load_config validates nothing), generation starts — the clinic
pool is already built — and the error finally surfaces mid-generation as
the ValueError of the first random.randint call; and a probability of 1.5
is never rejected at all: the whole run completes. -/
theorem claim_C6_counterexample :
    load_config cfgC6 = Except.ok cfgC6 ∧
    ((genClinics cfgC6.clinics rndC6).1.1.length = 1 ∧
      (genPractitioners cfgC6.practitioners
        (genClinics cfgC6.clinics rndC6).2).1.length = 1) ∧
    assembleStd cfgC6 FhirVersion.R4 rndC6 =
      Except.error "ValueError: empty range in randrange" ∧
    load_config cfgC6prob = Except.ok cfgC6prob ∧
    (assembleStd cfgC6prob FhirVersion.R4 rndC6prob).isOk = true := by
  refine ⟨rfl, ⟨rfl, rfl⟩, rfl, rfl, rfl⟩

/-- Claim C6 (amended): a per-kind range with min > max is not rejected
before generation: it surfaces only once generation reaches the first
count draw, as random.randint's ValueError, with the clinic, location and
practitioner pools already generated; and a probability outside [0, 1] is
never a configuration error: the gate random.random() < p silently acts
as "always" for p ≥ 1 and as "never" for p ≤ 0. -/
theorem claim_C6_amended_late_value_error (cfg : AssembleConfig)
    (version : FhirVersion) (r : Rnd)
    (hrange : cfg.conditions.hi < cfg.conditions.lo)
    (hpat : 0 < cfg.patients) :
    load_config cfg = Except.ok cfg ∧
    assembleStd cfg version r =
      Except.error "ValueError: empty range in randrange" ∧
    (∀ p : Int, 1000 ≤ p → ∀ r2, (coin p r2).1 = true) ∧
    (∀ p : Int, p ≤ 0 → ∀ r2, (coin p r2).1 = false) := by
  refine ⟨rfl, ?_, ?_, ?_⟩
  · obtain ⟨n, hn⟩ : ∃ n, cfg.patients = n + 1 :=
      ⟨cfg.patients - 1, by omega⟩
    simp only [assembleStd, hn, loop1, loop1Patient, randint, if_pos hrange]
    rfl
  · intro p hp r2
    simp only [coin]
    have : ((r2.nat.1 % 1000 : Nat) : Int) < 1000 := by
      have := Nat.mod_lt r2.nat.1 (show 0 < 1000 by omega)
      omega
    simp only [decide_eq_true_eq]
    omega
  · intro p hp r2
    simp only [coin]
    have : (0 : Int) ≤ ((r2.nat.1 % 1000 : Nat) : Int) := Int.ofNat_nonneg _
    simp only [decide_eq_false_iff_not]
    omega

/-- Witness for the amended C6 at the concrete inverted-range
configuration. -/
theorem claim_C6_amended_late_value_error_witness :
    (cfgC6.conditions.hi < cfgC6.conditions.lo ∧ 0 < cfgC6.patients) ∧
    (load_config cfgC6 = Except.ok cfgC6 ∧
      assembleStd cfgC6 FhirVersion.R4 rndC6 =
        Except.error "ValueError: empty range in randrange" ∧
      (∀ p : Int, 1000 ≤ p → ∀ r2, (coin p r2).1 = true) ∧
      (∀ p : Int, p ≤ 0 → ∀ r2, (coin p r2).1 = false)) :=
  ⟨by decide,
   claim_C6_amended_late_value_error cfgC6 FhirVersion.R4 rndC6
     (by decide) (by decide)⟩

/-! ### Referential integrity of assembler-supplied references

The invariant proved over the whole assembly: every reference whose
identifier was supplied by the assembler targets one of the mapped kinds
and an identifier present in the environment (instantiated with the final
graph's identifier sets). -/

def Ref.okIn (f : Ref) (env : String → List String) : Prop :=
  f.arg = true → f.kind ∈ mappedKindNames ∧ f.rid ∈ env f.kind

def Rec.refsOkIn (rec : Rec) (env : String → List String) : Prop :=
  ∀ f ∈ rec.refs, f.okIn env

theorem Ref.okIn_of_arg_false (f : Ref) (h : f.arg = false)
    (env : String → List String) : f.okIn env := by
  intro ha
  rw [h] at ha
  cases ha

theorem generate_condition_refs_ok (pid : String) (r : Rnd)
    (env : String → List String) (hp : pid ∈ env "Patient") :
    ((generate_condition pid r).1).refsOkIn env := by
  intro f hf
  have hrefs : (generate_condition pid r).1.refs =
      [⟨"subject", "Patient", pid, true⟩] := rfl
  rw [hrefs] at hf
  simp only [List.mem_singleton] at hf
  subst hf
  exact fun _ => ⟨show "Patient" ∈ mappedKindNames by decide, hp⟩

theorem generate_appointment_refs_ok (pid prid lid : String) (r : Rnd)
    (env : String → List String) (hp : pid ∈ env "Patient")
    (hpr : prid ∈ env "Practitioner") (hl : lid ∈ env "Location") :
    ((generate_appointment pid prid lid r).1).refsOkIn env := by
  intro f hf
  have hrefs : (generate_appointment pid prid lid r).1.refs =
      [⟨"participant.0.actor", "Patient", pid, true⟩,
       ⟨"participant.1.actor", "Practitioner", prid, true⟩,
       ⟨"participant.2.actor", "Location", lid, true⟩] := rfl
  rw [hrefs] at hf
  simp only [List.mem_cons, List.not_mem_nil, or_false] at hf
  rcases hf with rfl | rfl | rfl
  · exact fun _ => ⟨show "Patient" ∈ mappedKindNames by decide, hp⟩
  · exact fun _ => ⟨show "Practitioner" ∈ mappedKindNames by decide, hpr⟩
  · exact fun _ => ⟨show "Location" ∈ mappedKindNames by decide, hl⟩

theorem generate_medication_request_refs_ok (pid prid : String) (r : Rnd)
    (env : String → List String) (hp : pid ∈ env "Patient")
    (hpr : prid ∈ env "Practitioner") :
    ((generate_medication_request pid prid r).1).refsOkIn env := by
  intro f hf
  have hrefs : (generate_medication_request pid prid r).1.refs =
      [⟨"subject", "Patient", pid, true⟩,
       ⟨"requester", "Practitioner", prid, true⟩] := rfl
  rw [hrefs] at hf
  simp only [List.mem_cons, List.not_mem_nil, or_false] at hf
  rcases hf with rfl | rfl
  · exact fun _ => ⟨show "Patient" ∈ mappedKindNames by decide, hp⟩
  · exact fun _ => ⟨show "Practitioner" ∈ mappedKindNames by decide, hpr⟩

theorem generate_encounter_refs_ok (pid prid lid oid : String) (r : Rnd)
    (env : String → List String) (hp : pid ∈ env "Patient")
    (hpr : prid ∈ env "Practitioner") (hl : lid ∈ env "Location")
    (ho : oid ∈ env "Organization") :
    ((generate_encounter pid prid lid oid r).1).refsOkIn env := by
  intro f hf
  have hrefs : (generate_encounter pid prid lid oid r).1.refs =
      [⟨"subject", "Patient", pid, true⟩,
       ⟨"serviceProvider", "Organization", oid, true⟩,
       ⟨"location.0.location", "Location", lid, true⟩,
       ⟨"participant.0.actor", "Practitioner", prid, true⟩] := rfl
  rw [hrefs] at hf
  simp only [List.mem_cons, List.not_mem_nil, or_false] at hf
  rcases hf with rfl | rfl | rfl | rfl
  · exact fun _ => ⟨show "Patient" ∈ mappedKindNames by decide, hp⟩
  · exact fun _ => ⟨show "Organization" ∈ mappedKindNames by decide, ho⟩
  · exact fun _ => ⟨show "Location" ∈ mappedKindNames by decide, hl⟩
  · exact fun _ => ⟨show "Practitioner" ∈ mappedKindNames by decide, hpr⟩

theorem generate_observation_refs_ok (pid prid : String) (r : Rnd)
    (env : String → List String) (hp : pid ∈ env "Patient")
    (hpr : prid ∈ env "Practitioner") :
    ((generate_observation pid prid r).1).refsOkIn env := by
  intro f hf
  have hrefs : (generate_observation pid prid r).1.refs =
      ⟨"subject", "Patient", pid, true⟩ ::
        (if (catChoice OBSERVATION_STATUSES r.uuid.2).1 ≠ "entered-in-error" then
          [⟨"performer.0", "Practitioner", prid, true⟩]
        else []) := rfl
  rw [hrefs] at hf
  rcases List.mem_cons.mp hf with rfl | hf
  · exact fun _ => ⟨show "Patient" ∈ mappedKindNames by decide, hp⟩
  · split at hf
    · simp only [List.mem_singleton] at hf
      subst hf
      exact fun _ => ⟨show "Practitioner" ∈ mappedKindNames by decide, hpr⟩
    · cases hf

theorem generate_procedure_refs_ok (pid prid : String) (r : Rnd)
    (env : String → List String) (hp : pid ∈ env "Patient")
    (hpr : prid ∈ env "Practitioner") :
    ((generate_procedure pid prid r).1).refsOkIn env := by
  intro f hf
  have hrefs : (generate_procedure pid prid r).1.refs =
      [⟨"subject", "Patient", pid, true⟩,
       ⟨"performer.0.actor", "Practitioner", prid, true⟩] := rfl
  rw [hrefs] at hf
  simp only [List.mem_cons, List.not_mem_nil, or_false] at hf
  rcases hf with rfl | rfl
  · exact fun _ => ⟨show "Patient" ∈ mappedKindNames by decide, hp⟩
  · exact fun _ => ⟨show "Practitioner" ∈ mappedKindNames by decide, hpr⟩

theorem mem_enumFrom_snd {α : Type} :
    ∀ (l : List α) (n : Nat) (p : Nat × α), p ∈ List.enumFrom n l → p.2 ∈ l := by
  intro l
  induction l with
  | nil => intro n p h; cases h
  | cons a as ih =>
    intro n p h
    rcases List.mem_cons.mp h with h | h
    · subst h; exact List.mem_cons_self _ _
    · exact List.mem_cons_of_mem _ (ih (n + 1) p h)

theorem generate_diagnostic_report_refs_ok (pid prid eid : String)
    (obsIds : List String) (r : Rnd) (env : String → List String)
    (hp : pid ∈ env "Patient") (hpr : prid ∈ env "Practitioner")
    (he : eid ∈ env "Encounter")
    (hobs : ∀ o ∈ obsIds, o ∈ env "Observation") :
    ((generate_diagnostic_report pid prid eid obsIds r).1).refsOkIn env := by
  intro f hf
  have hrefs : (generate_diagnostic_report pid prid eid obsIds r).1.refs =
      ⟨"subject", "Patient", pid, true⟩ ::
      ⟨"encounter", "Encounter", eid, true⟩ ::
      ⟨"performer.0", "Practitioner", prid, true⟩ ::
      (obsIds.enum.map fun p =>
        ⟨"result." ++ toString p.1, "Observation", p.2, true⟩) := rfl
  rw [hrefs] at hf
  rcases List.mem_cons.mp hf with rfl | hf
  · exact fun _ => ⟨show "Patient" ∈ mappedKindNames by decide, hp⟩
  rcases List.mem_cons.mp hf with rfl | hf
  · exact fun _ => ⟨show "Encounter" ∈ mappedKindNames by decide, he⟩
  rcases List.mem_cons.mp hf with rfl | hf
  · exact fun _ => ⟨show "Practitioner" ∈ mappedKindNames by decide, hpr⟩
  obtain ⟨p, hpmem, rfl⟩ := List.mem_map.mp hf
  exact fun _ =>
    ⟨show "Observation" ∈ mappedKindNames by decide,
     hobs p.2 (mem_enumFrom_snd obsIds 0 p hpmem)⟩

theorem generate_service_request_refs_ok (pid prid : String)
    (eidOpt : Option String) (r : Rnd) (env : String → List String)
    (hp : pid ∈ env "Patient") (hpr : prid ∈ env "Practitioner")
    (he : ∀ e, eidOpt = some e → e ∈ env "Encounter") :
    ((generate_service_request pid prid eidOpt r).1).refsOkIn env := by
  intro f hf
  rcases eidOpt with - | e
  · have hrefs : (generate_service_request pid prid none r).1.refs =
        [⟨"subject", "Patient", pid, true⟩,
         ⟨"requester", "Practitioner", prid, true⟩] := rfl
    rw [hrefs] at hf
    simp only [List.mem_cons, List.not_mem_nil, or_false] at hf
    rcases hf with rfl | rfl
    · exact fun _ => ⟨show "Patient" ∈ mappedKindNames by decide, hp⟩
    · exact fun _ => ⟨show "Practitioner" ∈ mappedKindNames by decide, hpr⟩
  · have hrefs : (generate_service_request pid prid (some e) r).1.refs =
        [⟨"subject", "Patient", pid, true⟩,
         ⟨"requester", "Practitioner", prid, true⟩,
         ⟨"encounter", "Encounter", e, true⟩] := rfl
    rw [hrefs] at hf
    simp only [List.mem_cons, List.not_mem_nil, or_false] at hf
    rcases hf with rfl | rfl | rfl
    · exact fun _ => ⟨show "Patient" ∈ mappedKindNames by decide, hp⟩
    · exact fun _ => ⟨show "Practitioner" ∈ mappedKindNames by decide, hpr⟩
    · exact fun _ => ⟨show "Encounter" ∈ mappedKindNames by decide, he e rfl⟩

theorem generate_clinical_impression_refs_ok (version : FhirVersion)
    (pid prid : String) (eidOpt : Option String) (r : Rnd)
    (env : String → List String) (hp : pid ∈ env "Patient")
    (hpr : prid ∈ env "Practitioner")
    (he : ∀ e, eidOpt = some e → e ∈ env "Encounter") :
    ((generate_clinical_impression version pid prid eidOpt r).1).refsOkIn env := by
  rcases eidOpt with - | e
  · intro f hf
    have hrefs : (generate_clinical_impression version pid prid none r).1.refs =
        [⟨"subject", "Patient", pid, true⟩,
         (if version = FhirVersion.R4 then
           (⟨"assessor", "Practitioner", prid, true⟩ : Ref)
         else ⟨"performer", "Practitioner", prid, true⟩)] := rfl
    rw [hrefs] at hf
    rcases List.mem_cons.mp hf with rfl | hf
    · exact fun _ => ⟨show "Patient" ∈ mappedKindNames by decide, hp⟩
    · simp only [List.mem_singleton] at hf
      subst hf
      split <;>
        exact fun _ => ⟨show "Practitioner" ∈ mappedKindNames by decide, hpr⟩
  · intro f hf
    have hrefs : (generate_clinical_impression version pid prid (some e) r).1.refs =
        [⟨"subject", "Patient", pid, true⟩,
         (if version = FhirVersion.R4 then
           (⟨"assessor", "Practitioner", prid, true⟩ : Ref)
         else ⟨"performer", "Practitioner", prid, true⟩),
         ⟨"encounter", "Encounter", e, true⟩] := rfl
    rw [hrefs] at hf
    rcases List.mem_cons.mp hf with rfl | hf
    · exact fun _ => ⟨show "Patient" ∈ mappedKindNames by decide, hp⟩
    rcases List.mem_cons.mp hf with hf | hf
    · subst hf
      split <;>
        exact fun _ => ⟨show "Practitioner" ∈ mappedKindNames by decide, hpr⟩
    · simp only [List.mem_singleton] at hf
      subst hf
      exact fun _ => ⟨show "Encounter" ∈ mappedKindNames by decide, he e rfl⟩

theorem generate_family_member_history_refs_ok (version : FhirVersion)
    (pid : String) (prOpt : Option String) (r : Rnd)
    (env : String → List String) (hp : pid ∈ env "Patient")
    (hpr : ∀ pr, prOpt = some pr → pr ∈ env "Practitioner") :
    ((generate_family_member_history version pid prOpt r).1).refsOkIn env := by
  intro f hf
  rcases prOpt with - | pr
  · have hrefs : (generate_family_member_history version pid none r).1.refs =
        [⟨"patient", "Patient", pid, true⟩] := rfl
    rw [hrefs] at hf
    simp only [List.mem_singleton] at hf
    subst hf
    exact fun _ => ⟨show "Patient" ∈ mappedKindNames by decide, hp⟩
  · have hrefs : (generate_family_member_history version pid (some pr) r).1.refs =
        ⟨"patient", "Patient", pid, true⟩ ::
        (if version ≠ FhirVersion.R4 then
          [⟨"participant.0.actor", "Practitioner", pr, true⟩]
        else []) := rfl
    rw [hrefs] at hf
    rcases List.mem_cons.mp hf with rfl | hf
    · exact fun _ => ⟨show "Patient" ∈ mappedKindNames by decide, hp⟩
    · split at hf
      · simp only [List.mem_singleton] at hf
        subst hf
        exact fun _ => ⟨show "Practitioner" ∈ mappedKindNames by decide, hpr pr rfl⟩
      · cases hf

theorem carePlanGoals_arg_false :
    ∀ n i r, ∀ f ∈ (carePlanGoals i n r).1, f.arg = false := by
  intro n
  induction n with
  | zero => intro i r f hf; cases hf
  | succ n ih =>
    intro i r f hf
    rcases List.mem_cons.mp hf with rfl | hf
    · rfl
    · exact ih (i + 1) _ f hf

theorem carePlanActivities_arg_false :
    ∀ n i r, ∀ f ∈ (carePlanActivities i n r).1, f.arg = false := by
  intro n
  induction n with
  | zero => intro i r f hf; cases hf
  | succ n ih =>
    intro i r f hf
    rcases List.mem_cons.mp hf with rfl | hf
    · rfl
    · exact ih (i + 1) _ f hf

set_option maxRecDepth 4000 in
theorem generate_care_plan_refs_ok (pid prid : String)
    (eidOpt : Option String) (r : Rnd) (env : String → List String)
    (hp : pid ∈ env "Patient") (hpr : prid ∈ env "Practitioner")
    (he : ∀ e, eidOpt = some e → e ∈ env "Encounter") :
    ((generate_care_plan pid prid eidOpt r).1).refsOkIn env := by
  intro f hf
  have hsplit : ∃ goals activities careTeamId,
      (generate_care_plan pid prid eidOpt r).1.refs =
        ⟨"contained.0.subject", "Patient", pid, true⟩ ::
        ⟨"subject", "Patient", pid, true⟩ ::
        ⟨"custodian", "Practitioner", prid, true⟩ ::
        ⟨"careTeam.0", "CareTeam", careTeamId, false⟩ ::
        (goals ++ activities ++
         (match eidOpt with
          | some e => [⟨"encounter", "Encounter", e, true⟩]
          | none => [])) ∧
      (∀ x ∈ goals, Ref.arg x = false) ∧
      (∀ x ∈ activities, Ref.arg x = false) := by
    rcases eidOpt with - | e
    · exact ⟨_, _, _, rfl, carePlanGoals_arg_false _ 0 _,
        carePlanActivities_arg_false _ 0 _⟩
    · exact ⟨_, _, _, rfl, carePlanGoals_arg_false _ 0 _,
        carePlanActivities_arg_false _ 0 _⟩
  obtain ⟨goals, activities, ctid, hrefs, hg, ha⟩ := hsplit
  rw [hrefs] at hf
  rcases List.mem_cons.mp hf with rfl | hf
  · exact fun _ => ⟨show "Patient" ∈ mappedKindNames by decide, hp⟩
  rcases List.mem_cons.mp hf with rfl | hf
  · exact fun _ => ⟨show "Patient" ∈ mappedKindNames by decide, hp⟩
  rcases List.mem_cons.mp hf with rfl | hf
  · exact fun _ => ⟨show "Practitioner" ∈ mappedKindNames by decide, hpr⟩
  rcases List.mem_cons.mp hf with rfl | hf
  · exact Ref.okIn_of_arg_false _ rfl env
  rcases List.mem_append.mp hf with hf | hf
  swap
  · rcases heq : eidOpt with - | e <;> rw [heq] at hf
    · cases hf
    · simp only [List.mem_singleton] at hf
      subst hf
      exact fun _ => ⟨show "Encounter" ∈ mappedKindNames by decide, he e heq⟩
  rcases List.mem_append.mp hf with hf | hf
  · exact Ref.okIn_of_arg_false _ (hg f hf) env
  · exact Ref.okIn_of_arg_false _ (ha f hf) env

set_option maxRecDepth 8000 in
theorem generate_immunization_refs_ok (pid prid : String)
    (eidOpt lidOpt : Option String) (r : Rnd) (env : String → List String)
    (hp : pid ∈ env "Patient") (hpr : prid ∈ env "Practitioner")
    (he : ∀ e, eidOpt = some e → e ∈ env "Encounter")
    (hl : ∀ l, lidOpt = some l → l ∈ env "Location") :
    ((generate_immunization pid prid eidOpt lidOpt r).1).refsOkIn env := by
  intro f hf
  have hsplit : ∃ manu robs reaction,
      (generate_immunization pid prid eidOpt lidOpt r).1.refs =
        ⟨"manufacturer", "Organization", manu, false⟩ ::
        ⟨"patient", "Patient", pid, true⟩ ::
        ⟨"performer.0.actor", "Practitioner", prid, true⟩ ::
        ⟨"performer.1.actor", "Practitioner", prid, true⟩ ::
        ⟨"reason.0.reference", "Observation", robs, false⟩ ::
        ((match eidOpt with
          | some e => [⟨"encounter", "Encounter", e, true⟩]
          | none => []) ++
         (match lidOpt with
          | some l => [⟨"location", "Location", l, true⟩]
          | none => []) ++
         reaction) ∧
      (∀ x ∈ reaction, Ref.arg x = false) := by
    rcases eidOpt with - | e <;> rcases lidOpt with - | l <;>
      refine ⟨_, _, _, rfl, ?_⟩ <;>
      (intro x hx
       split at hx
       · simp only [List.mem_singleton] at hx
         subst hx
         rfl
       · cases hx)
  obtain ⟨manu, robs, reaction, hrefs, hreact⟩ := hsplit
  rw [hrefs] at hf
  rcases List.mem_cons.mp hf with rfl | hf
  · exact Ref.okIn_of_arg_false _ rfl env
  rcases List.mem_cons.mp hf with rfl | hf
  · exact fun _ => ⟨show "Patient" ∈ mappedKindNames by decide, hp⟩
  rcases List.mem_cons.mp hf with rfl | hf
  · exact fun _ => ⟨show "Practitioner" ∈ mappedKindNames by decide, hpr⟩
  rcases List.mem_cons.mp hf with rfl | hf
  · exact fun _ => ⟨show "Practitioner" ∈ mappedKindNames by decide, hpr⟩
  rcases List.mem_cons.mp hf with rfl | hf
  · exact Ref.okIn_of_arg_false _ rfl env
  rcases List.mem_append.mp hf with hf | hf
  swap
  · exact Ref.okIn_of_arg_false _ (hreact f hf) env
  rcases List.mem_append.mp hf with hf | hf
  · rcases heq : eidOpt with - | e <;> rw [heq] at hf
    · cases hf
    · simp only [List.mem_singleton] at hf
      subst hf
      exact fun _ => ⟨show "Encounter" ∈ mappedKindNames by decide, he e heq⟩
  · rcases heq : lidOpt with - | l <;> rw [heq] at hf
    · cases hf
    · simp only [List.mem_singleton] at hf
      subst hf
      exact fun _ => ⟨show "Location" ∈ mappedKindNames by decide, hl l heq⟩

theorem generate_medication_administration_refs_ok (version : FhirVersion)
    (pid prid : String) (mrOpt eidOpt : Option String) (r : Rnd)
    (env : String → List String) (hp : pid ∈ env "Patient")
    (hpr : prid ∈ env "Practitioner")
    (hm : ∀ m, mrOpt = some m → m ∈ env "MedicationRequest")
    (he : ∀ e, eidOpt = some e → e ∈ env "Encounter") :
    ((generate_medication_administration version pid prid mrOpt eidOpt r).1).refsOkIn env := by
  have hPr : ∀ q : String,
      (⟨"contained.1.agent.0.who", "Practitioner", q, true⟩ : Ref).okIn env →
      True := fun _ _ => trivial
  clear hPr
  rcases mrOpt with - | m <;> rcases eidOpt with - | e <;> intro f hf
  · have hrefs :
        (generate_medication_administration version pid prid none none r).1.refs =
        [⟨"contained.1.agent.0.who", "Practitioner", prid, true⟩,
         ⟨"contained.1.signature.0.who", "Practitioner", prid, true⟩,
         ⟨"subject", "Patient", pid, true⟩,
         ⟨"performer.0.actor", "Practitioner", prid, true⟩] := rfl
    rw [hrefs] at hf
    simp only [List.mem_cons, List.not_mem_nil, or_false] at hf
    rcases hf with rfl | rfl | rfl | rfl
    · exact fun _ => ⟨show "Practitioner" ∈ mappedKindNames by decide, hpr⟩
    · exact fun _ => ⟨show "Practitioner" ∈ mappedKindNames by decide, hpr⟩
    · exact fun _ => ⟨show "Patient" ∈ mappedKindNames by decide, hp⟩
    · exact fun _ => ⟨show "Practitioner" ∈ mappedKindNames by decide, hpr⟩
  · have hrefs :
        (generate_medication_administration version pid prid none (some e) r).1.refs =
        ⟨"contained.1.agent.0.who", "Practitioner", prid, true⟩ ::
        ⟨"contained.1.signature.0.who", "Practitioner", prid, true⟩ ::
        ⟨"subject", "Patient", pid, true⟩ ::
        ⟨"performer.0.actor", "Practitioner", prid, true⟩ ::
        (if version = FhirVersion.R4 then
          [(⟨"context", "Encounter", e, true⟩ : Ref)]
        else [⟨"encounter", "Encounter", e, true⟩]) := by
      cases version <;> rfl
    rw [hrefs] at hf
    rcases List.mem_cons.mp hf with rfl | hf
    · exact fun _ => ⟨show "Practitioner" ∈ mappedKindNames by decide, hpr⟩
    rcases List.mem_cons.mp hf with rfl | hf
    · exact fun _ => ⟨show "Practitioner" ∈ mappedKindNames by decide, hpr⟩
    rcases List.mem_cons.mp hf with rfl | hf
    · exact fun _ => ⟨show "Patient" ∈ mappedKindNames by decide, hp⟩
    rcases List.mem_cons.mp hf with rfl | hf
    · exact fun _ => ⟨show "Practitioner" ∈ mappedKindNames by decide, hpr⟩
    · split at hf <;>
        (simp only [List.mem_singleton] at hf
         subst hf
         exact fun _ => ⟨show "Encounter" ∈ mappedKindNames by decide, he e rfl⟩)
  · have hrefs :
        (generate_medication_administration version pid prid (some m) none r).1.refs =
        [⟨"contained.1.target.0", "MedicationRequest", m, true⟩,
         ⟨"contained.1.agent.0.who", "Practitioner", prid, true⟩,
         ⟨"contained.1.signature.0.who", "Practitioner", prid, true⟩,
         ⟨"subject", "Patient", pid, true⟩,
         ⟨"performer.0.actor", "Practitioner", prid, true⟩,
         ⟨"request", "MedicationRequest", m, true⟩] := rfl
    rw [hrefs] at hf
    simp only [List.mem_cons, List.not_mem_nil, or_false] at hf
    rcases hf with rfl | rfl | rfl | rfl | rfl | rfl
    · exact fun _ => ⟨show "MedicationRequest" ∈ mappedKindNames by decide, hm m rfl⟩
    · exact fun _ => ⟨show "Practitioner" ∈ mappedKindNames by decide, hpr⟩
    · exact fun _ => ⟨show "Practitioner" ∈ mappedKindNames by decide, hpr⟩
    · exact fun _ => ⟨show "Patient" ∈ mappedKindNames by decide, hp⟩
    · exact fun _ => ⟨show "Practitioner" ∈ mappedKindNames by decide, hpr⟩
    · exact fun _ => ⟨show "MedicationRequest" ∈ mappedKindNames by decide, hm m rfl⟩
  · have hrefs :
        (generate_medication_administration version pid prid (some m) (some e) r).1.refs =
        ⟨"contained.1.target.0", "MedicationRequest", m, true⟩ ::
        ⟨"contained.1.agent.0.who", "Practitioner", prid, true⟩ ::
        ⟨"contained.1.signature.0.who", "Practitioner", prid, true⟩ ::
        ⟨"subject", "Patient", pid, true⟩ ::
        ⟨"performer.0.actor", "Practitioner", prid, true⟩ ::
        ((if version = FhirVersion.R4 then
           [(⟨"context", "Encounter", e, true⟩ : Ref)]
         else [⟨"encounter", "Encounter", e, true⟩]) ++
         [⟨"request", "MedicationRequest", m, true⟩]) := by
      cases version <;> rfl
    rw [hrefs] at hf
    rcases List.mem_cons.mp hf with rfl | hf
    · exact fun _ => ⟨show "MedicationRequest" ∈ mappedKindNames by decide, hm m rfl⟩
    rcases List.mem_cons.mp hf with rfl | hf
    · exact fun _ => ⟨show "Practitioner" ∈ mappedKindNames by decide, hpr⟩
    rcases List.mem_cons.mp hf with rfl | hf
    · exact fun _ => ⟨show "Practitioner" ∈ mappedKindNames by decide, hpr⟩
    rcases List.mem_cons.mp hf with rfl | hf
    · exact fun _ => ⟨show "Patient" ∈ mappedKindNames by decide, hp⟩
    rcases List.mem_cons.mp hf with rfl | hf
    · exact fun _ => ⟨show "Practitioner" ∈ mappedKindNames by decide, hpr⟩
    rcases List.mem_append.mp hf with hf | hf
    · split at hf <;>
        (simp only [List.mem_singleton] at hf
         subst hf
         exact fun _ => ⟨show "Encounter" ∈ mappedKindNames by decide, he e rfl⟩)
    · simp only [List.mem_singleton] at hf
      subst hf
      exact fun _ => ⟨show "MedicationRequest" ∈ mappedKindNames by decide, hm m rfl⟩

theorem generate_allergy_intolerance_refs_ok (version : FhirVersion)
    (pid : String) (prOpt : Option String) (r : Rnd)
    (env : String → List String) (hp : pid ∈ env "Patient")
    (hpr : ∀ pr, prOpt = some pr → pr ∈ env "Practitioner") :
    ((generate_allergy_intolerance version pid prOpt r).1).refsOkIn env := by
  intro f hf
  rcases prOpt with - | pr
  · have hrefs : (generate_allergy_intolerance version pid none r).1.refs =
        [⟨"patient", "Patient", pid, true⟩] := rfl
    rw [hrefs] at hf
    simp only [List.mem_singleton] at hf
    subst hf
    exact fun _ => ⟨show "Patient" ∈ mappedKindNames by decide, hp⟩
  · have hrefs : (generate_allergy_intolerance version pid (some pr) r).1.refs =
        ⟨"patient", "Patient", pid, true⟩ ::
        (if version ≠ FhirVersion.R4 then
          [⟨"participant.0.actor", "Practitioner", pr, true⟩]
        else []) := rfl
    rw [hrefs] at hf
    rcases List.mem_cons.mp hf with rfl | hf
    · exact fun _ => ⟨show "Patient" ∈ mappedKindNames by decide, hp⟩
    · split at hf
      · simp only [List.mem_singleton] at hf
        subst hf
        exact fun _ => ⟨show "Practitioner" ∈ mappedKindNames by decide, hpr pr rfl⟩
      · cases hf

theorem generate_coverage_refs_ok (version : FhirVersion)
    (pid oid : String) (phOpt : Option String) (r : Rnd)
    (env : String → List String) (hp : pid ∈ env "Patient")
    (ho : oid ∈ env "Organization")
    (hph : ∀ ph, phOpt = some ph → ph ∈ env "Patient") :
    ((generate_coverage version pid oid phOpt r).1).refsOkIn env := by
  rcases phOpt with - | ph <;> intro f hf
  · have hrefs : (generate_coverage version pid oid none r).1.refs =
        [⟨"policyHolder", "Organization", oid, true⟩,
         ⟨"subscriber", "Patient", pid, true⟩,
         ⟨"beneficiary", "Patient", pid, true⟩,
         (if version = FhirVersion.R4 then
           (⟨"payor.0", "Organization", oid, true⟩ : Ref)
         else ⟨"insurer", "Organization", oid, true⟩)] := rfl
    rw [hrefs] at hf
    rcases List.mem_cons.mp hf with rfl | hf
    · exact fun _ => ⟨show "Organization" ∈ mappedKindNames by decide, ho⟩
    rcases List.mem_cons.mp hf with rfl | hf
    · exact fun _ => ⟨show "Patient" ∈ mappedKindNames by decide, hp⟩
    rcases List.mem_cons.mp hf with rfl | hf
    · exact fun _ => ⟨show "Patient" ∈ mappedKindNames by decide, hp⟩
    · simp only [List.mem_singleton] at hf
      subst hf
      split <;>
        exact fun _ => ⟨show "Organization" ∈ mappedKindNames by decide, ho⟩
  · have hrefs : (generate_coverage version pid oid (some ph) r).1.refs =
        [(if ph ≠ pid then (⟨"policyHolder", "Patient", ph, true⟩ : Ref)
          else ⟨"policyHolder", "Organization", oid, true⟩),
         ⟨"subscriber", "Patient", pid, true⟩,
         ⟨"beneficiary", "Patient", pid, true⟩,
         (if version = FhirVersion.R4 then
           (⟨"payor.0", "Organization", oid, true⟩ : Ref)
         else ⟨"insurer", "Organization", oid, true⟩)] := rfl
    rw [hrefs] at hf
    rcases List.mem_cons.mp hf with hf | hf
    · subst hf
      split
      · exact fun _ => ⟨show "Patient" ∈ mappedKindNames by decide, hph ph rfl⟩
      · exact fun _ => ⟨show "Organization" ∈ mappedKindNames by decide, ho⟩
    rcases List.mem_cons.mp hf with rfl | hf
    · exact fun _ => ⟨show "Patient" ∈ mappedKindNames by decide, hp⟩
    rcases List.mem_cons.mp hf with rfl | hf
    · exact fun _ => ⟨show "Patient" ∈ mappedKindNames by decide, hp⟩
    · simp only [List.mem_singleton] at hf
      subst hf
      split <;>
        exact fun _ => ⟨show "Organization" ∈ mappedKindNames by decide, ho⟩

set_option maxRecDepth 8000 in
theorem generate_document_reference_refs_ok (pid prid eid bid : String)
    (r : Rnd) (env : String → List String) (hp : pid ∈ env "Patient")
    (hpr : prid ∈ env "Practitioner") (he : eid ∈ env "Encounter")
    (hb : bid ∈ env "Binary") :
    ((generate_document_reference pid prid eid bid r).1).refsOkIn env := by
  intro f hf
  have hrefs : (generate_document_reference pid prid eid bid r).1.refs =
      ⟨"subject", "Patient", pid, true⟩ ::
      ⟨"author.0", "Practitioner", prid, true⟩ ::
      ⟨"context", "Encounter", eid, true⟩ ::
      ⟨"content.0.attachment.url", "Binary", bid, true⟩ ::
      (if (coin 700 r.uuid.2).1 then
        [⟨"attester.0.party", "Practitioner", prid, true⟩]
      else []) := rfl
  rw [hrefs] at hf
  rcases List.mem_cons.mp hf with rfl | hf
  · exact fun _ => ⟨show "Patient" ∈ mappedKindNames by decide, hp⟩
  rcases List.mem_cons.mp hf with rfl | hf
  · exact fun _ => ⟨show "Practitioner" ∈ mappedKindNames by decide, hpr⟩
  rcases List.mem_cons.mp hf with rfl | hf
  · exact fun _ => ⟨show "Encounter" ∈ mappedKindNames by decide, he⟩
  rcases List.mem_cons.mp hf with rfl | hf
  · exact fun _ => ⟨show "Binary" ∈ mappedKindNames by decide, hb⟩
  · split at hf
    · simp only [List.mem_singleton] at hf
      subst hf
      exact fun _ => ⟨show "Practitioner" ∈ mappedKindNames by decide, hpr⟩
    · cases hf

theorem generate_binary_resource_refs_ok (r : Rnd)
    (env : String → List String) :
    ((generate_binary_resource r).1).refsOkIn env := by
  intro f hf
  cases hf

theorem generate_patient_refs_ok (r : Rnd) (env : String → List String) :
    ((generate_patient r).1).refsOkIn env := by
  intro f hf
  cases hf

theorem generate_practitioner_refs_ok (r : Rnd) (env : String → List String) :
    ((generate_practitioner r).1).refsOkIn env := by
  intro f hf
  cases hf

theorem generate_clinic_refs_ok (r : Rnd) (env : String → List String) :
    ((generate_clinic_and_location r).1.1).refsOkIn env := by
  intro f hf
  cases hf

theorem generate_location_refs_ok (r : Rnd) (env : String → List String)
    (ho : (generate_clinic_and_location r).1.1.rid ∈ env "Organization") :
    ((generate_clinic_and_location r).1.2).refsOkIn env := by
  intro f hf
  have hrefs : (generate_clinic_and_location r).1.2.refs =
      [⟨"managingOrganization", "Organization",
        (generate_clinic_and_location r).1.1.rid, true⟩] := rfl
  rw [hrefs] at hf
  simp only [List.mem_singleton] at hf
  subst hf
  exact fun _ => ⟨show "Organization" ∈ mappedKindNames by decide, ho⟩

theorem genAppointments_refs_ok (pid : String)
    (practitioners locations : List Rec) (env : String → List String)
    (hp : pid ∈ env "Patient")
    (hpr : ∀ q ∈ practitioners, q.rid ∈ env "Practitioner")
    (hl : ∀ q ∈ locations, q.rid ∈ env "Location") :
    ∀ n r out r',
      genAppointments pid practitioners locations n r = Except.ok (out, r') →
      ∀ rec ∈ out, rec.refsOkIn env := by
  intro n
  induction n with
  | zero =>
    intro r out r' h rec hrec
    simp only [genAppointments, Except.ok.injEq, Prod.mk.injEq] at h
    rw [← h.1] at hrec
    cases hrec
  | succ n ih =>
    intro r out r' h rec hrec
    simp only [genAppointments, bind, Except.bind] at h
    cases hc1 : choice practitioners r with
    | error e => simp only [hc1] at h; cases h
    | ok pr1 =>
      obtain ⟨pr, r1⟩ := pr1
      simp only [hc1] at h
      cases hc2 : choice locations r1 with
      | error e => simp only [hc2] at h; cases h
      | ok loc1 =>
        obtain ⟨loc, r2⟩ := loc1
        simp only [hc2] at h
        cases hc3 : genAppointments pid practitioners locations n
            (generate_appointment pid pr.rid loc.rid r2).2 with
        | error e => simp only [hc3] at h; cases h
        | ok rest1 =>
          obtain ⟨rest, r3⟩ := rest1
          simp only [hc3, Except.ok.injEq, Prod.mk.injEq] at h
          rw [← h.1] at hrec
          rcases List.mem_cons.mp hrec with rfl | hrec
          · exact generate_appointment_refs_ok pid pr.rid loc.rid _ env hp
              (hpr pr (choice_mem _ _ _ _ hc1)) (hl loc (choice_mem _ _ _ _ hc2))
          · exact ih _ _ _ hc3 rec hrec

theorem optEncounter_mem (pe : List Rec) (p : Int) (r : Rnd)
    (x : Option Rec) (r' : Rnd) (h : optEncounter pe p r = Except.ok (x, r')) :
    ∀ e, x = some e → e ∈ pe := by
  intro e hx
  subst hx
  unfold optEncounter at h
  split at h
  · simp only [Except.ok.injEq, Prod.mk.injEq] at h
    cases h.1
  · split at h
    · simp only [bind, Except.bind] at h
      cases hc : choice pe (coin p r).2 with
      | error e2 => simp only [hc] at h; cases h
      | ok v =>
        obtain ⟨enc, r2⟩ := v
        simp only [hc, Except.ok.injEq, Prod.mk.injEq, Option.some.injEq] at h
        rw [← h.1]
        exact choice_mem _ _ _ _ hc
    · simp only [Except.ok.injEq, Prod.mk.injEq] at h
      cases h.1

theorem coinChoice_mem (xs : List Rec) (p : Int) (r : Rnd)
    (x : Option Rec) (r' : Rnd) (h : coinChoice xs p r = Except.ok (x, r')) :
    ∀ a, x = some a → a ∈ xs := by
  intro a hx
  subst hx
  unfold coinChoice at h
  split at h
  · simp only [bind, Except.bind] at h
    cases hc : choice xs (coin p r).2 with
    | error e2 => simp only [hc] at h; cases h
    | ok v =>
      obtain ⟨b, r2⟩ := v
      simp only [hc, Except.ok.injEq, Prod.mk.injEq, Option.some.injEq] at h
      rw [← h.1]
      exact choice_mem _ _ _ _ hc
  · simp only [Except.ok.injEq, Prod.mk.injEq] at h
    cases h.1

theorem srOptEncounter_mem (pe : List Rec) (r : Rnd)
    (x : Option Rec) (r' : Rnd) (h : srOptEncounter pe r = Except.ok (x, r')) :
    ∀ e, x = some e → e ∈ pe := by
  intro e hx
  subst hx
  unfold srOptEncounter at h
  split at h
  · simp only [Except.ok.injEq, Prod.mk.injEq] at h
    cases h.1
  · split at h
    · simp only [bind, Except.bind] at h
      cases hc : choice pe (catChoice [true, false] r).2 with
      | error e2 => simp only [hc] at h; cases h
      | ok v =>
        obtain ⟨enc, r2⟩ := v
        simp only [hc, Except.ok.injEq, Prod.mk.injEq, Option.some.injEq] at h
        rw [← h.1]
        exact choice_mem _ _ _ _ hc
    · simp only [Except.ok.injEq, Prod.mk.injEq] at h
      cases h.1

theorem mapRid_mem (xs : List Rec) (o : Option Rec) (kn : String)
    (env : String → List String)
    (hmem : ∀ a, o = some a → a ∈ xs)
    (hx : ∀ q ∈ xs, q.rid ∈ env kn) :
    ∀ s, o.map Rec.rid = some s → s ∈ env kn := by
  intro s hs
  rcases Option.map_eq_some'.mp hs with ⟨a, ha, rfl⟩
  exact hx a (hmem a ha)

theorem genConditions_refs_ok (pid : String) (env : String → List String)
    (hp : pid ∈ env "Patient") :
    ∀ n r, ∀ rec ∈ (genConditions pid n r).1, rec.refsOkIn env := by
  intro n
  induction n with
  | zero => intro r rec hrec; cases hrec
  | succ n ih =>
    intro r rec hrec
    rcases List.mem_cons.mp hrec with rfl | hrec
    · exact generate_condition_refs_ok pid r env hp
    · exact ih _ rec hrec

theorem genMedicationRequests_refs_ok (pid : String)
    (practitioners : List Rec) (env : String → List String)
    (hp : pid ∈ env "Patient")
    (hpr : ∀ q ∈ practitioners, q.rid ∈ env "Practitioner") :
    ∀ n r out r',
      genMedicationRequests pid practitioners n r = Except.ok (out, r') →
      ∀ rec ∈ out, rec.refsOkIn env := by
  intro n
  induction n with
  | zero =>
    intro r out r' h rec hrec
    simp only [genMedicationRequests, Except.ok.injEq, Prod.mk.injEq] at h
    rw [← h.1] at hrec
    cases hrec
  | succ n ih =>
    intro r out r' h rec hrec
    simp only [genMedicationRequests, bind, Except.bind] at h
    cases hc1 : choice practitioners r with
    | error e => simp only [hc1] at h; cases h
    | ok pr1 =>
      obtain ⟨pr, r1⟩ := pr1
      simp only [hc1] at h
      cases hc2 : genMedicationRequests pid practitioners n
          (generate_medication_request pid pr.rid r1).2 with
      | error e => simp only [hc2] at h; cases h
      | ok rest1 =>
        obtain ⟨rest, r2⟩ := rest1
        simp only [hc2, Except.ok.injEq, Prod.mk.injEq] at h
        rw [← h.1] at hrec
        rcases List.mem_cons.mp hrec with rfl | hrec
        · exact generate_medication_request_refs_ok pid pr.rid _ env hp
            (hpr pr (choice_mem _ _ _ _ hc1))
        · exact ih _ _ _ hc2 rec hrec

theorem genObservations_refs_ok (pid : String)
    (practitioners : List Rec) (env : String → List String)
    (hp : pid ∈ env "Patient")
    (hpr : ∀ q ∈ practitioners, q.rid ∈ env "Practitioner") :
    ∀ n r out r',
      genObservations pid practitioners n r = Except.ok (out, r') →
      ∀ rec ∈ out, rec.refsOkIn env := by
  intro n
  induction n with
  | zero =>
    intro r out r' h rec hrec
    simp only [genObservations, Except.ok.injEq, Prod.mk.injEq] at h
    rw [← h.1] at hrec
    cases hrec
  | succ n ih =>
    intro r out r' h rec hrec
    simp only [genObservations, bind, Except.bind] at h
    cases hc1 : choice practitioners r with
    | error e => simp only [hc1] at h; cases h
    | ok pr1 =>
      obtain ⟨pr, r1⟩ := pr1
      simp only [hc1] at h
      cases hc2 : genObservations pid practitioners n
          (generate_observation pid pr.rid r1).2 with
      | error e => simp only [hc2] at h; cases h
      | ok rest1 =>
        obtain ⟨rest, r2⟩ := rest1
        simp only [hc2, Except.ok.injEq, Prod.mk.injEq] at h
        rw [← h.1] at hrec
        rcases List.mem_cons.mp hrec with rfl | hrec
        · exact generate_observation_refs_ok pid pr.rid _ env hp
            (hpr pr (choice_mem _ _ _ _ hc1))
        · exact ih _ _ _ hc2 rec hrec

theorem genProcedures_refs_ok (pid : String)
    (practitioners : List Rec) (env : String → List String)
    (hp : pid ∈ env "Patient")
    (hpr : ∀ q ∈ practitioners, q.rid ∈ env "Practitioner") :
    ∀ n r out r',
      genProcedures pid practitioners n r = Except.ok (out, r') →
      ∀ rec ∈ out, rec.refsOkIn env := by
  intro n
  induction n with
  | zero =>
    intro r out r' h rec hrec
    simp only [genProcedures, Except.ok.injEq, Prod.mk.injEq] at h
    rw [← h.1] at hrec
    cases hrec
  | succ n ih =>
    intro r out r' h rec hrec
    simp only [genProcedures, bind, Except.bind] at h
    cases hc1 : choice practitioners r with
    | error e => simp only [hc1] at h; cases h
    | ok pr1 =>
      obtain ⟨pr, r1⟩ := pr1
      simp only [hc1] at h
      cases hc2 : genProcedures pid practitioners n
          (generate_procedure pid pr.rid r1).2 with
      | error e => simp only [hc2] at h; cases h
      | ok rest1 =>
        obtain ⟨rest, r2⟩ := rest1
        simp only [hc2, Except.ok.injEq, Prod.mk.injEq] at h
        rw [← h.1] at hrec
        rcases List.mem_cons.mp hrec with rfl | hrec
        · exact generate_procedure_refs_ok pid pr.rid _ env hp
            (hpr pr (choice_mem _ _ _ _ hc1))
        · exact ih _ _ _ hc2 rec hrec

theorem genEncounters_refs_ok (pid : String)
    (practitioners locations clinics : List Rec) (docProb : Int)
    (env : String → List String) (hp : pid ∈ env "Patient")
    (hpr : ∀ q ∈ practitioners, q.rid ∈ env "Practitioner")
    (hl : ∀ q ∈ locations, q.rid ∈ env "Location")
    (ho : ∀ q ∈ clinics, q.rid ∈ env "Organization") :
    ∀ n r out r',
      genEncounters pid practitioners locations clinics docProb n r =
        Except.ok (out, r') →
      (∀ q ∈ out.1, q.rid ∈ env "Encounter") →
      (∀ q ∈ out.2.2, q.rid ∈ env "Binary") →
      ∀ rec ∈ out.1 ++ out.2.1 ++ out.2.2, rec.refsOkIn env := by
  intro n
  induction n with
  | zero =>
    intro r out r' h hEnc hBin rec hrec
    simp only [genEncounters, Except.ok.injEq, Prod.mk.injEq] at h
    rw [← h.1] at hrec
    cases hrec
  | succ n ih =>
    intro r out r' h hEnc hBin rec hrec
    simp only [genEncounters, bind, Except.bind] at h
    cases hc1 : choice practitioners r with
    | error e => simp only [hc1] at h; cases h
    | ok pr1 =>
      obtain ⟨pr, r1⟩ := pr1
      simp only [hc1] at h
      cases hc2 : choice locations r1 with
      | error e => simp only [hc2] at h; cases h
      | ok loc1 =>
        obtain ⟨loc, r2⟩ := loc1
        simp only [hc2] at h
        cases hc3 : choice clinics r2 with
        | error e => simp only [hc3] at h; cases h
        | ok org1 =>
          obtain ⟨org, r3⟩ := org1
          simp only [hc3] at h
          rcases hcc : coin docProb
              (generate_encounter pid pr.rid loc.rid org.rid r3).2 with ⟨doDoc, r4⟩
          rw [hcc] at h
          have hprm := hpr pr (choice_mem _ _ _ _ hc1)
          have hlm := hl loc (choice_mem _ _ _ _ hc2)
          have hom := ho org (choice_mem _ _ _ _ hc3)
          cases doDoc with
          | false =>
            rw [if_neg (by simp)] at h
            cases hc4 : genEncounters pid practitioners locations clinics
                docProb n r4 with
            | error e => simp only [hc4] at h; cases h
            | ok rest1 =>
              obtain ⟨rest, r5⟩ := rest1
              simp only [hc4, Except.ok.injEq, Prod.mk.injEq] at h
              obtain ⟨hout, -⟩ := h
              subst hout
              simp only [List.nil_append] at hEnc hBin hrec
              have hihapp := ih r4 (rest.1, rest.2.1, rest.2.2) r5 (by rw [hc4])
                (fun q hq => hEnc q (List.mem_cons_of_mem _ hq))
                (fun q hq => hBin q hq)
              rcases List.mem_append.mp hrec with hrec | hrec
              · rcases List.mem_append.mp hrec with hrec | hrec
                · rcases List.mem_cons.mp hrec with rfl | hrec
                  · exact generate_encounter_refs_ok pid pr.rid loc.rid org.rid _
                      env hp hprm hlm hom
                  · exact hihapp rec (List.mem_append.mpr
                      (Or.inl (List.mem_append.mpr (Or.inl hrec))))
                · exact hihapp rec (List.mem_append.mpr
                    (Or.inl (List.mem_append.mpr (Or.inr hrec))))
              · exact hihapp rec (List.mem_append.mpr (Or.inr hrec))
          | true =>
            rw [if_pos rfl] at h
            cases hc4 : genEncounters pid practitioners locations clinics
                docProb n
                (generate_document_reference pid pr.rid
                  (generate_encounter pid pr.rid loc.rid org.rid r3).1.rid
                  (generate_binary_resource r4).1.rid
                  (generate_binary_resource r4).2).2 with
            | error e => simp only [hc4] at h; cases h
            | ok rest1 =>
              obtain ⟨rest, r5⟩ := rest1
              simp only [hc4, Except.ok.injEq, Prod.mk.injEq] at h
              obtain ⟨hout, -⟩ := h
              subst hout
              simp only [List.singleton_append, List.nil_append] at hEnc hBin hrec
              have hihapp := ih _ (rest.1, rest.2.1, rest.2.2) r5 (by rw [hc4])
                (fun q hq => hEnc q (List.mem_cons_of_mem _ hq))
                (fun q hq => hBin q (List.mem_cons_of_mem _ hq))
              rcases List.mem_append.mp hrec with hrec | hrec
              · rcases List.mem_append.mp hrec with hrec | hrec
                · rcases List.mem_cons.mp hrec with rfl | hrec
                  · exact generate_encounter_refs_ok pid pr.rid loc.rid org.rid _
                      env hp hprm hlm hom
                  · exact hihapp rec (List.mem_append.mpr
                      (Or.inl (List.mem_append.mpr (Or.inl hrec))))
                · rcases List.mem_cons.mp hrec with rfl | hrec
                  · exact generate_document_reference_refs_ok pid pr.rid
                      (generate_encounter pid pr.rid loc.rid org.rid r3).1.rid
                      (generate_binary_resource r4).1.rid _ env hp hprm
                      (hEnc _ (List.mem_cons_self _ _))
                      (hBin _ (List.mem_cons_self _ _))
                  · exact hihapp rec (List.mem_append.mpr
                      (Or.inl (List.mem_append.mpr (Or.inr hrec))))
              · rcases List.mem_cons.mp hrec with rfl | hrec
                · exact generate_binary_resource_refs_ok _ env
                · exact hihapp rec (List.mem_append.mpr (Or.inr hrec))

theorem genDiagnosticReports_refs_ok (pid : String)
    (practitioners pe observations : List Rec) (env : String → List String)
    (hp : pid ∈ env "Patient")
    (hpr : ∀ q ∈ practitioners, q.rid ∈ env "Practitioner")
    (hpe : ∀ q ∈ pe, q.rid ∈ env "Encounter")
    (hobs : ∀ q ∈ observations, q.rid ∈ env "Observation") :
    ∀ n r out r',
      genDiagnosticReports pid practitioners pe observations n r =
        Except.ok (out, r') →
      ∀ rec ∈ out, rec.refsOkIn env := by
  intro n
  induction n with
  | zero =>
    intro r out r' h rec hrec
    simp only [genDiagnosticReports, Except.ok.injEq, Prod.mk.injEq] at h
    rw [← h.1] at hrec
    cases hrec
  | succ n ih =>
    intro r out r' h rec hrec
    simp only [genDiagnosticReports, bind, Except.bind] at h
    cases hc1 : choice practitioners r with
    | error e => simp only [hc1] at h; cases h
    | ok pr1 =>
      obtain ⟨pr, r1⟩ := pr1
      simp only [hc1] at h
      cases hc2 : choice pe r1 with
      | error e => simp only [hc2] at h; cases h
      | ok enc1 =>
        obtain ⟨enc, r2⟩ := enc1
        simp only [hc2] at h
        have hprm := hpr pr (choice_mem _ _ _ _ hc1)
        have hem := hpe enc (choice_mem _ _ _ _ hc2)
        by_cases hpo : (observationsOf observations pid).isEmpty = true
        · rw [if_pos hpo] at h
          cases hc3 : genDiagnosticReports pid practitioners pe observations n
              (generate_diagnostic_report pid pr.rid enc.rid [] r2).2 with
          | error e => simp only [hc3] at h; cases h
          | ok rest1 =>
            obtain ⟨rest, r3⟩ := rest1
            simp only [hc3, Except.ok.injEq, Prod.mk.injEq] at h
            rw [← h.1] at hrec
            rcases List.mem_cons.mp hrec with rfl | hrec
            · exact generate_diagnostic_report_refs_ok pid pr.rid enc.rid [] _
                env hp hprm hem (fun o ho => absurd ho (List.not_mem_nil o))
            · exact ih _ _ _ hc3 rec hrec
        · rw [if_neg hpo] at h
          cases hc3 : genDiagnosticReports pid practitioners pe observations n
              (generate_diagnostic_report pid pr.rid enc.rid
                ((sample (observationsOf observations pid)
                  (min 3 (observationsOf observations pid).length) r2).1.map
                    Rec.rid)
                (sample (observationsOf observations pid)
                  (min 3 (observationsOf observations pid).length) r2).2).2 with
          | error e => simp only [hc3] at h; cases h
          | ok rest1 =>
            obtain ⟨rest, r3⟩ := rest1
            simp only [hc3, Except.ok.injEq, Prod.mk.injEq] at h
            rw [← h.1] at hrec
            rcases List.mem_cons.mp hrec with rfl | hrec
            · refine generate_diagnostic_report_refs_ok pid pr.rid enc.rid _ _
                env hp hprm hem ?_
              intro o ho
              rcases List.mem_map.mp ho with ⟨q, hq, rfl⟩
              exact hobs q (List.mem_of_mem_filter (sample_subset _ _ _ q hq))
            · exact ih _ _ _ hc3 rec hrec

theorem genServiceRequests_refs_ok (pid : String)
    (practitioners pe : List Rec) (env : String → List String)
    (hp : pid ∈ env "Patient")
    (hpr : ∀ q ∈ practitioners, q.rid ∈ env "Practitioner")
    (hpe : ∀ q ∈ pe, q.rid ∈ env "Encounter") :
    ∀ n r out r',
      genServiceRequests pid practitioners pe n r = Except.ok (out, r') →
      ∀ rec ∈ out, rec.refsOkIn env := by
  intro n
  induction n with
  | zero =>
    intro r out r' h rec hrec
    simp only [genServiceRequests, Except.ok.injEq, Prod.mk.injEq] at h
    rw [← h.1] at hrec
    cases hrec
  | succ n ih =>
    intro r out r' h rec hrec
    simp only [genServiceRequests, bind, Except.bind] at h
    cases hc1 : choice practitioners r with
    | error e => simp only [hc1] at h; cases h
    | ok pr1 =>
      obtain ⟨pr, r1⟩ := pr1
      simp only [hc1] at h
      cases hc2 : srOptEncounter pe r1 with
      | error e => simp only [hc2] at h; cases h
      | ok eo1 =>
        obtain ⟨encOpt, r2⟩ := eo1
        simp only [hc2] at h
        cases hc3 : genServiceRequests pid practitioners pe n
            (generate_service_request pid pr.rid (encOpt.map Rec.rid) r2).2 with
        | error e => simp only [hc3] at h; cases h
        | ok rest1 =>
          obtain ⟨rest, r3⟩ := rest1
          simp only [hc3, Except.ok.injEq, Prod.mk.injEq] at h
          rw [← h.1] at hrec
          rcases List.mem_cons.mp hrec with rfl | hrec
          · exact generate_service_request_refs_ok pid pr.rid _ _ env hp
              (hpr pr (choice_mem _ _ _ _ hc1))
              (mapRid_mem pe encOpt "Encounter" env
                (srOptEncounter_mem _ _ _ _ hc2) hpe)
          · exact ih _ _ _ hc3 rec hrec

theorem genClinicalImpressions_refs_ok (version : FhirVersion) (pid : String)
    (practitioners pe : List Rec) (env : String → List String)
    (hp : pid ∈ env "Patient")
    (hpr : ∀ q ∈ practitioners, q.rid ∈ env "Practitioner")
    (hpe : ∀ q ∈ pe, q.rid ∈ env "Encounter") :
    ∀ n r out r',
      genClinicalImpressions version pid practitioners pe n r =
        Except.ok (out, r') →
      ∀ rec ∈ out, rec.refsOkIn env := by
  intro n
  induction n with
  | zero =>
    intro r out r' h rec hrec
    simp only [genClinicalImpressions, Except.ok.injEq, Prod.mk.injEq] at h
    rw [← h.1] at hrec
    cases hrec
  | succ n ih =>
    intro r out r' h rec hrec
    simp only [genClinicalImpressions, bind, Except.bind] at h
    cases hc1 : choice practitioners r with
    | error e => simp only [hc1] at h; cases h
    | ok pr1 =>
      obtain ⟨pr, r1⟩ := pr1
      simp only [hc1] at h
      cases hc2 : optEncounter pe 700 r1 with
      | error e => simp only [hc2] at h; cases h
      | ok eo1 =>
        obtain ⟨encOpt, r2⟩ := eo1
        simp only [hc2] at h
        cases hc3 : genClinicalImpressions version pid practitioners pe n
            (generate_clinical_impression version pid pr.rid
              (encOpt.map Rec.rid) r2).2 with
        | error e => simp only [hc3] at h; cases h
        | ok rest1 =>
          obtain ⟨rest, r3⟩ := rest1
          simp only [hc3, Except.ok.injEq, Prod.mk.injEq] at h
          rw [← h.1] at hrec
          rcases List.mem_cons.mp hrec with rfl | hrec
          · exact generate_clinical_impression_refs_ok version pid pr.rid _ _
              env hp (hpr pr (choice_mem _ _ _ _ hc1))
              (mapRid_mem pe encOpt "Encounter" env
                (optEncounter_mem _ _ _ _ _ hc2) hpe)
          · exact ih _ _ _ hc3 rec hrec

theorem genFamilyMemberHistories_refs_ok (version : FhirVersion)
    (pid : String) (practitioners : List Rec) (env : String → List String)
    (hp : pid ∈ env "Patient")
    (hpr : ∀ q ∈ practitioners, q.rid ∈ env "Practitioner") :
    ∀ n r out r',
      genFamilyMemberHistories version pid practitioners n r =
        Except.ok (out, r') →
      ∀ rec ∈ out, rec.refsOkIn env := by
  intro n
  induction n with
  | zero =>
    intro r out r' h rec hrec
    simp only [genFamilyMemberHistories, Except.ok.injEq, Prod.mk.injEq] at h
    rw [← h.1] at hrec
    cases hrec
  | succ n ih =>
    intro r out r' h rec hrec
    simp only [genFamilyMemberHistories, bind, Except.bind] at h
    cases hc1 : coinChoice practitioners 700 r with
    | error e => simp only [hc1] at h; cases h
    | ok po1 =>
      obtain ⟨prOpt, r1⟩ := po1
      simp only [hc1] at h
      cases hc2 : genFamilyMemberHistories version pid practitioners n
          (generate_family_member_history version pid
            (prOpt.map Rec.rid) r1).2 with
      | error e => simp only [hc2] at h; cases h
      | ok rest1 =>
        obtain ⟨rest, r2⟩ := rest1
        simp only [hc2, Except.ok.injEq, Prod.mk.injEq] at h
        rw [← h.1] at hrec
        rcases List.mem_cons.mp hrec with rfl | hrec
        · exact generate_family_member_history_refs_ok version pid _ _ env hp
            (mapRid_mem practitioners prOpt "Practitioner" env
              (coinChoice_mem _ _ _ _ _ hc1) hpr)
        · exact ih _ _ _ hc2 rec hrec

set_option maxRecDepth 8000 in
set_option maxHeartbeats 2000000 in
theorem genImmunizations_refs_ok (pid : String)
    (practitioners pe locations : List Rec) (env : String → List String)
    (hp : pid ∈ env "Patient")
    (hpr : ∀ q ∈ practitioners, q.rid ∈ env "Practitioner")
    (hpe : ∀ q ∈ pe, q.rid ∈ env "Encounter")
    (hloc : ∀ q ∈ locations, q.rid ∈ env "Location") :
    ∀ n r out r',
      genImmunizations pid practitioners pe locations n r =
        Except.ok (out, r') →
      ∀ rec ∈ out, rec.refsOkIn env := by
  intro n
  induction n with
  | zero =>
    intro r out r' h rec hrec
    have h0 : genImmunizations pid practitioners pe locations 0 r =
        Except.ok ([], r) := rfl
    rw [h0] at h
    injection h with h1
    injection h1 with h2 h3
    rw [← h2] at hrec
    cases hrec
  | succ n ih =>
    intro r out r' h rec hrec
    have hs : genImmunizations pid practitioners pe locations (n + 1) r =
        Except.bind (choice practitioners r) (fun x =>
          Except.bind (optEncounter pe 600 x.2) (fun y =>
            Except.bind (coinChoice locations 800 y.2) (fun z =>
              Except.bind (genImmunizations pid practitioners pe locations n
                  (generate_immunization pid x.1.rid (y.1.map Rec.rid)
                    (z.1.map Rec.rid) z.2).2) (fun w =>
                Except.ok ((generate_immunization pid x.1.rid
                    (y.1.map Rec.rid) (z.1.map Rec.rid) z.2).1 :: w.1,
                  w.2))))) := rfl
    rw [hs] at h
    cases hc1 : choice practitioners r with
    | error e => simp only [hc1, Except.bind] at h; cases h
    | ok pr1 =>
      obtain ⟨pr, r1⟩ := pr1
      simp only [hc1, Except.bind] at h
      cases hc2 : optEncounter pe 600 r1 with
      | error e => simp only [hc2, Except.bind] at h; cases h
      | ok eo1 =>
        obtain ⟨encOpt, r2⟩ := eo1
        simp only [hc2, Except.bind] at h
        cases hc3 : coinChoice locations 800 r2 with
        | error e => simp only [hc3, Except.bind] at h; cases h
        | ok lo1 =>
          obtain ⟨locOpt, r3⟩ := lo1
          simp only [hc3, Except.bind] at h
          cases hc4 : genImmunizations pid practitioners pe locations n
              (generate_immunization pid pr.rid (encOpt.map Rec.rid)
                (locOpt.map Rec.rid) r3).2 with
          | error e => simp only [hc4, Except.bind] at h; cases h
          | ok rest1 =>
            obtain ⟨rest, r4⟩ := rest1
            simp only [hc4, Except.bind, Except.ok.injEq,
              Prod.mk.injEq] at h
            rw [← h.1] at hrec
            rcases List.mem_cons.mp hrec with rfl | hrec
            · exact generate_immunization_refs_ok pid pr.rid _ _ _ env hp
                (hpr pr (choice_mem _ _ _ _ hc1))
                (mapRid_mem pe encOpt "Encounter" env
                  (optEncounter_mem _ _ _ _ _ hc2) hpe)
                (mapRid_mem locations locOpt "Location" env
                  (coinChoice_mem _ _ _ _ _ hc3) hloc)
            · exact ih _ _ _ hc4 rec hrec

theorem genMedicationAdministrations_refs_ok (version : FhirVersion)
    (pid : String) (practitioners pe medication_requests : List Rec)
    (env : String → List String) (hp : pid ∈ env "Patient")
    (hpr : ∀ q ∈ practitioners, q.rid ∈ env "Practitioner")
    (hpe : ∀ q ∈ pe, q.rid ∈ env "Encounter")
    (hmr : ∀ q ∈ medication_requests, q.rid ∈ env "MedicationRequest") :
    ∀ n r out r',
      genMedicationAdministrations version pid practitioners pe
        medication_requests n r = Except.ok (out, r') →
      ∀ rec ∈ out, rec.refsOkIn env := by
  intro n
  induction n with
  | zero =>
    intro r out r' h rec hrec
    simp only [genMedicationAdministrations, Except.ok.injEq,
      Prod.mk.injEq] at h
    rw [← h.1] at hrec
    cases hrec
  | succ n ih =>
    intro r out r' h rec hrec
    simp only [genMedicationAdministrations, bind, Except.bind] at h
    cases hc1 : choice practitioners r with
    | error e => simp only [hc1] at h; cases h
    | ok pr1 =>
      obtain ⟨pr, r1⟩ := pr1
      simp only [hc1] at h
      cases hc2 : optEncounter pe 700 r1 with
      | error e => simp only [hc2] at h; cases h
      | ok eo1 =>
        obtain ⟨encOpt, r2⟩ := eo1
        simp only [hc2] at h
        cases hc3 : coinChoice medication_requests 500 r2 with
        | error e => simp only [hc3] at h; cases h
        | ok mo1 =>
          obtain ⟨mrOpt, r3⟩ := mo1
          simp only [hc3] at h
          cases hc4 : genMedicationAdministrations version pid practitioners
              pe medication_requests n
              (generate_medication_administration version pid pr.rid
                (mrOpt.map Rec.rid) (encOpt.map Rec.rid) r3).2 with
          | error e => simp only [hc4] at h; cases h
          | ok rest1 =>
            obtain ⟨rest, r4⟩ := rest1
            simp only [hc4, Except.ok.injEq, Prod.mk.injEq] at h
            rw [← h.1] at hrec
            rcases List.mem_cons.mp hrec with rfl | hrec
            · exact generate_medication_administration_refs_ok version pid
                pr.rid _ _ _ env hp (hpr pr (choice_mem _ _ _ _ hc1))
                (mapRid_mem medication_requests mrOpt "MedicationRequest" env
                  (coinChoice_mem _ _ _ _ _ hc3) hmr)
                (mapRid_mem pe encOpt "Encounter" env
                  (optEncounter_mem _ _ _ _ _ hc2) hpe)
            · exact ih _ _ _ hc4 rec hrec

theorem genAllergyIntolerances_refs_ok (version : FhirVersion)
    (pid : String) (practitioners : List Rec) (env : String → List String)
    (hp : pid ∈ env "Patient")
    (hpr : ∀ q ∈ practitioners, q.rid ∈ env "Practitioner") :
    ∀ n r out r',
      genAllergyIntolerances version pid practitioners n r =
        Except.ok (out, r') →
      ∀ rec ∈ out, rec.refsOkIn env := by
  intro n
  induction n with
  | zero =>
    intro r out r' h rec hrec
    simp only [genAllergyIntolerances, Except.ok.injEq, Prod.mk.injEq] at h
    rw [← h.1] at hrec
    cases hrec
  | succ n ih =>
    intro r out r' h rec hrec
    simp only [genAllergyIntolerances, bind, Except.bind] at h
    cases hc1 : coinChoice practitioners 600 r with
    | error e => simp only [hc1] at h; cases h
    | ok po1 =>
      obtain ⟨prOpt, r1⟩ := po1
      simp only [hc1] at h
      cases hc2 : genAllergyIntolerances version pid practitioners n
          (generate_allergy_intolerance version pid
            (prOpt.map Rec.rid) r1).2 with
      | error e => simp only [hc2] at h; cases h
      | ok rest1 =>
        obtain ⟨rest, r2⟩ := rest1
        simp only [hc2, Except.ok.injEq, Prod.mk.injEq] at h
        rw [← h.1] at hrec
        rcases List.mem_cons.mp hrec with rfl | hrec
        · exact generate_allergy_intolerance_refs_ok version pid _ _ env hp
            (mapRid_mem practitioners prOpt "Practitioner" env
              (coinChoice_mem _ _ _ _ _ hc1) hpr)
        · exact ih _ _ _ hc2 rec hrec

theorem genCarePlans_refs_ok (pid : String)
    (practitioners pe conditions : List Rec) (env : String → List String)
    (hp : pid ∈ env "Patient")
    (hpr : ∀ q ∈ practitioners, q.rid ∈ env "Practitioner")
    (hpe : ∀ q ∈ pe, q.rid ∈ env "Encounter") :
    ∀ n r out r',
      genCarePlans pid practitioners pe conditions n r =
        Except.ok (out, r') →
      ∀ rec ∈ out, rec.refsOkIn env := by
  intro n
  induction n with
  | zero =>
    intro r out r' h rec hrec
    simp only [genCarePlans, Except.ok.injEq, Prod.mk.injEq] at h
    rw [← h.1] at hrec
    cases hrec
  | succ n ih =>
    intro r out r' h rec hrec
    simp only [genCarePlans, bind, Except.bind] at h
    cases hc1 : choice practitioners r with
    | error e => simp only [hc1] at h; cases h
    | ok pr1 =>
      obtain ⟨pr, r1⟩ := pr1
      simp only [hc1] at h
      cases hc2 : optEncounter pe 500 r1 with
      | error e => simp only [hc2] at h; cases h
      | ok eo1 =>
        obtain ⟨encOpt, r2⟩ := eo1
        simp only [hc2] at h
        cases hc3 : coinChoice conditions 700 r2 with
        | error e => simp only [hc3] at h; cases h
        | ok co1 =>
          obtain ⟨condOpt, r3⟩ := co1
          simp only [hc3] at h
          cases hc4 : genCarePlans pid practitioners pe conditions n
              (generate_care_plan pid pr.rid (encOpt.map Rec.rid) r3).2 with
          | error e => simp only [hc4] at h; cases h
          | ok rest1 =>
            obtain ⟨rest, r4⟩ := rest1
            simp only [hc4, Except.ok.injEq, Prod.mk.injEq] at h
            rw [← h.1] at hrec
            rcases List.mem_cons.mp hrec with rfl | hrec
            · exact generate_care_plan_refs_ok pid pr.rid _ _ env hp
                (hpr pr (choice_mem _ _ _ _ hc1))
                (mapRid_mem pe encOpt "Encounter" env
                  (optEncounter_mem _ _ _ _ _ hc2) hpe)
            · exact ih _ _ _ hc4 rec hrec

theorem genCoverages_refs_ok (version : FhirVersion) (pid : String)
    (clinics patients : List Rec) (env : String → List String)
    (hp : pid ∈ env "Patient")
    (hcl : ∀ q ∈ clinics, q.rid ∈ env "Organization")
    (hpat : ∀ q ∈ patients, q.rid ∈ env "Patient") :
    ∀ n r out r',
      genCoverages version pid clinics patients n r = Except.ok (out, r') →
      ∀ rec ∈ out, rec.refsOkIn env := by
  intro n
  induction n with
  | zero =>
    intro r out r' h rec hrec
    simp only [genCoverages, Except.ok.injEq, Prod.mk.injEq] at h
    rw [← h.1] at hrec
    cases hrec
  | succ n ih =>
    intro r out r' h rec hrec
    simp only [genCoverages, bind, Except.bind] at h
    cases hc1 : choice clinics r with
    | error e => simp only [hc1] at h; cases h
    | ok og1 =>
      obtain ⟨org, r1⟩ := og1
      simp only [hc1] at h
      cases hc2 : coinChoice patients 200 r1 with
      | error e => simp only [hc2] at h; cases h
      | ok po1 =>
        obtain ⟨phOpt, r2⟩ := po1
        simp only [hc2] at h
        cases hc3 : genCoverages version pid clinics patients n
            (generate_coverage version pid org.rid
              (phOpt.map Rec.rid) r2).2 with
        | error e => simp only [hc3] at h; cases h
        | ok rest1 =>
          obtain ⟨rest, r3⟩ := rest1
          simp only [hc3, Except.ok.injEq, Prod.mk.injEq] at h
          rw [← h.1] at hrec
          rcases List.mem_cons.mp hrec with rfl | hrec
          · exact generate_coverage_refs_ok version pid org.rid _ _ env hp
              (hcl org (choice_mem _ _ _ _ hc1))
              (mapRid_mem patients phOpt "Patient" env
                (coinChoice_mem _ _ _ _ _ hc2) hpat)
          · exact ih _ _ _ hc3 rec hrec

theorem genClinics_refs_ok (env : String → List String) :
    ∀ n r, (∀ q ∈ (genClinics n r).1.1, q.rid ∈ env "Organization") →
    ∀ rec ∈ (genClinics n r).1.1 ++ (genClinics n r).1.2, rec.refsOkIn env := by
  intro n
  induction n with
  | zero => intro r hself rec hrec; cases hrec
  | succ n ih =>
    intro r hself rec hrec
    have h1 : (genClinics (n + 1) r).1.1 =
        (generate_clinic_and_location r).1.1 ::
          (genClinics n (generate_clinic_and_location r).2).1.1 := rfl
    have h2 : (genClinics (n + 1) r).1.2 =
        (generate_clinic_and_location r).1.2 ::
          (genClinics n (generate_clinic_and_location r).2).1.2 := rfl
    rw [h1] at hself
    rw [h1, h2] at hrec
    rcases List.mem_append.mp hrec with hrec | hrec
    · rcases List.mem_cons.mp hrec with rfl | hrec
      · exact generate_clinic_refs_ok r env
      · exact ih _ (fun q hq => hself q (List.mem_cons_of_mem _ hq)) rec
          (List.mem_append.mpr (Or.inl hrec))
    · rcases List.mem_cons.mp hrec with rfl | hrec
      · exact generate_location_refs_ok r env (hself _ (List.mem_cons_self _ _))
      · exact ih _ (fun q hq => hself q (List.mem_cons_of_mem _ hq)) rec
          (List.mem_append.mpr (Or.inr hrec))

theorem genPractitioners_refs_ok (env : String → List String) :
    ∀ n r, ∀ rec ∈ (genPractitioners n r).1, rec.refsOkIn env := by
  intro n
  induction n with
  | zero => intro r rec hrec; cases hrec
  | succ n ih =>
    intro r rec hrec
    rcases List.mem_cons.mp hrec with rfl | hrec
    · exact generate_practitioner_refs_ok _ env
    · exact ih _ rec hrec

theorem genDiagsGate_refs_ok (cfg : AssembleConfig) (pid : String)
    (practitioners pe observations : List Rec) (env : String → List String)
    (hp : pid ∈ env "Patient")
    (hpr : ∀ q ∈ practitioners, q.rid ∈ env "Practitioner")
    (hpe : ∀ q ∈ pe, q.rid ∈ env "Encounter")
    (hobs : ∀ q ∈ observations, q.rid ∈ env "Observation") :
    ∀ r out r',
      genDiagsGate cfg pid practitioners pe observations r =
        Except.ok (out, r') →
      ∀ rec ∈ out, rec.refsOkIn env := by
  intro r out r' h rec hrec
  unfold genDiagsGate at h
  split at h
  · simp only [Except.ok.injEq, Prod.mk.injEq] at h
    rw [← h.1] at hrec
    cases hrec
  · simp only [bind, Except.bind] at h
    cases hc1 : randint cfg.diagnostic_reports.lo cfg.diagnostic_reports.hi
        r with
    | error e => simp only [hc1] at h; cases h
    | ok nd1 =>
      obtain ⟨nDiag, r1⟩ := nd1
      simp only [hc1] at h
      exact genDiagnosticReports_refs_ok pid practitioners pe observations env
        hp hpr hpe hobs nDiag r1 out r' h rec hrec

theorem loop1Patient_refs_ok (cfg : AssembleConfig)
    (practitioners locations clinics : List Rec) (env : String → List String)
    (hpr : ∀ q ∈ practitioners, q.rid ∈ env "Practitioner")
    (hl : ∀ q ∈ locations, q.rid ∈ env "Location")
    (hcl : ∀ q ∈ clinics, q.rid ∈ env "Organization") :
    ∀ r out r',
      loop1Patient cfg practitioners locations clinics r =
        Except.ok (out, r') →
      (∀ q ∈ out.patients, q.rid ∈ env "Patient") →
      (∀ q ∈ out.encounters, q.rid ∈ env "Encounter") →
      (∀ q ∈ out.binaries, q.rid ∈ env "Binary") →
      (∀ rec ∈ out.patients, rec.refsOkIn env) ∧
      (∀ rec ∈ out.conditions, rec.refsOkIn env) ∧
      (∀ rec ∈ out.appointments, rec.refsOkIn env) ∧
      (∀ rec ∈ out.medication_requests, rec.refsOkIn env) ∧
      (∀ rec ∈ out.encounters, rec.refsOkIn env) ∧
      (∀ rec ∈ out.document_references, rec.refsOkIn env) ∧
      (∀ rec ∈ out.binaries, rec.refsOkIn env) ∧
      (∀ rec ∈ out.observations, rec.refsOkIn env) ∧
      (∀ rec ∈ out.procedures, rec.refsOkIn env) := by
  intro r out r' h hPat hEnc hBin
  simp only [loop1Patient, bind, Except.bind] at h
  cases hr1 : randint cfg.conditions.lo cfg.conditions.hi
      (generate_patient r).2 with
  | error e => simp only [hr1] at h; cases h
  | ok v1 =>
    obtain ⟨nCond, r1⟩ := v1
    simp only [hr1] at h
    cases hr2 : randint cfg.appointments.lo cfg.appointments.hi
        (genConditions (generate_patient r).1.rid nCond r1).2 with
    | error e => simp only [hr2] at h; cases h
    | ok v2 =>
      obtain ⟨nAppt, r2⟩ := v2
      simp only [hr2] at h
      cases hc3 : genAppointments (generate_patient r).1.rid practitioners
          locations nAppt r2 with
      | error e => simp only [hc3] at h; cases h
      | ok v3 =>
        obtain ⟨appts, r3⟩ := v3
        simp only [hc3] at h
        cases hr4 : randint cfg.medication_requests.lo
            cfg.medication_requests.hi r3 with
        | error e => simp only [hr4] at h; cases h
        | ok v4 =>
          obtain ⟨nMed, r4⟩ := v4
          simp only [hr4] at h
          cases hc5 : genMedicationRequests (generate_patient r).1.rid
              practitioners nMed r4 with
          | error e => simp only [hc5] at h; cases h
          | ok v5 =>
            obtain ⟨meds, r5⟩ := v5
            simp only [hc5] at h
            cases hr6 : randint cfg.encounters.lo cfg.encounters.hi r5 with
            | error e => simp only [hr6] at h; cases h
            | ok v6 =>
              obtain ⟨nEnc, r6⟩ := v6
              simp only [hr6] at h
              cases hc7 : genEncounters (generate_patient r).1.rid
                  practitioners locations clinics
                  cfg.document_reference_probability nEnc r6 with
              | error e => simp only [hc7] at h; cases h
              | ok v7 =>
                obtain ⟨encs, r7⟩ := v7
                simp only [hc7] at h
                cases hr8 : randint cfg.observations.lo cfg.observations.hi
                    r7 with
                | error e => simp only [hr8] at h; cases h
                | ok v8 =>
                  obtain ⟨nObs, r8⟩ := v8
                  simp only [hr8] at h
                  cases hc9 : genObservations (generate_patient r).1.rid
                      practitioners nObs r8 with
                  | error e => simp only [hc9] at h; cases h
                  | ok v9 =>
                    obtain ⟨obs, r9⟩ := v9
                    simp only [hc9] at h
                    cases hr10 : randint cfg.procedures.lo cfg.procedures.hi
                        r9 with
                    | error e => simp only [hr10] at h; cases h
                    | ok v10 =>
                      obtain ⟨nProc, r10⟩ := v10
                      simp only [hr10] at h
                      cases hc11 : genProcedures (generate_patient r).1.rid
                          practitioners nProc r10 with
                      | error e => simp only [hc11] at h; cases h
                      | ok v11 =>
                        obtain ⟨procs, r11⟩ := v11
                        simp only [hc11, Except.ok.injEq, Prod.mk.injEq] at h
                        obtain ⟨hout, -⟩ := h
                        subst hout
                        have hpid : (generate_patient r).1.rid ∈
                            env "Patient" :=
                          hPat _ (List.mem_cons_self _ _)
                        have hencs := genEncounters_refs_ok
                          (generate_patient r).1.rid practitioners locations
                          clinics cfg.document_reference_probability env hpid
                          hpr hl hcl nEnc r6 encs r7 hc7 hEnc hBin
                        refine ⟨?_, ?_, ?_, ?_, ?_, ?_, ?_, ?_, ?_⟩
                        · intro rec hrec
                          rcases List.mem_cons.mp hrec with rfl | hrec
                          · exact generate_patient_refs_ok r env
                          · cases hrec
                        · exact genConditions_refs_ok _ env hpid nCond r1
                        · exact genAppointments_refs_ok _ practitioners
                            locations env hpid hpr hl nAppt r2 appts r3 hc3
                        · exact genMedicationRequests_refs_ok _ practitioners
                            env hpid hpr nMed r4 meds r5 hc5
                        · intro rec hrec
                          exact hencs rec (List.mem_append.mpr (Or.inl
                            (List.mem_append.mpr (Or.inl hrec))))
                        · intro rec hrec
                          exact hencs rec (List.mem_append.mpr (Or.inl
                            (List.mem_append.mpr (Or.inr hrec))))
                        · intro rec hrec
                          exact hencs rec (List.mem_append.mpr (Or.inr hrec))
                        · exact genObservations_refs_ok _ practitioners env
                            hpid hpr nObs r8 obs r9 hc9
                        · exact genProcedures_refs_ok _ practitioners env
                            hpid hpr nProc r10 procs r11 hc11

theorem loop1_refs_ok (cfg : AssembleConfig)
    (practitioners locations clinics : List Rec) (env : String → List String)
    (hpr : ∀ q ∈ practitioners, q.rid ∈ env "Practitioner")
    (hl : ∀ q ∈ locations, q.rid ∈ env "Location")
    (hcl : ∀ q ∈ clinics, q.rid ∈ env "Organization") :
    ∀ n r l1 r',
      loop1 cfg practitioners locations clinics n r = Except.ok (l1, r') →
      (∀ q ∈ l1.patients, q.rid ∈ env "Patient") →
      (∀ q ∈ l1.encounters, q.rid ∈ env "Encounter") →
      (∀ q ∈ l1.binaries, q.rid ∈ env "Binary") →
      (∀ rec ∈ l1.patients, rec.refsOkIn env) ∧
      (∀ rec ∈ l1.conditions, rec.refsOkIn env) ∧
      (∀ rec ∈ l1.appointments, rec.refsOkIn env) ∧
      (∀ rec ∈ l1.medication_requests, rec.refsOkIn env) ∧
      (∀ rec ∈ l1.encounters, rec.refsOkIn env) ∧
      (∀ rec ∈ l1.document_references, rec.refsOkIn env) ∧
      (∀ rec ∈ l1.binaries, rec.refsOkIn env) ∧
      (∀ rec ∈ l1.observations, rec.refsOkIn env) ∧
      (∀ rec ∈ l1.procedures, rec.refsOkIn env) := by
  intro n
  induction n with
  | zero =>
    intro r l1 r' h hPat hEnc hBin
    simp only [loop1, Except.ok.injEq, Prod.mk.injEq] at h
    rw [← h.1]
    exact ⟨fun rec hrec => absurd hrec (List.not_mem_nil rec),
      fun rec hrec => absurd hrec (List.not_mem_nil rec),
      fun rec hrec => absurd hrec (List.not_mem_nil rec),
      fun rec hrec => absurd hrec (List.not_mem_nil rec),
      fun rec hrec => absurd hrec (List.not_mem_nil rec),
      fun rec hrec => absurd hrec (List.not_mem_nil rec),
      fun rec hrec => absurd hrec (List.not_mem_nil rec),
      fun rec hrec => absurd hrec (List.not_mem_nil rec),
      fun rec hrec => absurd hrec (List.not_mem_nil rec)⟩
  | succ n ih =>
    intro r l1 r' h hPat hEnc hBin
    simp only [loop1, bind, Except.bind] at h
    cases hc1 : loop1Patient cfg practitioners locations clinics r with
    | error e => simp only [hc1] at h; cases h
    | ok v1 =>
      obtain ⟨one, r1⟩ := v1
      simp only [hc1] at h
      cases hc2 : loop1 cfg practitioners locations clinics n r1 with
      | error e => simp only [hc2] at h; cases h
      | ok v2 =>
        obtain ⟨rest, r2⟩ := v2
        simp only [hc2, Except.ok.injEq, Prod.mk.injEq] at h
        obtain ⟨hout, -⟩ := h
        subst hout
        simp only [L1.append] at hPat hEnc hBin ⊢
        have hone := loop1Patient_refs_ok cfg practitioners locations clinics
          env hpr hl hcl r one r1 hc1
          (fun q hq => hPat q (List.mem_append.mpr (Or.inl hq)))
          (fun q hq => hEnc q (List.mem_append.mpr (Or.inl hq)))
          (fun q hq => hBin q (List.mem_append.mpr (Or.inl hq)))
        have hrest := ih r1 rest r2 hc2
          (fun q hq => hPat q (List.mem_append.mpr (Or.inr hq)))
          (fun q hq => hEnc q (List.mem_append.mpr (Or.inr hq)))
          (fun q hq => hBin q (List.mem_append.mpr (Or.inr hq)))
        obtain ⟨o1, o2, o3, o4, o5, o6, o7, o8, o9⟩ := hone
        obtain ⟨s1, s2, s3, s4, s5, s6, s7, s8, s9⟩ := hrest
        refine ⟨?_, ?_, ?_, ?_, ?_, ?_, ?_, ?_, ?_⟩
        · intro rec hrec
          rcases List.mem_append.mp hrec with hrec | hrec
          · exact o1 rec hrec
          · exact s1 rec hrec
        · intro rec hrec
          rcases List.mem_append.mp hrec with hrec | hrec
          · exact o2 rec hrec
          · exact s2 rec hrec
        · intro rec hrec
          rcases List.mem_append.mp hrec with hrec | hrec
          · exact o3 rec hrec
          · exact s3 rec hrec
        · intro rec hrec
          rcases List.mem_append.mp hrec with hrec | hrec
          · exact o4 rec hrec
          · exact s4 rec hrec
        · intro rec hrec
          rcases List.mem_append.mp hrec with hrec | hrec
          · exact o5 rec hrec
          · exact s5 rec hrec
        · intro rec hrec
          rcases List.mem_append.mp hrec with hrec | hrec
          · exact o6 rec hrec
          · exact s6 rec hrec
        · intro rec hrec
          rcases List.mem_append.mp hrec with hrec | hrec
          · exact o7 rec hrec
          · exact s7 rec hrec
        · intro rec hrec
          rcases List.mem_append.mp hrec with hrec | hrec
          · exact o8 rec hrec
          · exact s8 rec hrec
        · intro rec hrec
          rcases List.mem_append.mp hrec with hrec | hrec
          · exact o9 rec hrec
          · exact s9 rec hrec

theorem loop2Patient_refs_ok (cfg : AssembleConfig) (version : FhirVersion)
    (practitioners locations clinics : List Rec) (l1 : L1) (patient : Rec)
    (env : String → List String)
    (hpr : ∀ q ∈ practitioners, q.rid ∈ env "Practitioner")
    (hl : ∀ q ∈ locations, q.rid ∈ env "Location")
    (hcl : ∀ q ∈ clinics, q.rid ∈ env "Organization")
    (hp : patient.rid ∈ env "Patient")
    (hpats : ∀ q ∈ l1.patients, q.rid ∈ env "Patient")
    (hencs : ∀ q ∈ l1.encounters, q.rid ∈ env "Encounter")
    (hobs : ∀ q ∈ l1.observations, q.rid ∈ env "Observation")
    (hmeds : ∀ q ∈ l1.medication_requests, q.rid ∈ env "MedicationRequest") :
    ∀ r out r',
      loop2Patient cfg version practitioners locations clinics l1 patient r =
        Except.ok (out, r') →
      (∀ rec ∈ out.diagnostic_reports, rec.refsOkIn env) ∧
      (∀ rec ∈ out.service_requests, rec.refsOkIn env) ∧
      (∀ rec ∈ out.clinical_impressions, rec.refsOkIn env) ∧
      (∀ rec ∈ out.family_member_histories, rec.refsOkIn env) ∧
      (∀ rec ∈ out.immunizations, rec.refsOkIn env) ∧
      (∀ rec ∈ out.medication_administrations, rec.refsOkIn env) ∧
      (∀ rec ∈ out.allergy_intolerances, rec.refsOkIn env) ∧
      (∀ rec ∈ out.care_plans, rec.refsOkIn env) ∧
      (∀ rec ∈ out.coverages, rec.refsOkIn env) := by
  intro r out r' h
  have hpe : ∀ q ∈ encountersOf l1.encounters patient.rid,
      q.rid ∈ env "Encounter" :=
    fun q hq => hencs q (List.mem_of_mem_filter hq)
  simp only [loop2Patient, bind, Except.bind] at h
  cases hg1 : genDiagsGate cfg patient.rid practitioners
      (encountersOf l1.encounters patient.rid) l1.observations r with
  | error e => simp only [hg1] at h; cases h
  | ok v1 =>
    obtain ⟨diags, r1⟩ := v1
    simp only [hg1] at h
    cases hr2 : randint cfg.service_requests.lo cfg.service_requests.hi
        r1 with
    | error e => simp only [hr2] at h; cases h
    | ok w2 =>
      obtain ⟨nServ, r2⟩ := w2
      simp only [hr2] at h
      cases hg3 : genServiceRequests patient.rid practitioners
          (encountersOf l1.encounters patient.rid) nServ r2 with
      | error e => simp only [hg3] at h; cases h
      | ok v3 =>
        obtain ⟨servs, r3⟩ := v3
        simp only [hg3] at h
        cases hr4 : randint cfg.clinical_impressions.lo
            cfg.clinical_impressions.hi r3 with
        | error e => simp only [hr4] at h; cases h
        | ok w4 =>
          obtain ⟨nClin, r4⟩ := w4
          simp only [hr4] at h
          cases hg5 : genClinicalImpressions version patient.rid practitioners
              (encountersOf l1.encounters patient.rid) nClin r4 with
          | error e => simp only [hg5] at h; cases h
          | ok v5 =>
            obtain ⟨clins, r5⟩ := v5
            simp only [hg5] at h
            cases hr6 : randint cfg.family_member_histories.lo
                cfg.family_member_histories.hi r5 with
            | error e => simp only [hr6] at h; cases h
            | ok w6 =>
              obtain ⟨nFam, r6⟩ := w6
              simp only [hr6] at h
              cases hg7 : genFamilyMemberHistories version patient.rid
                  practitioners nFam r6 with
              | error e => simp only [hg7] at h; cases h
              | ok v7 =>
                obtain ⟨fams, r7⟩ := v7
                simp only [hg7] at h
                cases hr8 : randint cfg.immunizations.lo cfg.immunizations.hi
                    r7 with
                | error e => simp only [hr8] at h; cases h
                | ok w8 =>
                  obtain ⟨nImm, r8⟩ := w8
                  simp only [hr8] at h
                  cases hg9 : genImmunizations patient.rid practitioners
                      (encountersOf l1.encounters patient.rid) locations
                      nImm r8 with
                  | error e => simp only [hg9] at h; cases h
                  | ok v9 =>
                    obtain ⟨imms, r9⟩ := v9
                    simp only [hg9] at h
                    cases hr10 : randint cfg.medication_administrations.lo
                        cfg.medication_administrations.hi r9 with
                    | error e => simp only [hr10] at h; cases h
                    | ok w10 =>
                      obtain ⟨nMedA, r10⟩ := w10
                      simp only [hr10] at h
                      cases hg11 : genMedicationAdministrations version
                          patient.rid practitioners
                          (encountersOf l1.encounters patient.rid)
                          l1.medication_requests nMedA r10 with
                      | error e => simp only [hg11] at h; cases h
                      | ok v11 =>
                        obtain ⟨medAs, r11⟩ := v11
                        simp only [hg11] at h
                        cases hr12 : randint cfg.allergy_intolerances.lo
                            cfg.allergy_intolerances.hi r11 with
                        | error e => simp only [hr12] at h; cases h
                        | ok w12 =>
                          obtain ⟨nAll, r12⟩ := w12
                          simp only [hr12] at h
                          cases hg13 : genAllergyIntolerances version
                              patient.rid practitioners nAll r12 with
                          | error e => simp only [hg13] at h; cases h
                          | ok v13 =>
                            obtain ⟨alls, r13⟩ := v13
                            simp only [hg13] at h
                            cases hr14 : randint cfg.care_plans.lo
                                cfg.care_plans.hi r13 with
                            | error e => simp only [hr14] at h; cases h
                            | ok w14 =>
                              obtain ⟨nCare, r14⟩ := w14
                              simp only [hr14] at h
                              cases hg15 : genCarePlans patient.rid
                                  practitioners
                                  (encountersOf l1.encounters patient.rid)
                                  l1.conditions nCare r14 with
                              | error e => simp only [hg15] at h; cases h
                              | ok v15 =>
                                obtain ⟨cares, r15⟩ := v15
                                simp only [hg15] at h
                                cases hr16 : randint cfg.coverages.lo
                                    cfg.coverages.hi r15 with
                                | error e => simp only [hr16] at h; cases h
                                | ok w16 =>
                                  obtain ⟨nCov, r16⟩ := w16
                                  simp only [hr16] at h
                                  cases hg17 : genCoverages version
                                      patient.rid clinics l1.patients nCov
                                      r16 with
                                  | error e =>
                                    simp only [hg17] at h; cases h
                                  | ok v17 =>
                                    obtain ⟨covs, r17⟩ := v17
                                    simp only [hg17, Except.ok.injEq,
                                      Prod.mk.injEq] at h
                                    obtain ⟨hout, -⟩ := h
                                    subst hout
                                    refine ⟨?_, ?_, ?_, ?_, ?_, ?_, ?_,
                                      ?_, ?_⟩
                                    · exact genDiagsGate_refs_ok cfg
                                        patient.rid practitioners _
                                        l1.observations env hp hpr hpe hobs
                                        r diags r1 hg1
                                    · exact genServiceRequests_refs_ok
                                        patient.rid practitioners _ env hp
                                        hpr hpe nServ r2 servs r3 hg3
                                    · exact genClinicalImpressions_refs_ok
                                        version patient.rid practitioners _
                                        env hp hpr hpe nClin r4 clins r5 hg5
                                    · exact genFamilyMemberHistories_refs_ok
                                        version patient.rid practitioners
                                        env hp hpr nFam r6 fams r7 hg7
                                    · exact genImmunizations_refs_ok
                                        patient.rid practitioners _
                                        locations env hp hpr hpe hl nImm r8
                                        imms r9 hg9
                                    · exact
                                        genMedicationAdministrations_refs_ok
                                        version patient.rid practitioners _
                                        l1.medication_requests env hp hpr
                                        hpe hmeds nMedA r10 medAs r11 hg11
                                    · exact genAllergyIntolerances_refs_ok
                                        version patient.rid practitioners
                                        env hp hpr nAll r12 alls r13 hg13
                                    · exact genCarePlans_refs_ok patient.rid
                                        practitioners _ l1.conditions env hp
                                        hpr hpe nCare r14 cares r15 hg15
                                    · exact genCoverages_refs_ok version
                                        patient.rid clinics l1.patients env
                                        hp hcl hpats nCov r16 covs r17 hg17

theorem loop2_refs_ok (cfg : AssembleConfig) (version : FhirVersion)
    (practitioners locations clinics : List Rec) (l1 : L1)
    (env : String → List String)
    (hpr : ∀ q ∈ practitioners, q.rid ∈ env "Practitioner")
    (hl : ∀ q ∈ locations, q.rid ∈ env "Location")
    (hcl : ∀ q ∈ clinics, q.rid ∈ env "Organization")
    (hpats : ∀ q ∈ l1.patients, q.rid ∈ env "Patient")
    (hencs : ∀ q ∈ l1.encounters, q.rid ∈ env "Encounter")
    (hobs : ∀ q ∈ l1.observations, q.rid ∈ env "Observation")
    (hmeds : ∀ q ∈ l1.medication_requests, q.rid ∈ env "MedicationRequest") :
    ∀ ps, (∀ p ∈ ps, p.rid ∈ env "Patient") →
    ∀ r out r',
      loop2 cfg version practitioners locations clinics l1 ps r =
        Except.ok (out, r') →
      (∀ rec ∈ out.diagnostic_reports, rec.refsOkIn env) ∧
      (∀ rec ∈ out.service_requests, rec.refsOkIn env) ∧
      (∀ rec ∈ out.clinical_impressions, rec.refsOkIn env) ∧
      (∀ rec ∈ out.family_member_histories, rec.refsOkIn env) ∧
      (∀ rec ∈ out.immunizations, rec.refsOkIn env) ∧
      (∀ rec ∈ out.medication_administrations, rec.refsOkIn env) ∧
      (∀ rec ∈ out.allergy_intolerances, rec.refsOkIn env) ∧
      (∀ rec ∈ out.care_plans, rec.refsOkIn env) ∧
      (∀ rec ∈ out.coverages, rec.refsOkIn env) := by
  intro ps
  induction ps with
  | nil =>
    intro hps r out r' h
    simp only [loop2, Except.ok.injEq, Prod.mk.injEq] at h
    rw [← h.1]
    exact ⟨fun rec hrec => absurd hrec (List.not_mem_nil rec),
      fun rec hrec => absurd hrec (List.not_mem_nil rec),
      fun rec hrec => absurd hrec (List.not_mem_nil rec),
      fun rec hrec => absurd hrec (List.not_mem_nil rec),
      fun rec hrec => absurd hrec (List.not_mem_nil rec),
      fun rec hrec => absurd hrec (List.not_mem_nil rec),
      fun rec hrec => absurd hrec (List.not_mem_nil rec),
      fun rec hrec => absurd hrec (List.not_mem_nil rec),
      fun rec hrec => absurd hrec (List.not_mem_nil rec)⟩
  | cons p ps ih =>
    intro hps r out r' h
    simp only [loop2, bind, Except.bind] at h
    cases hc1 : loop2Patient cfg version practitioners locations clinics l1
        p r with
    | error e => simp only [hc1] at h; cases h
    | ok v1 =>
      obtain ⟨one, r1⟩ := v1
      simp only [hc1] at h
      cases hc2 : loop2 cfg version practitioners locations clinics l1 ps
          r1 with
      | error e => simp only [hc2] at h; cases h
      | ok v2 =>
        obtain ⟨rest, r2⟩ := v2
        simp only [hc2, Except.ok.injEq, Prod.mk.injEq] at h
        obtain ⟨hout, -⟩ := h
        subst hout
        simp only [L2.append]
        have hone := loop2Patient_refs_ok cfg version practitioners locations
          clinics l1 p env hpr hl hcl (hps p (List.mem_cons_self _ _)) hpats
          hencs hobs hmeds r one r1 hc1
        have hrest := ih (fun q hq => hps q (List.mem_cons_of_mem _ hq))
          r1 rest r2 hc2
        obtain ⟨o1, o2, o3, o4, o5, o6, o7, o8, o9⟩ := hone
        obtain ⟨s1, s2, s3, s4, s5, s6, s7, s8, s9⟩ := hrest
        refine ⟨?_, ?_, ?_, ?_, ?_, ?_, ?_, ?_, ?_⟩
        · intro rec hrec
          rcases List.mem_append.mp hrec with hrec | hrec
          · exact o1 rec hrec
          · exact s1 rec hrec
        · intro rec hrec
          rcases List.mem_append.mp hrec with hrec | hrec
          · exact o2 rec hrec
          · exact s2 rec hrec
        · intro rec hrec
          rcases List.mem_append.mp hrec with hrec | hrec
          · exact o3 rec hrec
          · exact s3 rec hrec
        · intro rec hrec
          rcases List.mem_append.mp hrec with hrec | hrec
          · exact o4 rec hrec
          · exact s4 rec hrec
        · intro rec hrec
          rcases List.mem_append.mp hrec with hrec | hrec
          · exact o5 rec hrec
          · exact s5 rec hrec
        · intro rec hrec
          rcases List.mem_append.mp hrec with hrec | hrec
          · exact o6 rec hrec
          · exact s6 rec hrec
        · intro rec hrec
          rcases List.mem_append.mp hrec with hrec | hrec
          · exact o7 rec hrec
          · exact s7 rec hrec
        · intro rec hrec
          rcases List.mem_append.mp hrec with hrec | hrec
          · exact o8 rec hrec
          · exact s8 rec hrec
        · intro rec hrec
          rcases List.mem_append.mp hrec with hrec | hrec
          · exact o9 rec hrec
          · exact s9 rec hrec

theorem allTyped_refsOk (g : Graph) (env : String → List String)
    (h1 : ∀ rec ∈ g.patients, rec.refsOkIn env)
    (h2 : ∀ rec ∈ g.practitioners, rec.refsOkIn env)
    (h3 : ∀ rec ∈ g.clinics, rec.refsOkIn env)
    (h4 : ∀ rec ∈ g.locations, rec.refsOkIn env)
    (h5 : ∀ rec ∈ g.conditions, rec.refsOkIn env)
    (h6 : ∀ rec ∈ g.appointments, rec.refsOkIn env)
    (h7 : ∀ rec ∈ g.medication_requests, rec.refsOkIn env)
    (h8 : ∀ rec ∈ g.procedures, rec.refsOkIn env)
    (h9 : ∀ rec ∈ g.observations, rec.refsOkIn env)
    (h10 : ∀ rec ∈ g.encounters, rec.refsOkIn env)
    (h11 : ∀ rec ∈ g.diagnostic_reports, rec.refsOkIn env)
    (h12 : ∀ rec ∈ g.service_requests, rec.refsOkIn env)
    (h13 : ∀ rec ∈ g.clinical_impressions, rec.refsOkIn env)
    (h14 : ∀ rec ∈ g.family_member_histories, rec.refsOkIn env)
    (h15 : ∀ rec ∈ g.immunizations, rec.refsOkIn env)
    (h16 : ∀ rec ∈ g.medication_administrations, rec.refsOkIn env)
    (h17 : ∀ rec ∈ g.allergy_intolerances, rec.refsOkIn env)
    (h18 : ∀ rec ∈ g.care_plans, rec.refsOkIn env)
    (h19 : ∀ rec ∈ g.coverages, rec.refsOkIn env)
    (h20 : ∀ rec ∈ g.document_references, rec.refsOkIn env)
    (h21 : ∀ rec ∈ g.binaries, rec.refsOkIn env) :
    ∀ p ∈ g.allTyped, p.2.refsOkIn env := by
  intro p hp
  simp only [Graph.allTyped, List.mem_append, List.mem_map] at hp
  rcases hp with (((((((((((((((((((⟨q, hq, rfl⟩ | ⟨q, hq, rfl⟩) |
    ⟨q, hq, rfl⟩) | ⟨q, hq, rfl⟩) | ⟨q, hq, rfl⟩) | ⟨q, hq, rfl⟩) |
    ⟨q, hq, rfl⟩) | ⟨q, hq, rfl⟩) | ⟨q, hq, rfl⟩) | ⟨q, hq, rfl⟩) |
    ⟨q, hq, rfl⟩) | ⟨q, hq, rfl⟩) | ⟨q, hq, rfl⟩) | ⟨q, hq, rfl⟩) |
    ⟨q, hq, rfl⟩) | ⟨q, hq, rfl⟩) | ⟨q, hq, rfl⟩) | ⟨q, hq, rfl⟩) |
    ⟨q, hq, rfl⟩) | ⟨q, hq, rfl⟩) | ⟨q, hq, rfl⟩
  · exact h1 q hq
  · exact h2 q hq
  · exact h3 q hq
  · exact h4 q hq
  · exact h5 q hq
  · exact h6 q hq
  · exact h7 q hq
  · exact h8 q hq
  · exact h9 q hq
  · exact h10 q hq
  · exact h11 q hq
  · exact h12 q hq
  · exact h13 q hq
  · exact h14 q hq
  · exact h15 q hq
  · exact h16 q hq
  · exact h17 q hq
  · exact h18 q hq
  · exact h19 q hq
  · exact h20 q hq
  · exact h21 q hq

/-- Every reference to an assembler-supplied identifier in the assembled
graph has a target of the referenced resource type in the graph. -/
theorem assemble_refs_ok (cfg : AssembleConfig) (version : FhirVersion)
    (r : Rnd) (g : Graph) (r' : Rnd)
    (h : assembleStd cfg version r = Except.ok (g, r')) :
    ∀ p ∈ g.allTyped, p.2.refsOkIn g.idEnv := by
  simp only [assembleStd, bind, Except.bind] at h
  cases hc1 : loop1 cfg
      (genPractitioners cfg.practitioners (genClinics cfg.clinics r).2).1
      (genClinics cfg.clinics r).1.2 (genClinics cfg.clinics r).1.1
      cfg.patients
      (genPractitioners cfg.practitioners (genClinics cfg.clinics r).2).2 with
  | error e => simp only [hc1] at h; cases h
  | ok v1 =>
    obtain ⟨l1, r1⟩ := v1
    simp only [hc1] at h
    cases hc2 : loop2 cfg version
        (genPractitioners cfg.practitioners (genClinics cfg.clinics r).2).1
        (genClinics cfg.clinics r).1.2 (genClinics cfg.clinics r).1.1 l1
        l1.patients r1 with
    | error e => simp only [hc2] at h; cases h
    | ok v2 =>
      obtain ⟨l2, r2⟩ := v2
      simp only [hc2, Except.ok.injEq, Prod.mk.injEq] at h
      obtain ⟨hout, -⟩ := h
      subst hout
      set env : String → List String := Graph.idEnv
        ⟨l1.patients,
         (genPractitioners cfg.practitioners (genClinics cfg.clinics r).2).1,
         (genClinics cfg.clinics r).1.1, (genClinics cfg.clinics r).1.2,
         l1.conditions, l1.appointments, l1.medication_requests,
         l1.procedures, l1.observations, l1.encounters,
         l2.diagnostic_reports, l2.service_requests, l2.clinical_impressions,
         l2.family_member_histories, l2.immunizations,
         l2.medication_administrations, l2.allergy_intolerances,
         l2.care_plans, l2.coverages, l1.document_references, l1.binaries⟩
      have hpr : ∀ q ∈
          (genPractitioners cfg.practitioners (genClinics cfg.clinics r).2).1,
          q.rid ∈ env "Practitioner" :=
        fun q hq => List.mem_map_of_mem Rec.rid hq
      have hlo : ∀ q ∈ (genClinics cfg.clinics r).1.2,
          q.rid ∈ env "Location" :=
        fun q hq => List.mem_map_of_mem Rec.rid hq
      have hcl : ∀ q ∈ (genClinics cfg.clinics r).1.1,
          q.rid ∈ env "Organization" :=
        fun q hq => List.mem_map_of_mem Rec.rid hq
      have hpats : ∀ q ∈ l1.patients, q.rid ∈ env "Patient" :=
        fun q hq => List.mem_map_of_mem Rec.rid hq
      have hencs : ∀ q ∈ l1.encounters, q.rid ∈ env "Encounter" :=
        fun q hq => List.mem_map_of_mem Rec.rid hq
      have hbins : ∀ q ∈ l1.binaries, q.rid ∈ env "Binary" :=
        fun q hq => List.mem_map_of_mem Rec.rid hq
      have hobs : ∀ q ∈ l1.observations, q.rid ∈ env "Observation" :=
        fun q hq => List.mem_map_of_mem Rec.rid hq
      have hmeds : ∀ q ∈ l1.medication_requests,
          q.rid ∈ env "MedicationRequest" :=
        fun q hq => List.mem_map_of_mem Rec.rid hq
      have H1 := loop1_refs_ok cfg
        (genPractitioners cfg.practitioners (genClinics cfg.clinics r).2).1
        (genClinics cfg.clinics r).1.2 (genClinics cfg.clinics r).1.1 env
        hpr hlo hcl cfg.patients
        (genPractitioners cfg.practitioners (genClinics cfg.clinics r).2).2
        l1 r1 hc1 hpats hencs hbins
      have H2 := loop2_refs_ok cfg version
        (genPractitioners cfg.practitioners (genClinics cfg.clinics r).2).1
        (genClinics cfg.clinics r).1.2 (genClinics cfg.clinics r).1.1 l1 env
        hpr hlo hcl hpats hencs hobs hmeds l1.patients hpats r1 l2 r2 hc2
      have HC := genClinics_refs_ok env cfg.clinics r hcl
      have HP := genPractitioners_refs_ok env cfg.practitioners
        (genClinics cfg.clinics r).2
      obtain ⟨A1, A2, A3, A4, A5, A6, A7, A8, A9⟩ := H1
      obtain ⟨B1, B2, B3, B4, B5, B6, B7, B8, B9⟩ := H2
      exact allTyped_refsOk _ env A1 HP
        (fun rec hrec => HC rec (List.mem_append.mpr (Or.inl hrec)))
        (fun rec hrec => HC rec (List.mem_append.mpr (Or.inr hrec)))
        A2 A3 A4 A9 A8 A5 B1 B2 B3 B4 B5 B6 B7 B8 B9 A6 A7

theorem rewriteRef_cases (m : StoreMaps) (rt : String) (f : Ref) :
    (rewriteRef m rt f).rid = f.rid ∨
    (mapFor m f.kind).lookup f.rid = some (rewriteRef m rt f).rid := by
  unfold rewriteRef
  split
  · cases hl : (mapFor m f.kind).lookup f.rid with
    | none => left; rfl
    | some sid => right; rfl
  · left; rfl

theorem loop1Patient_conditions_nil (cfg : AssembleConfig)
    (practitioners locations clinics : List Rec)
    (hz : cfg.conditions = ⟨0, 0⟩) :
    ∀ r out r',
      loop1Patient cfg practitioners locations clinics r =
        Except.ok (out, r') →
      out.conditions = [] := by
  intro r out r' h
  simp only [loop1Patient, bind, Except.bind] at h
  cases hr1 : randint cfg.conditions.lo cfg.conditions.hi
      (generate_patient r).2 with
  | error e => simp only [hr1] at h; cases h
  | ok v1 =>
    obtain ⟨nCond, r1⟩ := v1
    simp only [hr1] at h
    cases hr2 : randint cfg.appointments.lo cfg.appointments.hi
        (genConditions (generate_patient r).1.rid nCond r1).2 with
    | error e => simp only [hr2] at h; cases h
    | ok v2 =>
      obtain ⟨nAppt, r2⟩ := v2
      simp only [hr2] at h
      cases hc3 : genAppointments (generate_patient r).1.rid practitioners
          locations nAppt r2 with
      | error e => simp only [hc3] at h; cases h
      | ok v3 =>
        obtain ⟨appts, r3⟩ := v3
        simp only [hc3] at h
        cases hr4 : randint cfg.medication_requests.lo
            cfg.medication_requests.hi r3 with
        | error e => simp only [hr4] at h; cases h
        | ok v4 =>
          obtain ⟨nMed, r4⟩ := v4
          simp only [hr4] at h
          cases hc5 : genMedicationRequests (generate_patient r).1.rid
              practitioners nMed r4 with
          | error e => simp only [hc5] at h; cases h
          | ok v5 =>
            obtain ⟨meds, r5⟩ := v5
            simp only [hc5] at h
            cases hr6 : randint cfg.encounters.lo cfg.encounters.hi r5 with
            | error e => simp only [hr6] at h; cases h
            | ok v6 =>
              obtain ⟨nEnc, r6⟩ := v6
              simp only [hr6] at h
              cases hc7 : genEncounters (generate_patient r).1.rid
                  practitioners locations clinics
                  cfg.document_reference_probability nEnc r6 with
              | error e => simp only [hc7] at h; cases h
              | ok v7 =>
                obtain ⟨encs, r7⟩ := v7
                simp only [hc7] at h
                cases hr8 : randint cfg.observations.lo cfg.observations.hi
                    r7 with
                | error e => simp only [hr8] at h; cases h
                | ok v8 =>
                  obtain ⟨nObs, r8⟩ := v8
                  simp only [hr8] at h
                  cases hc9 : genObservations (generate_patient r).1.rid
                      practitioners nObs r8 with
                  | error e => simp only [hc9] at h; cases h
                  | ok v9 =>
                    obtain ⟨obs, r9⟩ := v9
                    simp only [hc9] at h
                    cases hr10 : randint cfg.procedures.lo cfg.procedures.hi
                        r9 with
                    | error e => simp only [hr10] at h; cases h
                    | ok v10 =>
                      obtain ⟨nProc, r10⟩ := v10
                      simp only [hr10] at h
                      cases hc11 : genProcedures (generate_patient r).1.rid
                          practitioners nProc r10 with
                      | error e => simp only [hc11] at h; cases h
                      | ok v11 =>
                        obtain ⟨procs, r11⟩ := v11
                        simp only [hc11, Except.ok.injEq, Prod.mk.injEq] at h
                        obtain ⟨hout, -⟩ := h
                        have hlo : cfg.conditions.lo = 0 := by rw [hz]
                        have hhi : cfg.conditions.hi = 0 := by rw [hz]
                        rw [hlo, hhi] at hr1
                        unfold randint at hr1
                        rw [if_neg (lt_irrefl 0)] at hr1
                        simp only [Except.ok.injEq] at hr1
                        have h2 := congrArg Prod.fst hr1
                        simp [rndBetween, Nat.mod_one] at h2
                        rw [← hout]
                        show (genConditions (generate_patient r).1.rid nCond
                          r1).1 = []
                        rw [← h2]
                        rfl

theorem loop1_conditions_nil (cfg : AssembleConfig)
    (practitioners locations clinics : List Rec)
    (hz : cfg.conditions = ⟨0, 0⟩) :
    ∀ n r l1 r',
      loop1 cfg practitioners locations clinics n r = Except.ok (l1, r') →
      l1.conditions = [] := by
  intro n
  induction n with
  | zero =>
    intro r l1 r' h
    simp only [loop1, Except.ok.injEq, Prod.mk.injEq] at h
    rw [← h.1]
    rfl
  | succ n ih =>
    intro r l1 r' h
    simp only [loop1, bind, Except.bind] at h
    cases hc1 : loop1Patient cfg practitioners locations clinics r with
    | error e => simp only [hc1] at h; cases h
    | ok v1 =>
      obtain ⟨one, r1⟩ := v1
      simp only [hc1] at h
      cases hc2 : loop1 cfg practitioners locations clinics n r1 with
      | error e => simp only [hc2] at h; cases h
      | ok v2 =>
        obtain ⟨rest, r2⟩ := v2
        simp only [hc2, Except.ok.injEq, Prod.mk.injEq] at h
        obtain ⟨hout, -⟩ := h
        rw [← hout]
        show one.conditions ++ rest.conditions = []
        rw [loop1Patient_conditions_nil cfg practitioners locations clinics
          hz r one r1 hc1, ih r1 rest r2 hc2]
        rfl

/-- The graph assembled in the cfgC2 run, for the amended-claim
witnesses. -/
def graphC2 : Graph :=
  match assembleStd cfgC2 FhirVersion.R4 rndC2 with
  | Except.ok (g, _) => g
  | Except.error _ =>
    ⟨[], [], [], [], [], [], [], [], [], [], [], [], [], [], [], [], [],
     [], [], [], []⟩

/-- The generator state left by the cfgC2 run. -/
def rndC2out : Rnd :=
  match assembleStd cfgC2 FhirVersion.R4 rndC2 with
  | Except.ok (_, r) => r
  | Except.error _ => ⟨[], []⟩

/-- C2 (amended): in every graph assembled by main, every reference whose
identifier the assembler supplied targets a record of the referenced kind
present in the graph, and the publish-time rewrite of such a reference
either leaves the identifier unchanged or replaces it exactly by the id
map's entry for it — fabricated uuid4 references (Goal, CareTeam, planned
activities, immunization reasons/reactions, vaccine manufacturers) are
excluded, since they dangle by construction. -/
theorem claim_C2_amended_no_dangling_assembler_refs (cfg : AssembleConfig)
    (version : FhirVersion) (r : Rnd) (g : Graph) (r' : Rnd)
    (h : assembleStd cfg version r = Except.ok (g, r')) :
    ∀ p ∈ g.allTyped, ∀ f ∈ p.2.refs, f.arg = true →
      (∃ rec ∈ g.kindList f.kind, rec.rid = f.rid) ∧
      ∀ m : StoreMaps,
        (rewriteRef m p.1 f).rid = f.rid ∨
        (mapFor m f.kind).lookup f.rid = some (rewriteRef m p.1 f).rid := by
  intro p hp f hf harg
  obtain ⟨-, hrid⟩ := assemble_refs_ok cfg version r g r' h p hp f hf harg
  constructor
  · rcases List.mem_map.mp hrid with ⟨rec, hrec, hrr⟩
    exact ⟨rec, hrec, hrr⟩
  · intro m
    exact rewriteRef_cases m p.1 f

set_option maxRecDepth 10000 in
theorem claim_C2_amended_witness :
    assembleStd cfgC2 FhirVersion.R4 rndC2 = Except.ok (graphC2, rndC2out) ∧
    ∀ p ∈ graphC2.allTyped, ∀ f ∈ p.2.refs, f.arg = true →
      (∃ rec ∈ graphC2.kindList f.kind, rec.rid = f.rid) ∧
      ∀ m : StoreMaps,
        (rewriteRef m p.1 f).rid = f.rid ∨
        (mapFor m f.kind).lookup f.rid = some (rewriteRef m p.1 f).rid :=
  ⟨by rfl,
   claim_C2_amended_no_dangling_assembler_refs cfgC2 FhirVersion.R4 rndC2
     graphC2 rndC2out (by rfl)⟩

/-- C5 (amended): when the id maps cover every assembler-created record of
the mapped kinds, every reference field that the publish pass rewrites
(and whose identifier the assembler supplied) is resolved to exactly the
store identifier recorded in the map for its target — references outside
the rewritten field set (fabricated uuid4 targets, the contained
Provenance practitioner of MedicationAdministration, the R5 participant
actors of FamilyMemberHistory and AllergyIntolerance) keep their local
identifiers in the published output. -/
theorem claim_C5_amended_rewritten_fields_resolved (cfg : AssembleConfig)
    (version : FhirVersion) (r : Rnd) (g : Graph) (r' : Rnd) (m : StoreMaps)
    (h : assembleStd cfg version r = Except.ok (g, r'))
    (hcov : ∀ kn ∈ mappedKindNames, ∀ rid ∈ g.idEnv kn,
      ((mapFor m kn).lookup rid).isSome = true) :
    ∀ p ∈ g.allTyped, ∀ f ∈ p.2.refs, f.arg = true →
      rewrittenField p.1 f.field = true →
      ∃ sid, (mapFor m f.kind).lookup f.rid = some sid ∧
        (rewriteRef m p.1 f).rid = sid := by
  intro p hp f hf harg hrw
  obtain ⟨hkind, hrid⟩ := assemble_refs_ok cfg version r g r' h p hp f hf harg
  obtain ⟨sid, hsid⟩ :=
    Option.isSome_iff_exists.mp (hcov f.kind hkind f.rid hrid)
  refine ⟨sid, hsid, ?_⟩
  unfold rewriteRef
  rw [if_pos hrw, hsid]

set_option maxRecDepth 10000 in
theorem claim_C5_amended_witness :
    (∀ kn ∈ mappedKindNames, ∀ rid ∈ graphC2.idEnv kn,
      ((mapFor wMapsC5 kn).lookup rid).isSome = true) ∧
    ∀ p ∈ graphC2.allTyped, ∀ f ∈ p.2.refs, f.arg = true →
      rewrittenField p.1 f.field = true →
      ∃ sid, (mapFor wMapsC5 f.kind).lookup f.rid = some sid ∧
        (rewriteRef wMapsC5 p.1 f).rid = sid :=
  ⟨by decide,
   claim_C5_amended_rewritten_fields_resolved cfgC2 FhirVersion.R4 rndC2
     graphC2 rndC2out wMapsC5 (by rfl) (by decide)⟩

/-- C9 (amended): when the configured conditions range is zero and the
assembly run completes (it can instead raise, as the counterexample
shows), the graph holds no Condition records, and no assembler-supplied
reference anywhere in the graph targets the Condition kind, so nothing
dangles for that kind. -/
theorem claim_C9_amended_zero_conditions (cfg : AssembleConfig)
    (version : FhirVersion) (r : Rnd) (g : Graph) (r' : Rnd)
    (hz : cfg.conditions = ⟨0, 0⟩)
    (h : assembleStd cfg version r = Except.ok (g, r')) :
    g.conditions = [] ∧
    ∀ p ∈ g.allTyped, ∀ f ∈ p.2.refs, f.arg = true →
      f.kind ≠ "Condition" := by
  constructor
  · simp only [assembleStd, bind, Except.bind] at h
    cases hc1 : loop1 cfg
        (genPractitioners cfg.practitioners (genClinics cfg.clinics r).2).1
        (genClinics cfg.clinics r).1.2 (genClinics cfg.clinics r).1.1
        cfg.patients
        (genPractitioners cfg.practitioners
          (genClinics cfg.clinics r).2).2 with
    | error e => simp only [hc1] at h; cases h
    | ok v1 =>
      obtain ⟨l1, r1⟩ := v1
      simp only [hc1] at h
      cases hc2 : loop2 cfg version
          (genPractitioners cfg.practitioners (genClinics cfg.clinics r).2).1
          (genClinics cfg.clinics r).1.2 (genClinics cfg.clinics r).1.1 l1
          l1.patients r1 with
      | error e => simp only [hc2] at h; cases h
      | ok v2 =>
        obtain ⟨l2, r2⟩ := v2
        simp only [hc2, Except.ok.injEq, Prod.mk.injEq] at h
        obtain ⟨hout, -⟩ := h
        rw [← hout]
        exact loop1_conditions_nil cfg _ _ _ hz cfg.patients _ l1 r1 hc1
  · intro p hp f hf harg hkc
    obtain ⟨hkind, -⟩ :=
      assemble_refs_ok cfg version r g r' h p hp f hf harg
    rw [hkc] at hkind
    exact absurd hkind (by decide)

set_option maxRecDepth 10000 in
theorem claim_C9_amended_witness :
    cfgC2.conditions = ⟨0, 0⟩ ∧
    (graphC2.conditions = [] ∧
     ∀ p ∈ graphC2.allTyped, ∀ f ∈ p.2.refs, f.arg = true →
       f.kind ≠ "Condition") :=
  ⟨rfl, claim_C9_amended_zero_conditions cfgC2 FhirVersion.R4 rndC2 graphC2
    rndC2out rfl (by rfl)⟩

end Assemble

end FhirPopulate
